import Mathlib

/-!
# Quake3 map renderer: BSP descent, visibility set, frustum culling and map loader

A shallow embedding of the core of the renderer:

* `src/render/Q3map.cpp`: `EQ3Map::find_leaf`, `EQ3Map::is_cluster_visable`, `EQ3Map::render`
* `src/render/camera.cpp`: `RCamera::is_point_visable`, `RCamera::is_box_visable`
* `src/engine/Q3map.cpp`: `EQ3Map::load`, `EQ3Map::load_header`, `EQ3Map::load_lumps`

Conventions of the embedding.

* `float` values are rationals (`ℚ`): arithmetic is taken exactly.
* `int` values are integers (`ℤ`); C division `/` is `Int.tdiv` (rounds towards zero), C `&` on
  `int` is `Int.land` (two's complement), C `~` is `~~~`.
* A table (`T* table`) is a `List T`; reading `table[i]` outside the list is undefined behaviour
  in C and is reported by the embedding (`none`, `Outcome.out_of_bounds`, `render_event.fault`).
* A `while` loop that need not terminate takes a fuel argument and reports
  `Outcome.out_of_fuel` when the fuel is used up.
-/

namespace Q3

/-! ## Data model (`include/engine/Q3map.h`, `include/math/vector.h`) -/

/-- A `byte` is an `unsigned char`. -/
abbrev byte := Fin 256

/-- Result of running code that indexes tables and may loop. -/
inductive Outcome (α : Type) where
  | value (a : α)
  | out_of_bounds
  | out_of_fuel
deriving DecidableEq, Repr

/-- The read `table[i]` for an `int` index: `none` outside the table. -/
def table_get {α : Type} (table : List α) (i : ℤ) : Option α :=
  if i < 0 then none else table[i.toNat]?

/-- The class `vector3`: three floats. -/
structure vector3 where
  x : ℚ
  y : ℚ
  z : ℚ
deriving DecidableEq, Repr

/-- The struct `q3bsp_plane_t`: `float normal[3]; float dist;`. -/
structure q3bsp_plane_t where
  normal : ℚ × ℚ × ℚ
  dist : ℚ
deriving DecidableEq, Repr

/-- The struct `q3bsp_node_t`: `int plane; int children[2]; int mins[3]; int maxs[3];`. -/
structure q3bsp_node_t where
  plane : ℤ
  children : ℤ × ℤ
  mins : ℤ × ℤ × ℤ
  maxs : ℤ × ℤ × ℤ
deriving DecidableEq, Repr

/-- The struct `q3bsp_leaf_t`. -/
structure q3bsp_leaf_t where
  cluster : ℤ
  area : ℤ
  mins : ℤ × ℤ × ℤ
  maxs : ℤ × ℤ × ℤ
  leafface : ℤ
  num_leaffaces : ℤ
  leafbrush : ℤ
  num_leafbrushes : ℤ
deriving DecidableEq, Repr

/-- The struct `q3bsp_leafface_t`: `int face;`. -/
structure q3bsp_leafface_t where
  face : ℤ
deriving DecidableEq, Repr

/-- The struct `q3bsp_visdata_t`: `int num_vecs; int sz_vecs; byte* vecs;`. -/
structure q3bsp_visdata_t where
  num_vecs : ℤ
  sz_vecs : ℤ
  vecs : List byte
deriving DecidableEq, Repr

/-! ## `EQ3Map::find_leaf` (`src/render/Q3map.cpp`) -/

/-- The expression `plane->normal[0] * pos->x + plane->normal[1] * pos->y +
plane->normal[2] * pos->z - plane->dist` of `find_leaf` in exact arithmetic: no operation
rounds. The same expression with every operation rounded to a `float` is
`float_plane_distance`. -/
def plane_distance (plane : q3bsp_plane_t) (pos : vector3) : ℚ :=
  plane.normal.1 * pos.x + plane.normal.2.1 * pos.y + plane.normal.2.2 * pos.z - plane.dist

/-- The loop `while (i >= 0) { ... }` of `find_leaf`, followed by `return ~i`.
One unit of fuel is spent per iteration. -/
def find_leaf_loop (nodes : List q3bsp_node_t) (planes : List q3bsp_plane_t) (pos : vector3) :
    ℕ → ℤ → Outcome ℤ
  | 0, i => if i ≥ 0 then Outcome.out_of_fuel else Outcome.value (~~~i)
  | fuel + 1, i =>
    if i ≥ 0 then
      match table_get nodes i with
      | none => Outcome.out_of_bounds
      | some node =>
        match table_get planes node.plane with
        | none => Outcome.out_of_bounds
        | some plane =>
          if plane_distance plane pos ≥ 0 then
            find_leaf_loop nodes planes pos fuel node.children.1
          else
            find_leaf_loop nodes planes pos fuel node.children.2
    else Outcome.value (~~~i)

/-- The method `EQ3Map::find_leaf`: the loop started at `i = 0`, with `distance` computed in
exact arithmetic (`plane_distance`). The method with `distance` computed in the arithmetic of
`float` is `float_find_leaf`. -/
def find_leaf (nodes : List q3bsp_node_t) (planes : List q3bsp_plane_t) (pos : vector3)
    (fuel : ℕ) : Outcome ℤ :=
  find_leaf_loop nodes planes pos fuel 0

/-- The dot product of the specification. -/
def spec_dot (n : ℚ × ℚ × ℚ) (p : vector3) : ℚ :=
  n.1 * p.x + n.2.1 * p.y + n.2.2 * p.z

/-- The reference descent of the specification (§4.3), following its words: at a node index
`i ≥ 0` compute `dot(normal, point) - dist` for the node's plane, move to `children[0]` when it is
`≥ 0` and to `children[1]` otherwise; the descent ends the first time the index is negative.
`spec_descent nodes planes p i r` says that the descent from index `i` ends at the negative
index `r`. -/
inductive spec_descent (nodes : List q3bsp_node_t) (planes : List q3bsp_plane_t) (p : vector3) :
    ℤ → ℤ → Prop where
  | leaf (r : ℤ) : r < 0 → spec_descent nodes planes p r r
  | front (i r : ℤ) (node : q3bsp_node_t) (plane : q3bsp_plane_t) :
      0 ≤ i → table_get nodes i = some node → table_get planes node.plane = some plane →
      spec_dot plane.normal p - plane.dist ≥ 0 →
      spec_descent nodes planes p node.children.1 r → spec_descent nodes planes p i r
  | back (i r : ℤ) (node : q3bsp_node_t) (plane : q3bsp_plane_t) :
      0 ≤ i → table_get nodes i = some node → table_get planes node.plane = some plane →
      spec_dot plane.normal p - plane.dist < 0 →
      spec_descent nodes planes p node.children.2 r → spec_descent nodes planes p i r

/-! ## `EQ3Map::is_cluster_visable` (`src/render/Q3map.cpp`) -/

/-- The method `EQ3Map::is_cluster_visable`. The byte read
`visdata.vecs[(current * visdata.sz_vecs) + (test / 8)]` gives `none` outside the table; the
index is computed without overflow. -/
def is_cluster_visable (visdata : q3bsp_visdata_t) (current test : ℤ) : Option ℤ :=
  if current < 0 then some 1
  else
    match table_get visdata.vecs (current * visdata.sz_vecs + Int.tdiv test 8) with
    | none => none
    | some vec => some (Int.land (vec.val : ℤ) (((1 : ℕ) <<< (Int.land test 7).toNat : ℕ) : ℤ))

/-! ## `RCamera` (`src/render/camera.cpp`) -/

/-- The members of the class `RCamera` read by the visibility tests: the position and
`float frustum[6][4]`, the six clipping planes `(a, b, c, d)`. -/
structure RCamera where
  pos : vector3
  frustum : Fin 6 → Fin 4 → ℚ

/-- The method `RCamera::get_position`: copies `pos` into the vector given. -/
def RCamera.get_position (camera : RCamera) : vector3 :=
  { x := camera.pos.x, y := camera.pos.y, z := camera.pos.z }

/-- The expression `(frustum[i][0] * x) + (frustum[i][1] * y) + (frustum[i][2] * z) +
frustum[i][3]` of the two visibility tests. -/
def frustum_distance (camera : RCamera) (i : Fin 6) (x y z : ℚ) : ℚ :=
  (camera.frustum i 0 * x) + (camera.frustum i 1 * y) + (camera.frustum i 2 * z) +
    camera.frustum i 3

/-- The loop `for(; i < 6; ++i)` of `is_point_visable` over the remaining values of `i`,
followed by `return 1`. -/
def is_point_visable_loop (camera : RCamera) (x y z : ℚ) : List (Fin 6) → ℤ
  | [] => 1
  | i :: rest =>
    if frustum_distance camera i x y z ≤ 0 then 0
    else is_point_visable_loop camera x y z rest

/-- The method `RCamera::is_point_visable`: `i` runs over 0, 1, ..., 5. -/
def is_point_visable (camera : RCamera) (x y z : ℚ) : ℤ :=
  is_point_visable_loop camera x y z [0, 1, 2, 3, 4, 5]

/-- The loop `for(; i < 6; i++ )` of `is_box_visable` over the remaining values of `i`,
followed by `return 1`. The eight disjuncts are those of the source, in its order; the
second one compares with `< 0`. -/
def is_box_visable_loop (camera : RCamera) (x1 y1 z1 x2 y2 z2 : ℚ) : List (Fin 6) → ℤ
  | [] => 1
  | i :: rest =>
    if frustum_distance camera i x1 y1 z1 > 0 ∨
       frustum_distance camera i x2 y1 z1 < 0 ∨
       frustum_distance camera i x1 y2 z1 > 0 ∨
       frustum_distance camera i x2 y2 z1 > 0 ∨
       frustum_distance camera i x1 y1 z2 > 0 ∨
       frustum_distance camera i x2 y1 z2 > 0 ∨
       frustum_distance camera i x1 y2 z2 > 0 ∨
       frustum_distance camera i x2 y2 z2 > 0 then
      is_box_visable_loop camera x1 y1 z1 x2 y2 z2 rest
    else 0

/-- The method `RCamera::is_box_visable`: `i` runs over 0, 1, ..., 5. -/
def is_box_visable (camera : RCamera) (x1 y1 z1 x2 y2 z2 : ℚ) : ℤ :=
  is_box_visable_loop camera x1 y1 z1 x2 y2 z2 [0, 1, 2, 3, 4, 5]

/-- The eight corners of the axis-aligned box `(x1, y1, z1)`-`(x2, y2, z2)`. -/
def box_corners (x1 y1 z1 x2 y2 z2 : ℚ) : List (ℚ × ℚ × ℚ) :=
  [(x1, y1, z1), (x2, y1, z1), (x1, y2, z1), (x2, y2, z1),
   (x1, y1, z2), (x2, y1, z2), (x1, y2, z2), (x2, y2, z2)]

/-- A camera whose six planes all face the negative x axis: `(-1, 0, 0, 0)`. -/
def camera_facing_neg_x : RCamera :=
  { pos := ⟨0, 0, 0⟩, frustum := fun _ => ![-1, 0, 0, 0] }

/-- A camera whose plane 0 is `(1, -1, -1, 0)` and whose other five planes are `(0, 0, 0, 1)`
(every point is in front of them). -/
def camera_one_plane : RCamera :=
  { pos := ⟨0, 0, 0⟩, frustum := fun i => if i = 0 then ![1, -1, -1, 0] else ![0, 0, 0, 1] }

/-! ## `EQ3Map::render` (`src/render/Q3map.cpp`) -/

/-- The values `n, n-1, ..., 0` of a loop variable counted down from `n ≥ 0`. -/
def count_down_from : ℕ → List ℤ
  | 0 => [0]
  | n + 1 => ((n + 1 : ℕ) : ℤ) :: count_down_from n

/-- The successive values of the loop variable of `for (; v >= 0; --v)` started at `start`:
`start, start - 1, ..., 0`, and none when `start < 0`. -/
def count_down (start : ℤ) : List ℤ :=
  if start ≥ 0 then count_down_from start.toNat else []

/-- What `render` does, in order: `leaf i` when the loop body starts on `leafs[i]`,
`render_face f` for the call `render_face(f)`, and `fault` when a table is read outside its
bounds (the run is not followed any further). -/
inductive render_event where
  | leaf (i : ℤ)
  | render_face (face_index : ℤ)
  | fault
deriving DecidableEq, Repr

/-- The inner loop of `render`, `for (; f >= 0; --f) { int f_index =
leaffaces[t_leaf->leafface + f].face; render_face(f_index); }`, over the remaining values of
`f`; `rest` is what the run does after the loop. -/
def render_faces (leaffaces : List q3bsp_leafface_t) (t_leaf : q3bsp_leaf_t) :
    List ℤ → List render_event → List render_event
  | [], rest => rest
  | f :: fs, rest =>
    match table_get leaffaces (t_leaf.leafface + f) with
    | none => [render_event.fault]
    | some lf => render_event.render_face lf.face :: render_faces leaffaces t_leaf fs rest

/-- The outer loop of `render`, `for (; i >= 0; --i) { ... }`, over the remaining values
of `i`. -/
def render_leaves (leafs : List q3bsp_leaf_t) (leaffaces : List q3bsp_leafface_t)
    (visdata : q3bsp_visdata_t) (camera : RCamera) (cluster : ℤ) : List ℤ → List render_event
  | [] => []
  | i :: is =>
    render_event.leaf i ::
      match table_get leafs i with
      | none => [render_event.fault]
      | some t_leaf =>
        match is_cluster_visable visdata cluster t_leaf.cluster with
        | none => [render_event.fault]
        | some visable =>
          if visable = 0 then
            render_leaves leafs leaffaces visdata camera cluster is
          else if is_box_visable camera t_leaf.mins.1 t_leaf.mins.2.1 t_leaf.mins.2.2
              t_leaf.maxs.1 t_leaf.maxs.2.1 t_leaf.maxs.2.2 = 0 then
            render_leaves leafs leaffaces visdata camera cluster is
          else
            render_faces leaffaces t_leaf (count_down t_leaf.num_leaffaces)
              (render_leaves leafs leaffaces visdata camera cluster is)

/-- The method `EQ3Map::render` (the branch compiled, `#else`). The members of `EQ3Map` it
reads are passed explicitly; `fuel` bounds the loop of `find_leaf`. -/
def render (num_leafs : ℤ) (nodes : List q3bsp_node_t) (planes : List q3bsp_plane_t)
    (leafs : List q3bsp_leaf_t) (leaffaces : List q3bsp_leafface_t) (visdata : q3bsp_visdata_t)
    (camera : RCamera) (fuel : ℕ) : Outcome (List render_event) :=
  match find_leaf nodes planes camera.get_position fuel with
  | Outcome.out_of_fuel => Outcome.out_of_fuel
  | Outcome.out_of_bounds => Outcome.out_of_bounds
  | Outcome.value leaf =>
    match table_get leafs leaf with
    | none => Outcome.out_of_bounds
    | some camera_leaf =>
      Outcome.value
        (render_leaves leafs leaffaces visdata camera camera_leaf.cluster (count_down num_leafs))

/-- A camera at the origin whose six planes are `(0, 0, 0, 1)`: every point is in front of
every plane. -/
def camera_sees_all : RCamera :=
  { pos := ⟨0, 0, 0⟩, frustum := fun _ => ![0, 0, 0, 1] }

/-- A leaf of cluster 0 with an empty leaf-face range starting at `leaffaces[0]`. -/
def leaf_without_faces : q3bsp_leaf_t :=
  { cluster := 0, area := 0, mins := (-8, -8, -8), maxs := (8, 8, 8),
    leafface := 0, num_leaffaces := 0, leafbrush := 0, num_leafbrushes := 0 }

/-- A leaf of cluster 0 whose leaf-face range is `leaffaces[0]`, `leaffaces[1]`. -/
def leaf_with_two_faces : q3bsp_leaf_t :=
  { cluster := 0, area := 0, mins := (-8, -8, -8), maxs := (8, 8, 8),
    leafface := 0, num_leaffaces := 2, leafbrush := 0, num_leafbrushes := 0 }

/-- A node whose two children are both leaf 0 (`~0 = -1`). -/
def node_to_leaf_zero : q3bsp_node_t :=
  { plane := 0, children := (-1, -1), mins := (-8, -8, -8), maxs := (8, 8, 8) }

/-- The plane `x = 0`. -/
def plane_x : q3bsp_plane_t := { normal := (1, 0, 0), dist := 0 }

/-- A visibility table of one cluster that sees itself. -/
def visdata_one_cluster : q3bsp_visdata_t := { num_vecs := 1, sz_vecs := 1, vecs := [1] }

/-! ## The map file and the loader state (`include/engine/Q3map.h`) -/

/-- A stream opened with `fopen(file, "rb")`: the bytes of the file and the position
indicator. -/
structure FILE where
  data : List byte
  pos : ℕ
deriving DecidableEq, Repr

/-- The call `fseek(fptr, offset, SEEK_SET)`: a negative offset fails and leaves the position
unchanged. -/
def fseek (fptr : FILE) (offset : ℤ) : FILE :=
  if offset < 0 then fptr else { fptr with pos := offset.toNat }

/-- The call `fread(ptr, size, count, fptr)`: the bytes delivered to `ptr` (all `size * count`
of them, or fewer at the end of the file) and the stream advanced by that many bytes. -/
def fread (fptr : FILE) (size count : ℕ) : List byte × FILE :=
  let got := (fptr.data.drop fptr.pos).take (size * count)
  (got, { fptr with pos := fptr.pos + got.length })

/-- The `int` held by four bytes of memory (little-endian, two's complement). -/
def int_of_bytes (b : List byte) : ℤ :=
  let u : ℕ := (b.getD 0 0).val + 256 * (b.getD 1 0).val + 65536 * (b.getD 2 0).val +
    16777216 * (b.getD 3 0).val
  if u < 2147483648 then (u : ℤ) else (u : ℤ) - 4294967296

/-- The four bytes of memory that hold an `int` (little-endian, two's complement). -/
def bytes_of_int (v : ℤ) : List byte :=
  let u : ℕ := (v % 4294967296).toNat
  [Fin.ofNat u, Fin.ofNat (u / 256), Fin.ofNat (u / 65536), Fin.ofNat (u / 16777216)]

/-- An `int` variable after `fread` delivered the bytes `got` to its address: the bytes
delivered replace the first bytes of the variable. -/
def store_int (old : ℤ) (got : List byte) : ℤ :=
  int_of_bytes (got ++ (bytes_of_int old).drop got.length)

/-- Conversion of an `int` to `size_t` (64 bits), as for the size arguments of `fread`. -/
def to_size_t (v : ℤ) : ℕ := (v % 18446744073709551616).toNat

/-- The struct `q3bsp_direntry_t`: `int offset; int length;`. -/
structure q3bsp_direntry_t where
  offset : ℤ
  length : ℤ
deriving DecidableEq, Repr

/-- The struct `q3bsp_header_t`: `int magic; int version; struct q3bsp_direntry_t
direntry[17];`. -/
structure q3bsp_header_t where
  magic : ℤ
  version : ℤ
  direntry : Fin 17 → q3bsp_direntry_t

/-- The lump index `LUMP_ENTITIES`. -/
def LUMP_ENTITIES : Fin 17 := 0
/-- The lump index `LUMP_TEXTURES`. -/
def LUMP_TEXTURES : Fin 17 := 1
/-- The lump index `LUMP_PLANES`. -/
def LUMP_PLANES : Fin 17 := 2
/-- The lump index `LUMP_NODES`. -/
def LUMP_NODES : Fin 17 := 3
/-- The lump index `LUMP_LEAFS`. -/
def LUMP_LEAFS : Fin 17 := 4
/-- The lump index `LUMP_LEAFFACES`. -/
def LUMP_LEAFFACES : Fin 17 := 5
/-- The lump index `LUMP_LEAFBRUSHES`. -/
def LUMP_LEAFBRUSHES : Fin 17 := 6
/-- The lump index `LUMP_MODELS`. -/
def LUMP_MODELS : Fin 17 := 7
/-- The lump index `LUMP_BRUSHES`. -/
def LUMP_BRUSHES : Fin 17 := 8
/-- The lump index `LUMP_BRUSHSIDES`. -/
def LUMP_BRUSHSIDES : Fin 17 := 9
/-- The lump index `LUMP_VERTEXES`. -/
def LUMP_VERTEXES : Fin 17 := 10
/-- The lump index `LUMP_MESHVERTS`. -/
def LUMP_MESHVERTS : Fin 17 := 11
/-- The lump index `LUMP_EFFECTS`. -/
def LUMP_EFFECTS : Fin 17 := 12
/-- The lump index `LUMP_FACES`. -/
def LUMP_FACES : Fin 17 := 13
/-- The lump index `LUMP_LIGHTMAPS`. -/
def LUMP_LIGHTMAPS : Fin 17 := 14
/-- The lump index `LUMP_LIGHTVOLS`. -/
def LUMP_LIGHTVOLS : Fin 17 := 15
/-- The lump index `LUMP_VISDATA`. -/
def LUMP_VISDATA : Fin 17 := 16

/-- The constant `SIZEOF_TEXTURE`. -/
def SIZEOF_TEXTURE : ℤ := 72
/-- The constant `SIZEOF_PLANE`. -/
def SIZEOF_PLANE : ℤ := 16
/-- The constant `SIZEOF_NODE`. -/
def SIZEOF_NODE : ℤ := 32
/-- The constant `SIZEOF_LEAF`. -/
def SIZEOF_LEAF : ℤ := 48
/-- The constant `SIZEOF_LEAFFACE`. -/
def SIZEOF_LEAFFACE : ℤ := 4
/-- The constant `SIZEOF_LEAFBRUSH`. -/
def SIZEOF_LEAFBRUSH : ℤ := 4
/-- The constant `SIZEOF_MODEL`. -/
def SIZEOF_MODEL : ℤ := 80
/-- The constant `SIZEOF_BRUSH`. -/
def SIZEOF_BRUSH : ℤ := 12
/-- The constant `SIZEOF_BRUSHSIDE`. -/
def SIZEOF_BRUSHSIDE : ℤ := 8
/-- The constant `SIZEOF_VERTEX`. -/
def SIZEOF_VERTEX : ℤ := 44
/-- The constant `SIZEOF_MESHVERT`. -/
def SIZEOF_MESHVERT : ℤ := 4
/-- The constant `SIZEOF_EFFECT`. -/
def SIZEOF_EFFECT : ℤ := 72
/-- The constant `SIZEOF_FACE`. -/
def SIZEOF_FACE : ℤ := 104
/-- The constant `SIZEOF_LIGHTMAP`. -/
def SIZEOF_LIGHTMAP : ℤ := 49152
/-- The constant `SIZEOF_LIGHTVOL`. -/
def SIZEOF_LIGHTVOL : ℤ := 8

/-- A record of a lump table as the loader leaves it in memory: for each `fread` of the record,
in the order of the source, the bytes delivered to the member read. -/
abbrev lump_record := List (List byte)

/-- The members of the class `EQ3Map` written by the loader. Each table holds the records read;
`entities` is the buffer `entities.ents`. -/
structure EQ3Map where
  header : q3bsp_header_t
  entities : List byte
  num_textures : ℤ
  num_planes : ℤ
  num_nodes : ℤ
  num_leafs : ℤ
  num_leaffaces : ℤ
  num_leafbrushes : ℤ
  num_models : ℤ
  num_brushes : ℤ
  num_brushsides : ℤ
  num_vertexes : ℤ
  num_meshverts : ℤ
  num_effects : ℤ
  num_faces : ℤ
  num_lightmaps : ℤ
  num_lightvols : ℤ
  textures : List lump_record
  planes : List lump_record
  nodes : List lump_record
  leafs : List lump_record
  leaffaces : List lump_record
  leafbrushes : List lump_record
  models : List lump_record
  brushes : List lump_record
  brushsides : List lump_record
  vertexes : List lump_record
  meshverts : List lump_record
  effects : List lump_record
  faces : List lump_record
  lightmaps : List lump_record
  lightvols : List lump_record
  visdata : q3bsp_visdata_t

/-- The macro `SEEK_LUMP(lump_type)`: `fseek(fptr, header.direntry[lump_type].offset,
SEEK_SET)`. -/
def SEEK_LUMP (m : EQ3Map) (fptr : FILE) (lump_type : Fin 17) : FILE :=
  fseek fptr (m.header.direntry lump_type).offset

/-- The macro `LUMP_LENGTH(lump_type)`: `header.direntry[lump_type].length`. -/
def LUMP_LENGTH (m : EQ3Map) (lump_type : Fin 17) : ℤ :=
  (m.header.direntry lump_type).length

/-! ## `swizzle_coords_f`, `swizzle_coords_i` (`src/math/mat.c`) -/

/-- The functions `swizzle_coords_f` and `swizzle_coords_i`: `SWAP(type, *y, *z)`. -/
def swizzle_coords {α : Type} (x y z : α) : α × α × α := (x, z, y)

/-- The call `swizzle_coords_f(&v[0], &v[1], &v[2])` (or `swizzle_coords_i`) on a member
`v[3]` of 4-byte elements held as 12 bytes. A member that was not read completely is left as
read. -/
def swizzle_member (v : List byte) : List byte :=
  if v.length = 12 then
    let r := swizzle_coords (v.take 4) ((v.drop 4).take 4) (v.drop 8)
    r.1 ++ r.2.1 ++ r.2.2
  else v

/-! ## `EQ3Map::load_header`, `EQ3Map::load_lumps`, `EQ3Map::load` (`src/engine/Q3map.cpp`) -/

/-- The reads and conversions of one iteration of a lump loop of `load_lumps`: `freads` lists
the `(size, count)` arguments of the `fread` calls in order, `swizzled` the positions (in that
list) of the members passed to `swizzle_coords_f` or `swizzle_coords_i`. -/
structure lump_layout where
  freads : List (ℕ × ℕ)
  swizzled : List ℕ
deriving DecidableEq, Repr

/-- Lump 1, textures: `name` (64, 1), `flags` (4, 1), `contents` (4, 1). -/
def texture_layout : lump_layout := { freads := [(64, 1), (4, 1), (4, 1)], swizzled := [] }

/-- Lump 2, planes: `normal` (4, 3), `dist` (4, 1); `normal` is swizzled. -/
def plane_layout : lump_layout := { freads := [(4, 3), (4, 1)], swizzled := [0] }

/-- Lump 3, nodes: `plane` (4, 1), `children` (4, 2), `mins` (4, 3), `maxs` (4, 3); `mins` and
`maxs` are swizzled. -/
def node_layout : lump_layout :=
  { freads := [(4, 1), (4, 2), (4, 3), (4, 3)], swizzled := [2, 3] }

/-- Lump 4, leafs: `cluster`, `area` (4, 1), `mins`, `maxs` (4, 3), `leafface`,
`num_leaffaces`, `leafbrush`, `num_leafbrushes` (4, 1); `mins` and `maxs` are swizzled. -/
def leaf_layout : lump_layout :=
  { freads := [(4, 1), (4, 1), (4, 3), (4, 3), (4, 1), (4, 1), (4, 1), (4, 1)],
    swizzled := [2, 3] }

/-- Lump 5, leaf faces: `face` (4, 1). -/
def leafface_layout : lump_layout := { freads := [(4, 1)], swizzled := [] }

/-- Lump 6, leaf brushes: `brush` (4, 1). -/
def leafbrush_layout : lump_layout := { freads := [(4, 1)], swizzled := [] }

/-- Lump 7, models: `mins`, `maxs` (4, 3), `face`, `num_faces`, `brush`, `num_brushes`
(4, 1); `mins` and `maxs` are swizzled. -/
def model_layout : lump_layout :=
  { freads := [(4, 3), (4, 3), (4, 1), (4, 1), (4, 1), (4, 1)], swizzled := [0, 1] }

/-- Lump 8, brushes: `brushside`, `num_brushsides`, `texture` (4, 1). -/
def brush_layout : lump_layout := { freads := [(4, 1), (4, 1), (4, 1)], swizzled := [] }

/-- Lump 9, brush sides: `plane`, `texture` (4, 1). -/
def brushside_layout : lump_layout := { freads := [(4, 1), (4, 1)], swizzled := [] }

/-- Lump 10, vertexes: `position` (4, 3), `texcoord` (4, 4), `normal` (4, 3), `color` (1, 4);
`position` and `normal` are swizzled. -/
def vertex_layout : lump_layout :=
  { freads := [(4, 3), (4, 4), (4, 3), (1, 4)], swizzled := [0, 2] }

/-- Lump 11, mesh verts: `offset` (1, 4). -/
def meshvert_layout : lump_layout := { freads := [(1, 4)], swizzled := [] }

/-- Lump 12, effects: `name` (64, 1), `brush`, `unknown` (4, 1). -/
def effect_layout : lump_layout := { freads := [(64, 1), (4, 1), (4, 1)], swizzled := [] }

/-- Lump 13, faces: `texture`, `effect`, `type`, `vertex`, `num_vertexes`, `meshvert`,
`num_meshverts`, `lm_index` (4, 1), `lm_start`, `lm_size` (4, 2), `lm_origin` (4, 3),
`lm_vecs` (4, 6), `normal` (4, 3), `size` (4, 2); `lm_origin` and `normal` are swizzled.
(The member is declared `float lm_vecs[2]`: the 24 bytes delivered to it run over `normal` and
`size[0]`, which the two reads that follow overwrite.) -/
def face_layout : lump_layout :=
  { freads := [(4, 1), (4, 1), (4, 1), (4, 1), (4, 1), (4, 1), (4, 1), (4, 1), (4, 2), (4, 2),
      (4, 3), (4, 6), (4, 3), (4, 2)],
    swizzled := [10, 12] }

/-- Lump 14, light maps: `map` (128*128*3, 1). -/
def lightmap_layout : lump_layout := { freads := [(128 * 128 * 3, 1)], swizzled := [] }

/-- Lump 15, light volumes: `ambient`, `directional` (3, 1), `dir` (2, 1). -/
def lightvol_layout : lump_layout := { freads := [(3, 1), (3, 1), (2, 1)], swizzled := [] }

/-- The `fread` calls of one loop iteration, in order. -/
def read_members (fptr : FILE) : List (ℕ × ℕ) → lump_record × FILE
  | [] => ([], fptr)
  | (size, count) :: rest =>
    let r := fread fptr size count
    let rs := read_members r.2 rest
    (r.1 :: rs.1, rs.2)

/-- The swizzle calls of one loop iteration: the member at each position listed in `swizzled`
is swizzled; `k` is the position of the first member of `members`. -/
def swizzle_members (swizzled : List ℕ) : ℕ → lump_record → lump_record
  | _, [] => []
  | k, v :: rest =>
    (if k ∈ swizzled then swizzle_member v else v) :: swizzle_members swizzled (k + 1) rest

/-- One iteration of a lump loop: the reads, then the swizzles. -/
def read_record (layout : lump_layout) (fptr : FILE) : lump_record × FILE :=
  let r := read_members fptr layout.freads
  (swizzle_members layout.swizzled 0 r.1, r.2)

/-- The loop `for (i = 0; i < num; ++i) { ... }` of a lump with `n` iterations left. -/
def read_records (layout : lump_layout) : ℕ → FILE → List lump_record × FILE
  | 0, fptr => ([], fptr)
  | n + 1, fptr =>
    let r := read_record layout fptr
    let rs := read_records layout n r.2
    (r.1 :: rs.1, rs.2)

/-- The number of bytes one loop iteration asks `fread` for. -/
def bytes_per_record (layout : lump_layout) : ℕ :=
  (layout.freads.map fun sc => sc.1 * sc.2).sum

/-- Lump 0 of `load_lumps`, entities: `SEEK_LUMP(LUMP_ENTITIES); entities.ents = malloc(...);
fread(entities.ents, LUMP_LENGTH(LUMP_ENTITIES), 1, fptr);`, for a run in which `malloc`
returns a buffer: what `fread` delivers to it. The run in which `malloc` returns the null
pointer is part of `load_lump_entities_malloc`. -/
def load_lump_entities (m : EQ3Map) (fptr : FILE) : EQ3Map × FILE :=
  let fptr := SEEK_LUMP m fptr LUMP_ENTITIES
  let r := fread fptr (to_size_t (LUMP_LENGTH m LUMP_ENTITIES)) 1
  ({ m with entities := r.1 }, r.2)

/-- Lump 1 of `load_lumps`, textures: `SEEK_LUMP(LUMP_TEXTURES); num_textures =
(LUMP_LENGTH(LUMP_TEXTURES) / SIZEOF_TEXTURE);` and the loop over `i < num_textures`. -/
def load_lump_textures (m : EQ3Map) (fptr : FILE) : EQ3Map × FILE :=
  let fptr := SEEK_LUMP m fptr LUMP_TEXTURES
  let num_textures := Int.tdiv (LUMP_LENGTH m LUMP_TEXTURES) SIZEOF_TEXTURE
  let r := read_records texture_layout num_textures.toNat fptr
  ({ m with num_textures := num_textures, textures := r.1 }, r.2)

/-- Lump 2 of `load_lumps`, planes: `SEEK_LUMP(LUMP_PLANES); num_planes =
(LUMP_LENGTH(LUMP_PLANES) / SIZEOF_PLANE);` and the loop over `i < num_planes`. -/
def load_lump_planes (m : EQ3Map) (fptr : FILE) : EQ3Map × FILE :=
  let fptr := SEEK_LUMP m fptr LUMP_PLANES
  let num_planes := Int.tdiv (LUMP_LENGTH m LUMP_PLANES) SIZEOF_PLANE
  let r := read_records plane_layout num_planes.toNat fptr
  ({ m with num_planes := num_planes, planes := r.1 }, r.2)

/-- Lump 3 of `load_lumps`, nodes: `SEEK_LUMP(LUMP_NODES); num_nodes =
(LUMP_LENGTH(LUMP_NODES) / SIZEOF_NODE);` and the loop over `i < num_nodes`. -/
def load_lump_nodes (m : EQ3Map) (fptr : FILE) : EQ3Map × FILE :=
  let fptr := SEEK_LUMP m fptr LUMP_NODES
  let num_nodes := Int.tdiv (LUMP_LENGTH m LUMP_NODES) SIZEOF_NODE
  let r := read_records node_layout num_nodes.toNat fptr
  ({ m with num_nodes := num_nodes, nodes := r.1 }, r.2)

/-- Lump 4 of `load_lumps`, leafs: `SEEK_LUMP(LUMP_LEAFS); num_leafs =
(LUMP_LENGTH(LUMP_LEAFS) / SIZEOF_LEAF);` and the loop over `i < num_leafs`. -/
def load_lump_leafs (m : EQ3Map) (fptr : FILE) : EQ3Map × FILE :=
  let fptr := SEEK_LUMP m fptr LUMP_LEAFS
  let num_leafs := Int.tdiv (LUMP_LENGTH m LUMP_LEAFS) SIZEOF_LEAF
  let r := read_records leaf_layout num_leafs.toNat fptr
  ({ m with num_leafs := num_leafs, leafs := r.1 }, r.2)

/-- Lump 5 of `load_lumps`, leaf faces: `SEEK_LUMP(LUMP_LEAFFACES); num_leaffaces =
(LUMP_LENGTH(LUMP_LEAFS) / SIZEOF_LEAFFACE);` and the loop over `i < num_leaffaces`. -/
def load_lump_leaffaces (m : EQ3Map) (fptr : FILE) : EQ3Map × FILE :=
  let fptr := SEEK_LUMP m fptr LUMP_LEAFFACES
  let num_leaffaces := Int.tdiv (LUMP_LENGTH m LUMP_LEAFS) SIZEOF_LEAFFACE
  let r := read_records leafface_layout num_leaffaces.toNat fptr
  ({ m with num_leaffaces := num_leaffaces, leaffaces := r.1 }, r.2)

/-- Lump 6 of `load_lumps`, leaf brushes: `SEEK_LUMP(LUMP_LEAFBRUSHES); num_leafbrushes =
(LUMP_LENGTH(LUMP_LEAFBRUSHES) / SIZEOF_LEAFBRUSH);` and the loop over `i < num_leafbrushes`. -/
def load_lump_leafbrushes (m : EQ3Map) (fptr : FILE) : EQ3Map × FILE :=
  let fptr := SEEK_LUMP m fptr LUMP_LEAFBRUSHES
  let num_leafbrushes := Int.tdiv (LUMP_LENGTH m LUMP_LEAFBRUSHES) SIZEOF_LEAFBRUSH
  let r := read_records leafbrush_layout num_leafbrushes.toNat fptr
  ({ m with num_leafbrushes := num_leafbrushes, leafbrushes := r.1 }, r.2)

/-- Lump 7 of `load_lumps`, models: `SEEK_LUMP(LUMP_MODELS); num_models =
(LUMP_LENGTH(LUMP_MODELS) / SIZEOF_MODEL);` and the loop over `i < num_models`. -/
def load_lump_models (m : EQ3Map) (fptr : FILE) : EQ3Map × FILE :=
  let fptr := SEEK_LUMP m fptr LUMP_MODELS
  let num_models := Int.tdiv (LUMP_LENGTH m LUMP_MODELS) SIZEOF_MODEL
  let r := read_records model_layout num_models.toNat fptr
  ({ m with num_models := num_models, models := r.1 }, r.2)

/-- Lump 8 of `load_lumps`, brushes: `SEEK_LUMP(LUMP_BRUSHES); num_brushes =
(LUMP_LENGTH(LUMP_BRUSHES) / SIZEOF_BRUSH);` and the loop over `i < num_brushes`. -/
def load_lump_brushes (m : EQ3Map) (fptr : FILE) : EQ3Map × FILE :=
  let fptr := SEEK_LUMP m fptr LUMP_BRUSHES
  let num_brushes := Int.tdiv (LUMP_LENGTH m LUMP_BRUSHES) SIZEOF_BRUSH
  let r := read_records brush_layout num_brushes.toNat fptr
  ({ m with num_brushes := num_brushes, brushes := r.1 }, r.2)

/-- Lump 9 of `load_lumps`, brush sides: `SEEK_LUMP(LUMP_BRUSHSIDES); num_brushsides =
(LUMP_LENGTH(LUMP_BRUSHSIDES) / SIZEOF_BRUSHSIDE);` and the loop over `i < num_brushsides`. -/
def load_lump_brushsides (m : EQ3Map) (fptr : FILE) : EQ3Map × FILE :=
  let fptr := SEEK_LUMP m fptr LUMP_BRUSHSIDES
  let num_brushsides := Int.tdiv (LUMP_LENGTH m LUMP_BRUSHSIDES) SIZEOF_BRUSHSIDE
  let r := read_records brushside_layout num_brushsides.toNat fptr
  ({ m with num_brushsides := num_brushsides, brushsides := r.1 }, r.2)

/-- Lump 10 of `load_lumps`, vertexes: `SEEK_LUMP(LUMP_VERTEXES); num_vertexes =
(LUMP_LENGTH(LUMP_VERTEXES) / SIZEOF_VERTEX);` and the loop over `i < num_vertexes`. -/
def load_lump_vertexes (m : EQ3Map) (fptr : FILE) : EQ3Map × FILE :=
  let fptr := SEEK_LUMP m fptr LUMP_VERTEXES
  let num_vertexes := Int.tdiv (LUMP_LENGTH m LUMP_VERTEXES) SIZEOF_VERTEX
  let r := read_records vertex_layout num_vertexes.toNat fptr
  ({ m with num_vertexes := num_vertexes, vertexes := r.1 }, r.2)

/-- Lump 11 of `load_lumps`, mesh verts: `SEEK_LUMP(LUMP_MESHVERTS); num_meshverts =
(LUMP_LENGTH(LUMP_MESHVERTS) / SIZEOF_MESHVERT);` and the loop over `i < num_meshverts`. -/
def load_lump_meshverts (m : EQ3Map) (fptr : FILE) : EQ3Map × FILE :=
  let fptr := SEEK_LUMP m fptr LUMP_MESHVERTS
  let num_meshverts := Int.tdiv (LUMP_LENGTH m LUMP_MESHVERTS) SIZEOF_MESHVERT
  let r := read_records meshvert_layout num_meshverts.toNat fptr
  ({ m with num_meshverts := num_meshverts, meshverts := r.1 }, r.2)

/-- Lump 12 of `load_lumps`, effects: `SEEK_LUMP(LUMP_EFFECTS); num_effects =
(LUMP_LENGTH(LUMP_EFFECTS) / SIZEOF_EFFECT);` and the loop over `i < num_effects`. -/
def load_lump_effects (m : EQ3Map) (fptr : FILE) : EQ3Map × FILE :=
  let fptr := SEEK_LUMP m fptr LUMP_EFFECTS
  let num_effects := Int.tdiv (LUMP_LENGTH m LUMP_EFFECTS) SIZEOF_EFFECT
  let r := read_records effect_layout num_effects.toNat fptr
  ({ m with num_effects := num_effects, effects := r.1 }, r.2)

/-- Lump 13 of `load_lumps`, faces: `SEEK_LUMP(LUMP_FACES); num_faces =
(LUMP_LENGTH(LUMP_FACES) / SIZEOF_FACE);` and the loop over `i < num_faces`. -/
def load_lump_faces (m : EQ3Map) (fptr : FILE) : EQ3Map × FILE :=
  let fptr := SEEK_LUMP m fptr LUMP_FACES
  let num_faces := Int.tdiv (LUMP_LENGTH m LUMP_FACES) SIZEOF_FACE
  let r := read_records face_layout num_faces.toNat fptr
  ({ m with num_faces := num_faces, faces := r.1 }, r.2)

/-- Lump 14 of `load_lumps`, light maps: `SEEK_LUMP(LUMP_LIGHTMAPS); num_lightmaps =
(LUMP_LENGTH(LUMP_LIGHTMAPS) / SIZEOF_LIGHTMAP);` and the loop over `i < num_lightmaps`. -/
def load_lump_lightmaps (m : EQ3Map) (fptr : FILE) : EQ3Map × FILE :=
  let fptr := SEEK_LUMP m fptr LUMP_LIGHTMAPS
  let num_lightmaps := Int.tdiv (LUMP_LENGTH m LUMP_LIGHTMAPS) SIZEOF_LIGHTMAP
  let r := read_records lightmap_layout num_lightmaps.toNat fptr
  ({ m with num_lightmaps := num_lightmaps, lightmaps := r.1 }, r.2)

/-- Lump 15 of `load_lumps`, light volumes: `SEEK_LUMP(LUMP_LIGHTVOLS); num_lightvols =
(LUMP_LENGTH(LUMP_LIGHTVOLS) / SIZEOF_LIGHTVOL);` and the loop over `i < num_lightvols`. -/
def load_lump_lightvols (m : EQ3Map) (fptr : FILE) : EQ3Map × FILE :=
  let fptr := SEEK_LUMP m fptr LUMP_LIGHTVOLS
  let num_lightvols := Int.tdiv (LUMP_LENGTH m LUMP_LIGHTVOLS) SIZEOF_LIGHTVOL
  let r := read_records lightvol_layout num_lightvols.toNat fptr
  ({ m with num_lightvols := num_lightvols, lightvols := r.1 }, r.2)

/-- Lump 16 of `load_lumps`, visual data: `num_vecs` and `sz_vecs` are read with
`fread(&..., 4, 1, fptr)`, then `fread(visdata.vecs, (visdata.num_vecs * visdata.sz_vecs), 1,
fptr)`, for a run in which the product fits an `int` and `malloc` returns a buffer: what
`fread` delivers to it. The runs in which the product overflows or `malloc` returns the null
pointer are part of `load_lump_visdata_malloc`. -/
def load_lump_visdata (m : EQ3Map) (fptr : FILE) : EQ3Map × FILE :=
  let fptr := SEEK_LUMP m fptr LUMP_VISDATA
  let r1 := fread fptr 4 1
  let num_vecs := store_int m.visdata.num_vecs r1.1
  let r2 := fread r1.2 4 1
  let sz_vecs := store_int m.visdata.sz_vecs r2.1
  let r3 := fread r2.2 (to_size_t (num_vecs * sz_vecs)) 1
  ({ m with visdata := { num_vecs := num_vecs, sz_vecs := sz_vecs, vecs := r3.1 } }, r3.2)

/-- The method `EQ3Map::load_lumps`: the seventeen lumps in order, then `return 1`. A loop
`for (i = 0; i < num; ++i)` runs `num.toNat` times. The results of `malloc` are not checked by
the source; this is the run in which every `malloc` returns a buffer and
`visdata.num_vecs * visdata.sz_vecs` fits an `int`: the tables that the reads leave. The runs
in which a null pointer is used as a buffer, or the product overflows, have undefined
behaviour and are part of `load_lumps_malloc`. -/
def load_lumps (m : EQ3Map) (fptr : FILE) : ℤ × EQ3Map × FILE :=
  let s := load_lump_entities m fptr
  let s := load_lump_textures s.1 s.2
  let s := load_lump_planes s.1 s.2
  let s := load_lump_nodes s.1 s.2
  let s := load_lump_leafs s.1 s.2
  let s := load_lump_leaffaces s.1 s.2
  let s := load_lump_leafbrushes s.1 s.2
  let s := load_lump_models s.1 s.2
  let s := load_lump_brushes s.1 s.2
  let s := load_lump_brushsides s.1 s.2
  let s := load_lump_vertexes s.1 s.2
  let s := load_lump_meshverts s.1 s.2
  let s := load_lump_effects s.1 s.2
  let s := load_lump_faces s.1 s.2
  let s := load_lump_lightmaps s.1 s.2
  let s := load_lump_lightvols s.1 s.2
  let s := load_lump_visdata s.1 s.2
  (1, s.1, s.2)

/-- The loop `for (; entry < 17; ++entry) fread((header.direntry + entry), 4, 2, fptr);` of
`load_header` over the remaining values of `entry`: the first four bytes delivered go to
`offset`, the next four to `length`. -/
def load_direntries (header : q3bsp_header_t) (fptr : FILE) :
    List (Fin 17) → q3bsp_header_t × FILE
  | [] => (header, fptr)
  | entry :: rest =>
    let r := fread fptr 4 2
    let old := header.direntry entry
    let new : q3bsp_direntry_t :=
      { offset := store_int old.offset (r.1.take 4), length := store_int old.length (r.1.drop 4) }
    load_direntries { header with direntry := Function.update header.direntry entry new } r.2 rest

/-- The method `EQ3Map::load_header`. -/
def load_header (m : EQ3Map) (fptr : FILE) : ℤ × EQ3Map × FILE :=
  /- load magic number -/
  let r := fread fptr 4 1
  let m := { m with header := { m.header with magic := store_int m.header.magic r.1 } }
  let fptr := r.2
  if m.header.magic ≠ 0x50534249 then
    /- invalid magic number -/
    (0, m, fptr)
  else
    /- load version -/
    let r := fread fptr 4 1
    let m := { m with header := { m.header with version := store_int m.header.version r.1 } }
    let fptr := r.2
    /- load direntry array -/
    let r := load_direntries m.header fptr [0, 1, 2, 3, 4, 5, 6, 7, 8, 9, 10, 11, 12, 13, 14, 15, 16]
    (1, { m with header := r.1 }, r.2)

/-- The method `EQ3Map::load`. `file` is the result of `fopen` (`none` when it fails);
`after_lumps` stands for the calls `load_textures(); load_lightmaps(); parse_entities();` made
once the stream is closed. Returned: the return value, the map, and the stream as it was when
closed. The lumps are loaded by `load_lumps`, the run in which every `malloc` returns a
buffer; `load_malloc` is the method with the results of `malloc`. -/
def load (file : Option FILE) (after_lumps : EQ3Map → EQ3Map) (m : EQ3Map) :
    ℤ × EQ3Map × Option FILE :=
  match file with
  | none => (0, m, none)
  | some fptr =>
    /- Read the header -/
    let h := load_header m fptr
    if h.1 = 0 then (0, h.2.1, some h.2.2)
    else
      /- Load the lumps -/
      let l := load_lumps h.2.1 h.2.2
      if l.1 = 0 then (0, l.2.1, some l.2.2)
      else (1, after_lumps l.2.1, some l.2.2)

/-! ## Map files used as concrete inputs -/

/-- The 144 bytes of a file header: the magic `IBSP`, the version and the 17 directory entries
`(offset, length)`. -/
def header_bytes (version : ℤ) (direntry : List (ℤ × ℤ)) : List byte :=
  [73, 66, 83, 80] ++ bytes_of_int version ++
    (direntry.map fun e => bytes_of_int e.1 ++ bytes_of_int e.2).flatten

/-- A map object before `load`: every member zero. -/
def map_before_load : EQ3Map :=
  { header := { magic := 0, version := 0, direntry := fun _ => ⟨0, 0⟩ },
    entities := [],
    num_textures := 0, num_planes := 0, num_nodes := 0, num_leafs := 0, num_leaffaces := 0,
    num_leafbrushes := 0, num_models := 0, num_brushes := 0, num_brushsides := 0,
    num_vertexes := 0, num_meshverts := 0, num_effects := 0, num_faces := 0,
    num_lightmaps := 0, num_lightvols := 0,
    textures := [], planes := [], nodes := [], leafs := [], leaffaces := [], leafbrushes := [],
    models := [], brushes := [], brushsides := [], vertexes := [], meshverts := [],
    effects := [], faces := [], lightmaps := [], lightvols := [],
    visdata := { num_vecs := 0, sz_vecs := 0, vecs := [] } }

/-- A map file of 256 bytes: version 46, a leafs lump of 96 bytes (two leaves) at offset 144, a
leaf-faces lump of 8 bytes (the two faces 1 and 2) at offset 240, an empty visibility lump
(`num_vecs = sz_vecs = 0`) at offset 248, and every other lump empty. -/
def file_two_leaffaces : List byte :=
  header_bytes 46
    [(144, 0), (144, 0), (144, 0), (144, 0), (144, 96), (240, 8), (144, 0), (144, 0), (144, 0),
     (144, 0), (144, 0), (144, 0), (144, 0), (144, 0), (144, 0), (144, 0), (248, 8)] ++
  List.replicate 96 0 ++ [1, 0, 0, 0, 2, 0, 0, 0] ++ List.replicate 8 0

/-- A map file of 224 bytes: version 46, a nodes lump of 64 bytes at offset 144 whose bytes
are 0, 1, ..., 63, a leaf-faces lump of 8 bytes (`200 0 0 0 201 0 0 0`) at offset 208, an empty
visibility lump at offset 216, and every other lump empty. -/
def file_two_nodes : List byte :=
  header_bytes 46
    [(144, 0), (144, 0), (144, 0), (144, 64), (144, 0), (208, 8), (144, 0), (144, 0), (144, 0),
     (144, 0), (144, 0), (144, 0), (144, 0), (144, 0), (144, 0), (144, 0), (216, 8)] ++
  (List.range 64).map (fun k => Fin.ofNat k) ++ [200, 0, 0, 0, 201, 0, 0, 0] ++
  List.replicate 8 0

/-- A node table of two nodes: node 0 splits by plane 0 with front child node 1 and back child
leaf 0 (`~0 = -1`); node 1 splits by plane 1 with front child leaf 1 (`-2`) and back child
leaf 2 (`-3`). -/
def two_level_nodes : List q3bsp_node_t :=
  [{ plane := 0, children := (1, -1), mins := (-8, -8, -8), maxs := (8, 8, 8) },
   { plane := 1, children := (-2, -3), mins := (0, -8, -8), maxs := (8, 8, 8) }]

/-- The planes `x = 0` and `y = 2`. -/
def two_level_planes : List q3bsp_plane_t :=
  [{ normal := (1, 0, 0), dist := 0 }, { normal := (0, 1, 0), dist := 2 }]

/-- A visibility table of two clusters with one byte per row: cluster 0 sees itself, cluster 1
sees both. -/
def visdata_two_clusters : q3bsp_visdata_t := { num_vecs := 2, sz_vecs := 1, vecs := [1, 3] }

/-! ## `SWAP`, `swizzle_coords_f`, `swizzle_coords_i` on values (`include/math/mat.h`,
`src/math/mat.c`) -/

/-- The macro `SWAP(type, x, y)`: `type t = x; x = y; y = t;`. The result is the pair of the
new values of `x` and `y`. -/
def SWAP {α : Type} (x y : α) : α × α :=
  let t := x
  let x := y
  let y := t
  (x, y)

/-- The function `swizzle_coords_f` called with three valid pointers: `SWAP(float, *y, *z)`.
The result is the triple of the values of `*x`, `*y`, `*z` afterwards. -/
def swizzle_coords_f (x y z : ℚ) : ℚ × ℚ × ℚ :=
  let yz := SWAP y z
  (x, yz.1, yz.2)

/-- The function `swizzle_coords_i` called with three valid pointers: `SWAP(int, *y, *z)`. -/
def swizzle_coords_i (x y z : ℤ) : ℤ × ℤ × ℤ :=
  let yz := SWAP y z
  (x, yz.1, yz.2)

/-! ## Spawn points and `EQ3Map::get_spawn_point` (`src/engine/Q3map.cpp`) -/

/-- The constant `Q3_MAX_SPAWN_POINTS`. -/
def Q3_MAX_SPAWN_POINTS : ℕ := 50

/-- The struct `q3bsp_spawn_point_t`: `float angle; vector3 origin;`. -/
structure q3bsp_spawn_point_t where
  angle : ℚ
  origin : vector3
deriving DecidableEq, Repr

/-- The members `spawn_points[Q3_MAX_SPAWN_POINTS]` and `num_spawn_points` of `EQ3Map`. -/
structure spawn_members where
  spawn_points : List q3bsp_spawn_point_t
  num_spawn_points : ℤ
deriving DecidableEq, Repr

/-- The spawn members as the constructor `EQ3Map::EQ3Map` leaves them: the array is cleared
with `memset` and `num_spawn_points = 0`. -/
def constructed_spawn_members : spawn_members :=
  { spawn_points := List.replicate Q3_MAX_SPAWN_POINTS ⟨0, ⟨0, 0, 0⟩⟩, num_spawn_points := 0 }

/-- The method `EQ3Map::get_spawn_point`. The arguments `angle` and `position` are the values
behind the two output pointers before the call; the result is the return value with the values
behind the pointers afterwards. -/
def get_spawn_point (m : spawn_members) (index : ℤ) (angle : ℚ) (position : vector3) :
    Outcome (ℤ × ℚ × vector3) :=
  if (index < 0) ∨ (index > m.num_spawn_points) then
    Outcome.value (0, angle, position)
  else
    match table_get m.spawn_points index with
    | none => Outcome.out_of_bounds
    | some sp =>
      Outcome.value (1, sp.angle, { x := sp.origin.x, y := sp.origin.y, z := sp.origin.z })

/-- Spawn members with all fifty slots used: slot `k` holds angle `k` and origin
`(k, 0, 0)`. -/
def full_spawn_members : spawn_members :=
  { spawn_points := (List.range Q3_MAX_SPAWN_POINTS).map fun k => ⟨k, ⟨k, 0, 0⟩⟩,
    num_spawn_points := 50 }

/-! ## More map files used as concrete inputs -/

/-- A map file of 172 bytes: version 46, a planes lump of 20 bytes (one plane of 16 bytes and
4 bytes more) at offset 144, an empty visibility lump at offset 164, and every other lump
empty. -/
def file_ragged_planes : List byte :=
  header_bytes 46
    [(144, 0), (144, 0), (144, 20), (144, 0), (144, 0), (144, 0), (144, 0), (144, 0), (144, 0),
     (144, 0), (144, 0), (144, 0), (144, 0), (144, 0), (144, 0), (144, 0), (164, 8)] ++
  (List.range 20).map (fun k => Fin.ofNat k) ++ List.replicate 8 0

/-- A map file of 152 bytes, the header and an empty visibility lump, whose directory gives the
planes lump the offset 152 and the length 1600: the lump lies behind the end of the file. -/
def file_planes_behind_end : List byte :=
  header_bytes 46
    [(144, 0), (144, 0), (152, 1600), (144, 0), (144, 0), (144, 0), (144, 0), (144, 0), (144, 0),
     (144, 0), (144, 0), (144, 0), (144, 0), (144, 0), (144, 0), (144, 0), (144, 8)] ++
  List.replicate 8 0

/-- A file of 12 bytes: the magic, the version 46 and four bytes of the directory. -/
def file_truncated_header : List byte := [73, 66, 83, 80, 46, 0, 0, 0, 144, 0, 0, 0]

/-- A node table whose only node has itself as both children. -/
def self_loop_nodes : List q3bsp_node_t :=
  [{ plane := 0, children := (0, 0), mins := (-8, -8, -8), maxs := (8, 8, 8) }]

/-- A node table whose only node has the child index 5 on both sides. -/
def dangling_child_nodes : List q3bsp_node_t :=
  [{ plane := 0, children := (5, 5), mins := (-8, -8, -8), maxs := (8, 8, 8) }]

/-- The map object after `load` ran on a file with the contents `data` (the calls made after
the stream is closed left aside). -/
def loaded_map (m : EQ3Map) (data : List byte) : EQ3Map :=
  (load (some ⟨data, 0⟩) id m).2.1

/-! ## What the file holds, for comparison with the loaded tables -/

/-- The `n` bytes of the file contents `data` from offset `off` on. -/
def file_bytes (data : List byte) (off n : ℕ) : List byte :=
  (data.drop off).take n

/-- The triple `(v0, v1, v2)` of 4-byte values found in the file at offset `off`, with its 2nd
and 3rd components swapped: the bytes of `v0`, then of `v2`, then of `v1`. -/
def swapped_triple (data : List byte) (off : ℕ) : List byte :=
  file_bytes data off 4 ++ file_bytes data (off + 8) 4 ++ file_bytes data (off + 4) 4

/-- The members of one record as the file holds them from offset `off` on, for the reads
`freads`; the member at a position listed in `swizzled` is taken with its 2nd and 3rd
components swapped. `k` is the position of the first member. -/
def expected_members (data : List byte) (swizzled : List ℕ) :
    ℕ → ℕ → List (ℕ × ℕ) → lump_record
  | _, _, [] => []
  | off, k, (size, count) :: rest =>
    (if k ∈ swizzled then swapped_triple data off else file_bytes data off (size * count)) ::
      expected_members data swizzled (off + size * count) (k + 1) rest

/-- Every member at a position listed in `swizzled` is read as 12 bytes (three 4-byte
elements); `k` is the position of the first read of the list. -/
def swizzled_are_triples (swizzled : List ℕ) : ℕ → List (ℕ × ℕ) → Bool
  | _, [] => true
  | k, (size, count) :: rest =>
    (decide (k ∉ swizzled) || decide (size * count = 12)) &&
      swizzled_are_triples swizzled (k + 1) rest

/-- The map object after `load_header` read the header of `file_two_nodes`. -/
def map_two_nodes_header : EQ3Map :=
  (load_header map_before_load ⟨file_two_nodes, 0⟩).2.1

/-! ## C strings and `cstrcmp` (`src/str.c`)

A `char*` into a NUL-terminated string is the list of the characters from the pointer up to
the terminator; `[]` points at the terminator. A pointer moved past the terminator is `none`:
reading through it is undefined behaviour. -/

/-- The character `'\0'`. -/
def NUL : Char := Char.ofNat 0

/-- The double quote character. -/
def QUOTE : Char := Char.ofNat 34

/-- The opening brace character. -/
def LBRACE : Char := Char.ofNat 123

/-- The closing brace character. -/
def RBRACE : Char := Char.ofNat 125

/-- The read `*s`. -/
def deref (s : List Char) : Char := s.headD NUL

/-- The pointer `s + 1`: past the terminator when `s` points at it. -/
def advance : List Char → Option (List Char)
  | [] => none
  | _ :: rest => some rest

/-- The function `tolower` of the C library on the code of a character. -/
def tolower (c : Char) : ℕ := c.toLower.toNat

/-- The value of `(*s2 ? -1 : 0)` at the end of `cstrcmp`. -/
def cstrcmp_end (s2 : List Char) : ℤ := if deref s2 ≠ NUL then -1 else 0

/-- The loop `while (*s1) { ... }` of `cstrcmp`, followed by `return (*s2 ? -1 : 0)`. -/
def cstrcmp_loop : List Char → List Char → ℤ
  | [], s2 => cstrcmp_end s2
  | c1 :: r1, s2 =>
    if c1 = NUL then cstrcmp_end s2
    else if deref s2 = NUL then 1
    else if tolower c1 > tolower (deref s2) then 1
    else if tolower c1 < tolower (deref s2) then -1
    else cstrcmp_loop r1 s2.tail

/-- The function `cstrcmp`; `none` is the null pointer. -/
def cstrcmp (s1 s2 : Option (List Char)) : ℤ :=
  match s1, s2 with
  | none, some _ => -1
  | some _, none => 1
  | none, none => 0
  | some a, some b => cstrcmp_loop a b

/-! ## `EQ3Map::get_next_token` (`src/engine/Q3map.cpp`) -/

/-- The loop `for (; (*str && (*str != '"') && (*str != '}')); ++str);` of `get_next_token`:
the pointer at which it stops. -/
def skip_to_quote : List Char → List Char
  | [] => []
  | c :: rest =>
    if c ≠ NUL ∧ c ≠ QUOTE ∧ c ≠ RBRACE then skip_to_quote rest else c :: rest

/-- The loop `for (; (buf_size && *str && (*str != '"')); --buf_size, ++str, ++buf)
*buf = *str;` of `get_next_token`: the characters written to `buf`. -/
def copy_token : ℕ → List Char → List Char
  | 0, _ => []
  | _ + 1, [] => []
  | n + 1, c :: rest => if c ≠ NUL ∧ c ≠ QUOTE then c :: copy_token n rest else []

/-- The method `EQ3Map::get_next_token` for `buf_size > 0`. The result is the list of the
characters written to `buf` (after them `buf` holds the zeros of `memset`) and the pointer
returned. -/
def get_next_token (str : List Char) (buf_size : ℕ) : List Char × Option (List Char) :=
  /- find the next quote -/
  let str := skip_to_quote str
  if deref str = NUL ∨ deref str = RBRACE then ([], some str)
  else
    /- skip the quote -/
    let str := str.tail
    /- read in everything up to the next quote or buf_size -/
    let buf := copy_token buf_size str
    let str := str.drop buf.length
    (buf, advance str)

/-- The string held by a buffer of `buf_size` characters to which `buf` was written after
`memset`: `none` when the buffer is full, so that no terminator is left in it. -/
def buf_string (buf : List Char) (buf_size : ℕ) : Option (List Char) :=
  if buf.length < buf_size then some buf else none

/-! ## `EQ3Map::parse_entities`, `EQ3Map::load_entity_info_player_deathmatch`
(`src/engine/Q3map.cpp`) -/

/-- The two uses of `sscanf` of the C library: `scan_f value` is the float converted by
`sscanf(value, "%f", ...)` (`none` when nothing is converted), `scan_fff value` the floats
converted by `sscanf(value, "%f %f %f", ...)`, in order (at most three count). -/
structure sscanf_t where
  scan_f : List Char → Option ℚ
  scan_fff : List Char → List ℚ

/-- The string `"classname"`. -/
def str_classname : List Char := "classname".toList

/-- The string `"angle"`. -/
def str_angle : List Char := "angle".toList

/-- The string `"origin"`. -/
def str_origin : List Char := "origin".toList

/-- The string `"info_player_deathmatch"`. -/
def str_info_player_deathmatch : List Char := "info_player_deathmatch".toList

/-- The write `spawn_points[index].angle = v`; `none` outside the array. -/
def write_angle (m : spawn_members) (index : ℤ) (v : ℚ) : Option spawn_members :=
  match table_get m.spawn_points index with
  | none => none
  | some sp =>
    some { m with spawn_points := m.spawn_points.set index.toNat { sp with angle := v } }

/-- The write of the three members of `spawn_points[index].origin`; `none` outside the
array. -/
def write_origin (m : spawn_members) (index : ℤ) (v : vector3) : Option spawn_members :=
  match table_get m.spawn_points index with
  | none => none
  | some sp =>
    some { m with spawn_points := m.spawn_points.set index.toNat { sp with origin := v } }

/-- The body of the loop of `load_entity_info_player_deathmatch` after the two tokens were
read: `index` is the slot that `angle` and `origin` point into. A value buffer without
terminator given to `sscanf`, and a write outside `spawn_points`, are reported as
`Outcome.out_of_bounds`. -/
def store_spawn_key (libc : sscanf_t) (index : ℤ) (key value : List Char) (m : spawn_members) :
    Outcome spawn_members :=
  if cstrcmp (some str_angle) (some key) = 0 then
    match buf_string value 256 with
    | none => Outcome.out_of_bounds
    | some v =>
      match libc.scan_f v with
      | none => Outcome.value m
      | some a =>
        match write_angle m index a with
        | none => Outcome.out_of_bounds
        | some m1 => Outcome.value m1
  else if cstrcmp (some str_origin) (some key) = 0 then
    match buf_string value 256 with
    | none => Outcome.out_of_bounds
    | some v =>
      match table_get m.spawn_points index with
      | none => Outcome.out_of_bounds
      | some sp =>
        let l := libc.scan_fff v
        let x := (l[0]?).getD sp.origin.x
        let y := (l[1]?).getD sp.origin.y
        let z := (l[2]?).getD sp.origin.z
        /- convert the coordinate system -/
        let r := swizzle_coords_f x y z
        match write_origin m index { x := r.1, y := r.2.1, z := r.2.2 } with
        | none => Outcome.out_of_bounds
        | some m1 => Outcome.value m1
  else Outcome.value m

/-- The loop `while (*ent && (*ent != '}')) { ... }` of
`load_entity_info_player_deathmatch`. -/
def load_entity_loop (libc : sscanf_t) (index : ℤ) :
    ℕ → Option (List Char) → spawn_members → Outcome spawn_members
  | 0, _, _ => Outcome.out_of_fuel
  | _ + 1, none, _ => Outcome.out_of_bounds
  | fuel + 1, some ent, m =>
    if deref ent ≠ NUL ∧ deref ent ≠ RBRACE then
      match (get_next_token ent 256).2 with
      | none => Outcome.out_of_bounds
      | some ent1 =>
        match store_spawn_key libc index (get_next_token ent 256).1
            (get_next_token ent1 256).1 m with
        | Outcome.value m1 => load_entity_loop libc index fuel (get_next_token ent1 256).2 m1
        | Outcome.out_of_bounds => Outcome.out_of_bounds
        | Outcome.out_of_fuel => Outcome.out_of_fuel
    else Outcome.value m

/-- The method `EQ3Map::load_entity_info_player_deathmatch`. -/
def load_entity_info_player_deathmatch (libc : sscanf_t) (fuel : ℕ) (ent : List Char)
    (m : spawn_members) : Outcome spawn_members :=
  /- if we are beyond the limit of spawn points then ignore this one -/
  if m.num_spawn_points > Q3_MAX_SPAWN_POINTS then Outcome.value m
  else
    /- put this spawn data in the next available slot -/
    load_entity_loop libc m.num_spawn_points fuel (advance ent)
      { m with num_spawn_points := m.num_spawn_points + 1 }

/-- The table `_entity_loader_callbacks` of the constructor, without its closing `NULL`
entry. -/
def entity_loader_callbacks (libc : sscanf_t) (fuel : ℕ) :
    List (List Char × (List Char → spawn_members → Outcome spawn_members)) :=
  [(str_info_player_deathmatch, load_entity_info_player_deathmatch libc fuel)]

/-- The loop `for (; entity_loader_callbacks[i].classname; ++i)` of `parse_entities` over the
remaining entries: every entry whose name compares equal to `value` is called with `b`. -/
def run_callbacks (b value : List Char) :
    List (List Char × (List Char → spawn_members → Outcome spawn_members)) →
    spawn_members → Outcome spawn_members
  | [], m => Outcome.value m
  | (classname, cb) :: rest, m =>
    if cstrcmp (some classname) (some value) = 0 then
      match cb b m with
      | Outcome.value m1 => run_callbacks b value rest m1
      | Outcome.out_of_bounds => Outcome.out_of_bounds
      | Outcome.out_of_fuel => Outcome.out_of_fuel
    else run_callbacks b value rest m

/-- The inner loop `while (*s && (*s != '}')) { ... }` of `parse_entities`; `b` points at the
beginning of the block. The result is the pointer `s` at which the loop stops and the map. -/
def parse_block_loop (libc : sscanf_t) (b : List Char) :
    ℕ → Option (List Char) → spawn_members → Outcome (List Char × spawn_members)
  | 0, _, _ => Outcome.out_of_fuel
  | _ + 1, none, _ => Outcome.out_of_bounds
  | fuel + 1, some s, m =>
    if deref s ≠ NUL ∧ deref s ≠ RBRACE then
      match (get_next_token s 256).2 with
      | none => Outcome.out_of_bounds
      | some s1 =>
        /- if this is the block classname, do something with it -/
        if cstrcmp (some str_classname) (some (get_next_token s 256).1) = 0 then
          match run_callbacks b (get_next_token s1 256).1 (entity_loader_callbacks libc fuel)
              m with
          | Outcome.value m1 => parse_block_loop libc b fuel (get_next_token s1 256).2 m1
          | Outcome.out_of_bounds => Outcome.out_of_bounds
          | Outcome.out_of_fuel => Outcome.out_of_fuel
        else parse_block_loop libc b fuel (get_next_token s1 256).2 m
    else Outcome.value (s, m)

/-- The loop `for (; (*s && (*s != '{')); ++s);` of `parse_entities`: the pointer at which it
stops. -/
def skip_to_lbrace : List Char → List Char
  | [] => []
  | c :: rest => if c ≠ NUL ∧ c ≠ LBRACE then skip_to_lbrace rest else c :: rest

/-- The outer loop `while (*s) { ... }` of `parse_entities`. -/
def parse_entities_loop (libc : sscanf_t) : ℕ → List Char → spawn_members →
    Outcome spawn_members
  | 0, _, _ => Outcome.out_of_fuel
  | fuel + 1, s, m =>
    if deref s ≠ NUL then
      /- scan until we hit the beginning of a block -/
      if deref (skip_to_lbrace s) = NUL then Outcome.value m
      else
        /- find the "classname" section of this block -/
        match parse_block_loop libc (skip_to_lbrace s) fuel (some (skip_to_lbrace s)) m with
        | Outcome.value r => parse_entities_loop libc fuel r.1 r.2
        | Outcome.out_of_bounds => Outcome.out_of_bounds
        | Outcome.out_of_fuel => Outcome.out_of_fuel
    else Outcome.value m

/-- The method `EQ3Map::parse_entities`; `ents` is the string at `entities.ents` (`none` for
a null pointer). The three loops (of `parse_entities` and of the callback) each run for at
most `fuel` iterations. -/
def parse_entities (libc : sscanf_t) (fuel : ℕ) (ents : Option (List Char))
    (m : spawn_members) : Outcome spawn_members :=
  match ents with
  | none => Outcome.value m
  | some s => if deref s = NUL then Outcome.value m else parse_entities_loop libc fuel s m

/-! ## Entity texts used as concrete inputs -/

/-- The token `t` between double quotes. -/
def quoted (t : List Char) : List Char := QUOTE :: (t ++ [QUOTE])

/-- The entity text of one block, `{ "classname" "info_player_deathmatch" "angle" "A"
"origin" "O" }`, for the angle text `A` and the origin text `O`. -/
def deathmatch_block (angle origin : List Char) : List Char :=
  LBRACE :: ' ' :: (quoted str_classname ++ ' ' :: (quoted str_info_player_deathmatch ++
    ' ' :: (quoted str_angle ++ ' ' :: (quoted angle ++ ' ' :: (quoted str_origin ++
    ' ' :: (quoted origin ++ [' ', RBRACE]))))))

/-- A stand-in for `sscanf` that converts the texts `90` and `0 64 32` (and nothing
else). -/
def sscanf_example : sscanf_t :=
  { scan_f := fun v => if v = "90".toList then some 90 else none,
    scan_fff := fun v => if v = "0 64 32".toList then [0, 64, 32] else [] }

/-! ## Well-formed entity texts -/

/-- A key/value pair of an entity block as written in the text: the characters before the
key's opening quote, the key, the characters between the key's closing quote and the value's
opening quote, and the value. -/
abbrev entity_pair := List Char × List Char × List Char × List Char

/-- The text of the pairs of a block from the end of the previous pair on: each pair as
`... "key" ... "value"`, then the characters `closing`, the closing brace and `tail`, the rest
of the entity text. -/
def render_pairs (closing tail : List Char) : List entity_pair → List Char
  | [] => closing ++ RBRACE :: tail
  | (s1, k, s2, v) :: rest =>
    s1 ++ QUOTE :: (k ++ QUOTE :: (s2 ++ QUOTE :: (v ++ QUOTE :: render_pairs closing tail rest)))

/-- Characters that may stand between tokens: no NUL, no double quote, no closing brace. -/
def clean_sep (s : List Char) : Prop := ∀ c ∈ s, c ≠ NUL ∧ c ≠ QUOTE ∧ c ≠ RBRACE

/-- A token that fits a buffer of 256 characters: no NUL, no double quote, fewer than 256
characters. -/
def clean_token (t : List Char) : Prop := (∀ c ∈ t, c ≠ NUL ∧ c ≠ QUOTE) ∧ t.length < 256

/-- A pair whose separators and tokens are clean. -/
def clean_pair (p : entity_pair) : Prop :=
  clean_sep p.1 ∧ clean_token p.2.1 ∧ clean_sep p.2.2.1 ∧ clean_token p.2.2.2

/-- An entity block as written in the text: the characters before its opening brace, its
pairs, and the characters between the last pair and its closing brace. -/
abbrev entity_block := List Char × List entity_pair × List Char

/-- The entity text made of the blocks given, followed by the characters `trailer`. -/
def entity_text (trailer : List Char) : List entity_block → List Char
  | [] => trailer
  | (filler, pairs, closing) :: rest =>
    filler ++ LBRACE :: render_pairs closing (entity_text trailer rest) pairs

/-- Characters that may stand between blocks: no NUL, no opening brace. -/
def clean_filler (s : List Char) : Prop := ∀ c ∈ s, c ≠ NUL ∧ c ≠ LBRACE

/-- A block whose filler, pairs and closing separator are clean. -/
def clean_block (blk : entity_block) : Prop :=
  clean_filler blk.1 ∧ (∀ p ∈ blk.2.1, clean_pair p) ∧ clean_sep blk.2.2

/-- No pair of the block has a key that compares equal to `classname` together with a value
that compares equal to `info_player_deathmatch`. -/
def no_deathmatch_classname (blk : entity_block) : Prop :=
  ∀ p ∈ blk.2.1, cstrcmp (some str_classname) (some p.2.1) = 0 →
    cstrcmp (some str_info_player_deathmatch) (some p.2.2.2) ≠ 0

instance (s : List Char) : Decidable (clean_sep s) := by
  unfold clean_sep
  infer_instance

instance (t : List Char) : Decidable (clean_token t) := by
  unfold clean_token
  infer_instance

instance (p : entity_pair) : Decidable (clean_pair p) := by
  unfold clean_pair
  infer_instance

instance (s : List Char) : Decidable (clean_filler s) := by
  unfold clean_filler
  infer_instance

instance (blk : entity_block) : Decidable (clean_block blk) := by
  unfold clean_block
  infer_instance

instance (blk : entity_block) : Decidable (no_deathmatch_classname blk) := by
  unfold no_deathmatch_classname
  infer_instance

/-- The effect of the loop body of `load_entity_info_player_deathmatch` on the pairs of a
block, in order. -/
def store_pairs (libc : sscanf_t) (index : ℤ) :
    List entity_pair → spawn_members → Outcome spawn_members
  | [], m => Outcome.value m
  | p :: rest, m =>
    match store_spawn_key libc index p.2.1 p.2.2.2 m with
    | Outcome.value m1 => store_pairs libc index rest m1
    | Outcome.out_of_bounds => Outcome.out_of_bounds
    | Outcome.out_of_fuel => Outcome.out_of_fuel

/-- The three pairs of the block `{ "classname" "info_player_deathmatch" "angle" "A"
"origin" "O" }`, each token preceded by one blank. -/
def deathmatch_pairs (angle origin : List Char) : List entity_pair :=
  [([' '], str_classname, [' '], str_info_player_deathmatch),
   ([' '], str_angle, [' '], angle),
   ([' '], str_origin, [' '], origin)]

/-- The entity text made of `n` copies of the block `{ "classname"
"info_player_deathmatch" "angle" "90" "origin" "0 64 32" }`, each followed by a line feed. -/
def deathmatch_text (n : ℕ) : List Char :=
  (List.replicate n (deathmatch_block "90".toList "0 64 32".toList ++ [Char.ofNat 10])).flatten

/-- The entity text made of `n` copies of the block `{ "classname"
"info_player_deathmatch" }`, each followed by a line feed. -/
def bare_deathmatch_text (n : ℕ) : List Char :=
  (List.replicate n (LBRACE :: ' ' :: (quoted str_classname ++ ' ' ::
    (quoted str_info_player_deathmatch ++ [' ', RBRACE, Char.ofNat 10])))).flatten

/-! ## Inputs of the later properties -/

/-- A tree of one node: node 0 tests plane 0 and has the children `~a` and `~b`, the leaves
`a` and `b`. -/
def hand_built_nodes (a b : ℤ) : List q3bsp_node_t :=
  [{ plane := 0, children := (~~~a, ~~~b), mins := (0, 0, 0), maxs := (0, 0, 0) }]

/-- The centre of the bounding box `mins`, `maxs` of a leaf, the point that the
specification feeds to `find_leaf`. -/
def spec_bbox_centre (leaf : q3bsp_leaf_t) : vector3 :=
  { x := ((leaf.mins.1 : ℚ) + leaf.maxs.1) / 2,
    y := ((leaf.mins.2.1 : ℚ) + leaf.maxs.2.1) / 2,
    z := ((leaf.mins.2.2 : ℚ) + leaf.maxs.2.2) / 2 }

/-- The value `info_player_deathmatch` in capital letters. -/
def str_upper_deathmatch : List Char := "INFO_PLAYER_DEATHMATCH".toList

/-- The one block `{ "classname" "INFO_PLAYER_DEATHMATCH" }`. -/
def upper_deathmatch_blocks : List entity_block :=
  [([], [([' '], str_classname, [' '], str_upper_deathmatch)], [' '])]

/-- The two blocks `{ "classname" "worldspawn" }` and `{ "classname" "light" "origin"
"0 64 32" }`, the second after a line feed. -/
def unknown_classname_blocks : List entity_block :=
  [([], [([' '], str_classname, [' '], "worldspawn".toList)], [' ']),
   ([Char.ofNat 10], [([' '], str_classname, [' '], "light".toList),
      ([' '], str_origin, [' '], "0 64 32".toList)], [' '])]

/-! ## `matrix4` (`src/math/matrix.cpp`) -/

/-- The class `matrix4`: `float m[4][4];`. Floats are elements of a field `K`. -/
structure matrix4 (K : Type) where
  m : Fin 4 → Fin 4 → K

/-- The constructor `matrix4::matrix4(float xx, float xy, ..., float dd)`: `m[0][0] = xx;
m[0][1] = xy; ... m[3][3] = dd;`. -/
def matrix4.of_entries {K : Type} (xx xy xz xd yx yy yz yd zx zy zz zd dx dy dz dd : K) :
    matrix4 K :=
  { m := ![![xx, xy, xz, xd], ![yx, yy, yz, yd], ![zx, zy, zz, zd], ![dx, dy, dz, dd]] }

/-- The constructor `matrix4::matrix4(float a[16])`: `m[0][0] = a[0]; m[1][0] = a[4]; ...
m[3][3] = a[15];`. -/
def matrix4.of_array {K : Type} (a : Fin 16 → K) : matrix4 K :=
  { m := ![![a 0, a 1, a 2, a 3], ![a 4, a 5, a 6, a 7], ![a 8, a 9, a 10, a 11],
           ![a 12, a 13, a 14, a 15]] }

/-- The operator `matrix4::operator[]`: the row `&m[x][0]`. -/
def matrix4.row {K : Type} (a : matrix4 K) (x : Fin 4) : Fin 4 → K := a.m x

/-- The operator `matrix4::operator*`. -/
def matrix4.mul {K : Type} [Add K] [Mul K] (a b : matrix4 K) : matrix4 K :=
  matrix4.of_entries
    ((a.m 0 0 * b.row 0 0) + (a.m 0 1 * b.row 1 0) + (a.m 0 2 * b.row 2 0) + (a.m 0 3 * b.row 3 0))
    ((a.m 0 0 * b.row 0 1) + (a.m 0 1 * b.row 1 1) + (a.m 0 2 * b.row 2 1) + (a.m 0 3 * b.row 3 1))
    ((a.m 0 0 * b.row 0 2) + (a.m 0 1 * b.row 1 2) + (a.m 0 2 * b.row 2 2) + (a.m 0 3 * b.row 3 2))
    ((a.m 0 0 * b.row 0 3) + (a.m 0 1 * b.row 1 3) + (a.m 0 2 * b.row 2 3) + (a.m 0 3 * b.row 3 3))

    ((a.m 1 0 * b.row 0 0) + (a.m 1 1 * b.row 1 0) + (a.m 1 2 * b.row 2 0) + (a.m 1 3 * b.row 3 0))
    ((a.m 1 0 * b.row 0 1) + (a.m 1 1 * b.row 1 1) + (a.m 1 2 * b.row 2 1) + (a.m 1 3 * b.row 3 1))
    ((a.m 1 0 * b.row 0 2) + (a.m 1 1 * b.row 1 2) + (a.m 1 2 * b.row 2 2) + (a.m 1 3 * b.row 3 2))
    ((a.m 1 0 * b.row 0 3) + (a.m 1 1 * b.row 1 3) + (a.m 1 2 * b.row 2 3) + (a.m 1 3 * b.row 3 3))

    ((a.m 2 0 * b.row 0 0) + (a.m 2 1 * b.row 1 0) + (a.m 2 2 * b.row 2 0) + (a.m 2 3 * b.row 3 0))
    ((a.m 2 0 * b.row 0 1) + (a.m 2 1 * b.row 1 1) + (a.m 2 2 * b.row 2 1) + (a.m 2 3 * b.row 3 1))
    ((a.m 2 0 * b.row 0 2) + (a.m 2 1 * b.row 1 2) + (a.m 2 2 * b.row 2 2) + (a.m 2 3 * b.row 3 2))
    ((a.m 2 0 * b.row 0 3) + (a.m 2 1 * b.row 1 3) + (a.m 2 2 * b.row 2 3) + (a.m 2 3 * b.row 3 3))

    ((a.m 3 0 * b.row 0 0) + (a.m 3 1 * b.row 1 0) + (a.m 3 2 * b.row 2 0) + (a.m 3 3 * b.row 3 0))
    ((a.m 3 0 * b.row 0 1) + (a.m 3 1 * b.row 1 1) + (a.m 3 2 * b.row 2 1) + (a.m 3 3 * b.row 3 1))
    ((a.m 3 0 * b.row 0 2) + (a.m 3 1 * b.row 1 2) + (a.m 3 2 * b.row 2 2) + (a.m 3 3 * b.row 3 2))
    ((a.m 3 0 * b.row 0 3) + (a.m 3 1 * b.row 1 3) + (a.m 3 2 * b.row 2 3) + (a.m 3 3 * b.row 3 3))

/-- The method `matrix4::transpose`: `a[0][0] = m[0][0]; a[0][1] = m[1][0]; ...
a[3][3] = m[3][3]; memcpy(m, a, sizeof(a));`. -/
def matrix4.transpose {K : Type} (a : matrix4 K) : matrix4 K :=
  { m := ![![a.m 0 0, a.m 1 0, a.m 2 0, a.m 3 0], ![a.m 0 1, a.m 1 1, a.m 2 1, a.m 3 1],
           ![a.m 0 2, a.m 1 2, a.m 2 2, a.m 3 2], ![a.m 0 3, a.m 1 3, a.m 2 3, a.m 3 3]] }

/-! ## `normalize_plane` (`src/math/mat.c`) -/

/-- The function `normalize_plane`; the arguments are the values behind the four pointers
before the call, the result the values behind them afterwards. The function `sqrt` of the C
library is a parameter. -/
def normalize_plane {K : Type} [Add K] [Mul K] [Div K] (sqrt : K → K) (a b c d : K) :
    K × K × K × K :=
  let mag := sqrt ((a * a) + (b * b) + (c * c))
  (a / mag, b / mag, c / mag, d / mag)

/-! ## `RCamera::update_frustum` (`src/render/camera.cpp`) -/

/-- The assignments `frustum[i][j] = clip[3][j] ± clip[r][j]` of `update_frustum`: the six
planes before `normalize_plane` is applied to each. -/
def frustum_planes {K : Type} [Add K] [Sub K] (clip : matrix4 K) : Fin 6 → Fin 4 → K :=
  ![fun j => clip.row 3 j - clip.row 0 j,
    fun j => clip.row 3 j + clip.row 0 j,
    fun j => clip.row 3 j + clip.row 1 j,
    fun j => clip.row 3 j - clip.row 1 j,
    fun j => clip.row 3 j - clip.row 2 j,
    fun j => clip.row 3 j + clip.row 2 j]

/-- The matrix `clip` of `update_frustum`: `matrix4 m_pm(pm); matrix4 m_mvm(mvm);
matrix4 clip = m_mvm * m_pm; clip.transpose();`. -/
def clip_matrix {K : Type} [Add K] [Mul K] (pm mvm : Fin 16 → K) : matrix4 K :=
  let m_pm := matrix4.of_array pm
  let m_mvm := matrix4.of_array mvm
  let clip := m_mvm.mul m_pm
  clip.transpose

/-- The method `RCamera::update_frustum`: the member `frustum` after the call. The arrays
`pm` and `mvm` are the projection and the model-view matrix delivered by `glGetFloatv`. -/
def update_frustum {K : Type} [Add K] [Sub K] [Mul K] [Div K] (sqrt : K → K)
    (pm mvm : Fin 16 → K) : Fin 6 → Fin 4 → K :=
  let clip := clip_matrix pm mvm
  fun i =>
    let plane := normalize_plane sqrt (frustum_planes clip i 0) (frustum_planes clip i 1)
      (frustum_planes clip i 2) (frustum_planes clip i 3)
    ![plane.1, plane.2.1, plane.2.2.1, plane.2.2.2]

/-- The index `4 * r + c` into an array of 16 floats. -/
def array_index (r c : Fin 4) : Fin 16 := ⟨4 * r.val + c.val, by omega⟩

/-- The entry `C[i][j] = Σ_k pm[4k+i] · mvm[4j+k]` of the combined matrix `P·MV` of the
specification, for column-major arrays `pm` and `mvm`. -/
def spec_clip {K : Type} [Add K] [Mul K] (pm mvm : Fin 16 → K) (i j : Fin 4) : K :=
  pm (array_index 0 i) * mvm (array_index j 0) + pm (array_index 1 i) * mvm (array_index j 1) +
  pm (array_index 2 i) * mvm (array_index j 2) + pm (array_index 3 i) * mvm (array_index j 3)

/-! ## `RCamera::rotate_hor`, `RCamera::rotate_hor_abs` (`src/render/camera.cpp`) -/

/-- The conversion `(int)` of a float: truncation towards zero. -/
def int_of_float (q : ℚ) : ℤ := Int.tdiv q.num q.den

/-- The definition `FLOAT_MOD(i, m)` of `mat.h`, `((i) - ((int)((i) / (m)) * (m)))`, in
exact arithmetic. -/
def FLOAT_MOD (i m : ℚ) : ℚ := i - ((int_of_float (i / m) : ℤ) : ℚ) * m

/-- The method `RCamera::rotate_hor` on the member `theta_rot`: the value after the call. -/
def rotate_hor (theta_rot angle : ℚ) : ℚ :=
  let theta_rot := FLOAT_MOD (theta_rot + angle) 360
  if theta_rot < 0 then 360 - theta_rot else theta_rot

/-- The method `RCamera::rotate_hor_abs` on the member `theta_rot`: the value after the
call. -/
def rotate_hor_abs (angle : ℚ) : ℚ :=
  let theta_rot := FLOAT_MOD angle 360
  if theta_rot < 0 then 360 - theta_rot else theta_rot

/-! ## Trees and planes for the later properties of `find_leaf` -/

/-- The well-formedness of a tree in the words of the specification: every node has a plane
index below `num_planes`; every child index that is not negative is below the number of nodes
and strictly greater than the index of its parent; every negative child index `c` has
`~c < num_leafs`. -/
def spec_well_formed (nodes : List q3bsp_node_t) (num_planes num_leafs : ℤ) : Prop :=
  ∀ (i : ℕ) (node : q3bsp_node_t), nodes[i]? = some node →
    node.plane < num_planes ∧
    ∀ c : ℤ, c = node.children.1 ∨ c = node.children.2 →
      (0 ≤ c → c < nodes.length ∧ (i : ℤ) < c) ∧ (c < 0 → ~~~c < num_leafs)

/-- A tree of one node whose plane index is -1; its children are the leaves 0 and 1. -/
def negative_plane_nodes : List q3bsp_node_t :=
  [{ plane := -1, children := (-1, -2), mins := (0, 0, 0), maxs := (0, 0, 0) }]

/-- The effect of the loop body for the planes lump in `load_lumps` on a plane as it stands
in the file: `swizzle_coords_f` on the three floats of the normal, `dist` as read. -/
def swizzle_plane (plane : q3bsp_plane_t) : q3bsp_plane_t :=
  { normal := swizzle_coords_f plane.normal.1 plane.normal.2.1 plane.normal.2.2,
    dist := plane.dist }

/-- The point with the coordinates that `swizzle_coords_f` gives for those of `p`. -/
def swizzle_point (p : vector3) : vector3 :=
  { x := (swizzle_coords_f p.x p.y p.z).1,
    y := (swizzle_coords_f p.x p.y p.z).2.1,
    z := (swizzle_coords_f p.x p.y p.z).2.2 }

/-! ## `find_leaf` in the arithmetic of `float` -/

/-- The power `2 ^ e` for an integer exponent. -/
def two_pow (e : ℤ) : ℚ :=
  if 0 ≤ e then ((2 ^ e.toNat : ℕ) : ℚ) else 1 / ((2 ^ (-e).toNat : ℕ) : ℚ)

/-- The number of halvings that take `n` below 2, with `fuel` halvings at most. -/
def halvings : ℕ → ℕ → ℕ
  | 0, _ => 0
  | fuel + 1, n => if n < 2 then 0 else halvings fuel (n / 2) + 1

/-- The exponent `e` with `2 ^ e ≤ |q| < 2 ^ (e + 1)` of a rational `q ≠ 0`: the difference of
the binary logarithms of numerator and denominator, or one less. -/
def float_exponent (q : ℚ) : ℤ :=
  let e : ℤ := (halvings q.num.natAbs q.num.natAbs : ℤ) - (halvings q.den q.den : ℤ)
  if two_pow e ≤ |q| then e else e - 1

/-- Rounding of a rational to the nearest integer, ties to the even one. -/
def round_half_even (x : ℚ) : ℤ :=
  let f := Rat.floor x
  let r := x - f
  if r < 1 / 2 then f else if 1 / 2 < r then f + 1 else if f % 2 = 0 then f else f + 1

/-- The value of type `float` (IEEE 754 binary32: 24 significant bits, least exponent -126,
round to nearest, ties to even) that an operation with the exact result `q` delivers. Results
of magnitude `2 ^ 128` and above, which a `float` delivers as infinity, are outside this
model. -/
def round_float (q : ℚ) : ℚ :=
  if q = 0 then 0
  else
    let e := max (float_exponent q) (-126)
    let ulp := two_pow (e - 23)
    (round_half_even (q / ulp) : ℚ) * ulp

/-- The operator `*` on two values of type `float`. -/
def float_mul (a b : ℚ) : ℚ := round_float (a * b)

/-- The operator `+` on two values of type `float`. -/
def float_add (a b : ℚ) : ℚ := round_float (a + b)

/-- The operator `-` on two values of type `float`. -/
def float_sub (a b : ℚ) : ℚ := round_float (a - b)

/-- The expression `plane->normal[0] * pos->x + plane->normal[1] * pos->y +
plane->normal[2] * pos->z - plane->dist` of `find_leaf` as the source evaluates it: every
operand is a `float`, the operations are carried out from left to right, and each result is
rounded to a `float`. -/
def float_plane_distance (plane : q3bsp_plane_t) (pos : vector3) : ℚ :=
  float_sub
    (float_add
      (float_add (float_mul plane.normal.1 pos.x) (float_mul plane.normal.2.1 pos.y))
      (float_mul plane.normal.2.2 pos.z))
    plane.dist

/-- The loop of `find_leaf` with `distance` computed in the arithmetic of `float`. One unit
of fuel is spent per iteration. -/
def float_find_leaf_loop (nodes : List q3bsp_node_t) (planes : List q3bsp_plane_t)
    (pos : vector3) : ℕ → ℤ → Outcome ℤ
  | 0, i => if i ≥ 0 then Outcome.out_of_fuel else Outcome.value (~~~i)
  | fuel + 1, i =>
    if i ≥ 0 then
      match table_get nodes i with
      | none => Outcome.out_of_bounds
      | some node =>
        match table_get planes node.plane with
        | none => Outcome.out_of_bounds
        | some plane =>
          if float_plane_distance plane pos ≥ 0 then
            float_find_leaf_loop nodes planes pos fuel node.children.1
          else
            float_find_leaf_loop nodes planes pos fuel node.children.2
    else Outcome.value (~~~i)

/-- The method `EQ3Map::find_leaf` with `distance` computed in the arithmetic of `float`. -/
def float_find_leaf (nodes : List q3bsp_node_t) (planes : List q3bsp_plane_t) (pos : vector3)
    (fuel : ℕ) : Outcome ℤ :=
  float_find_leaf_loop nodes planes pos fuel 0

/-- A plane as it stands in a file: normal `(2 ^ 24, 1, -2 ^ 24)` and distance `1 / 2`; all
four numbers are values of type `float`. -/
def file_plane_wide : q3bsp_plane_t := { normal := (16777216, 1, -16777216), dist := 1 / 2 }

/-! ## `EQ3Map::load_lumps` and `EQ3Map::load` with the results of `malloc`
(`src/engine/Q3map.cpp`)

The source stores every result of `malloc` without a check and uses it as a buffer. Below,
`malloc n` tells whether the call `malloc(n)` returns a buffer of `n` bytes (`true`) or the
null pointer (`false`). A run that uses the null pointer as a buffer, or that overflows an
`int`, has undefined behaviour (in practice the process is ended by a write through the null
pointer); such a run is `none`. -/

/-- Whether an integer is a value of the type `int` (32 bits, two's complement). -/
def fits_int (v : ℤ) : Prop := -2147483648 ≤ v ∧ v ≤ 2147483647

instance (v : ℤ) : Decidable (fits_int v) := by
  unfold fits_int
  infer_instance

/-- The value of `sizeof(struct q3bsp_texture_t)`: `char name[64]; int flags; int contents; unsigned int gl_text_id;`. -/
def sizeof_q3bsp_texture_t : ℤ := 76

/-- The value of `sizeof(struct q3bsp_plane_t)`: `float normal[3]; float dist;`. -/
def sizeof_q3bsp_plane_t : ℤ := 16

/-- The value of `sizeof(struct q3bsp_node_t)`: `int plane; int children[2]; int mins[3]; int maxs[3];`. -/
def sizeof_q3bsp_node_t : ℤ := 36

/-- The value of `sizeof(struct q3bsp_leaf_t)`: twelve `int`. -/
def sizeof_q3bsp_leaf_t : ℤ := 48

/-- The value of `sizeof(struct q3bsp_leafface_t)`: `int face;`. -/
def sizeof_q3bsp_leafface_t : ℤ := 4

/-- The value of `sizeof(struct q3bsp_leafbrush_t)`: `int brush;`. -/
def sizeof_q3bsp_leafbrush_t : ℤ := 4

/-- The value of `sizeof(struct q3bsp_model_t)`: `float mins[3]; float maxs[3];` and four `int`. -/
def sizeof_q3bsp_model_t : ℤ := 40

/-- The value of `sizeof(struct q3bsp_brush_t)`: three `int`. -/
def sizeof_q3bsp_brush_t : ℤ := 12

/-- The value of `sizeof(struct q3bsp_brushside_t)`: two `int`. -/
def sizeof_q3bsp_brushside_t : ℤ := 8

/-- The value of `sizeof(struct q3bsp_vertex_t)`: `float position[3]; float texcoord[2]; float lightmapcoord[2]; float normal[3];
byte color[4];`. -/
def sizeof_q3bsp_vertex_t : ℤ := 44

/-- The value of `sizeof(struct q3bsp_meshvert_t)`: `int offset;`. -/
def sizeof_q3bsp_meshvert_t : ℤ := 4

/-- The value of `sizeof(struct q3bsp_effect_t)`: `char name[64]; int brush; int unknown;`. -/
def sizeof_q3bsp_effect_t : ℤ := 72

/-- The value of `sizeof(struct q3bsp_face_t)`: eight `int`, `int lm_start[2]; int lm_size[2]; float lm_origin[3]; float lm_vecs[2];
float normal[3]; int size[2];`. -/
def sizeof_q3bsp_face_t : ℤ := 88

/-- The value of `sizeof(struct q3bsp_lightmap_t)`: `byte map[128][128][3]; unsigned int gl_text_id;`. -/
def sizeof_q3bsp_lightmap_t : ℤ := 49156

/-- The value of `sizeof(struct q3bsp_lightvol_t)`: `byte ambient[3]; byte directional[3]; byte dir[2];`. -/
def sizeof_q3bsp_lightvol_t : ℤ := 8

/-- The buffer of a table lump: `table = malloc(sizeof(struct) * num);` followed by the loop
`for (i = 0; i < num; ++i)`, whose body hands `&table[i]...` to `fread`. The product is formed
in `size_t`. With the null pointer and `0 < num` the loop indexes the null pointer: undefined.
Otherwise the state `s`, as the reads of the loop leave it, stands. -/
def use_table (malloc : ℕ → Bool) (sizeof_struct num : ℤ) (s : EQ3Map × FILE) :
    Option (EQ3Map × FILE) :=
  if malloc (to_size_t (sizeof_struct * num)) = false ∧ 0 < num then none else some s

/-- Lump 0 of `load_lumps` with the result of `malloc`: `entities.ents = (char*)malloc(
sizeof(char) * LUMP_LENGTH(LUMP_ENTITIES)); fread(entities.ents, LUMP_LENGTH(LUMP_ENTITIES), 1,
fptr);`. With the null pointer and a size other than 0, `fread` is handed the null pointer as
a buffer: undefined. -/
def load_lump_entities_malloc (malloc : ℕ → Bool) (m : EQ3Map) (fptr : FILE) :
    Option (EQ3Map × FILE) :=
  if malloc (to_size_t (1 * LUMP_LENGTH m LUMP_ENTITIES)) = false ∧
      0 < to_size_t (LUMP_LENGTH m LUMP_ENTITIES) then none
  else some (load_lump_entities m fptr)

/-- Lump 1 of `load_lumps` with the result of `malloc`: `textures = malloc(sizeof(struct
q3bsp_texture_t) * num_textures);` and the loop over `i < num_textures`. -/
def load_lump_textures_malloc (malloc : ℕ → Bool) (m : EQ3Map) (fptr : FILE) :
    Option (EQ3Map × FILE) :=
  use_table malloc sizeof_q3bsp_texture_t (load_lump_textures m fptr).1.num_textures
    (load_lump_textures m fptr)

/-- Lump 2 of `load_lumps` with the result of `malloc`: `planes = malloc(sizeof(struct
q3bsp_plane_t) * num_planes);` and the loop over `i < num_planes`. -/
def load_lump_planes_malloc (malloc : ℕ → Bool) (m : EQ3Map) (fptr : FILE) :
    Option (EQ3Map × FILE) :=
  use_table malloc sizeof_q3bsp_plane_t (load_lump_planes m fptr).1.num_planes
    (load_lump_planes m fptr)

/-- Lump 3 of `load_lumps` with the result of `malloc`: `nodes = malloc(sizeof(struct
q3bsp_node_t) * num_nodes);` and the loop over `i < num_nodes`. -/
def load_lump_nodes_malloc (malloc : ℕ → Bool) (m : EQ3Map) (fptr : FILE) :
    Option (EQ3Map × FILE) :=
  use_table malloc sizeof_q3bsp_node_t (load_lump_nodes m fptr).1.num_nodes
    (load_lump_nodes m fptr)

/-- Lump 4 of `load_lumps` with the result of `malloc`: `leafs = malloc(sizeof(struct
q3bsp_leaf_t) * num_leafs);` and the loop over `i < num_leafs`. -/
def load_lump_leafs_malloc (malloc : ℕ → Bool) (m : EQ3Map) (fptr : FILE) :
    Option (EQ3Map × FILE) :=
  use_table malloc sizeof_q3bsp_leaf_t (load_lump_leafs m fptr).1.num_leafs
    (load_lump_leafs m fptr)

/-- Lump 5 of `load_lumps` with the result of `malloc`: `leaffaces = malloc(sizeof(struct
q3bsp_leafface_t) * num_leaffaces);` and the loop over `i < num_leaffaces`. -/
def load_lump_leaffaces_malloc (malloc : ℕ → Bool) (m : EQ3Map) (fptr : FILE) :
    Option (EQ3Map × FILE) :=
  use_table malloc sizeof_q3bsp_leafface_t (load_lump_leaffaces m fptr).1.num_leaffaces
    (load_lump_leaffaces m fptr)

/-- Lump 6 of `load_lumps` with the result of `malloc`: `leafbrushes = malloc(sizeof(struct
q3bsp_leafbrush_t) * num_leafbrushes);` and the loop over `i < num_leafbrushes`. -/
def load_lump_leafbrushes_malloc (malloc : ℕ → Bool) (m : EQ3Map) (fptr : FILE) :
    Option (EQ3Map × FILE) :=
  use_table malloc sizeof_q3bsp_leafbrush_t (load_lump_leafbrushes m fptr).1.num_leafbrushes
    (load_lump_leafbrushes m fptr)

/-- Lump 7 of `load_lumps` with the result of `malloc`: `models = malloc(sizeof(struct
q3bsp_model_t) * num_models);` and the loop over `i < num_models`. -/
def load_lump_models_malloc (malloc : ℕ → Bool) (m : EQ3Map) (fptr : FILE) :
    Option (EQ3Map × FILE) :=
  use_table malloc sizeof_q3bsp_model_t (load_lump_models m fptr).1.num_models
    (load_lump_models m fptr)

/-- Lump 8 of `load_lumps` with the result of `malloc`: `brushes = malloc(sizeof(struct
q3bsp_brush_t) * num_brushes);` and the loop over `i < num_brushes`. -/
def load_lump_brushes_malloc (malloc : ℕ → Bool) (m : EQ3Map) (fptr : FILE) :
    Option (EQ3Map × FILE) :=
  use_table malloc sizeof_q3bsp_brush_t (load_lump_brushes m fptr).1.num_brushes
    (load_lump_brushes m fptr)

/-- Lump 9 of `load_lumps` with the result of `malloc`: `brushsides = malloc(sizeof(struct
q3bsp_brushside_t) * num_brushsides);` and the loop over `i < num_brushsides`. -/
def load_lump_brushsides_malloc (malloc : ℕ → Bool) (m : EQ3Map) (fptr : FILE) :
    Option (EQ3Map × FILE) :=
  use_table malloc sizeof_q3bsp_brushside_t (load_lump_brushsides m fptr).1.num_brushsides
    (load_lump_brushsides m fptr)

/-- Lump 10 of `load_lumps` with the result of `malloc`: `vertexes = malloc(sizeof(struct
q3bsp_vertex_t) * num_vertexes);` and the loop over `i < num_vertexes`. -/
def load_lump_vertexes_malloc (malloc : ℕ → Bool) (m : EQ3Map) (fptr : FILE) :
    Option (EQ3Map × FILE) :=
  use_table malloc sizeof_q3bsp_vertex_t (load_lump_vertexes m fptr).1.num_vertexes
    (load_lump_vertexes m fptr)

/-- Lump 11 of `load_lumps` with the result of `malloc`: `meshverts = malloc(sizeof(struct
q3bsp_meshvert_t) * num_meshverts);` and the loop over `i < num_meshverts`. -/
def load_lump_meshverts_malloc (malloc : ℕ → Bool) (m : EQ3Map) (fptr : FILE) :
    Option (EQ3Map × FILE) :=
  use_table malloc sizeof_q3bsp_meshvert_t (load_lump_meshverts m fptr).1.num_meshverts
    (load_lump_meshverts m fptr)

/-- Lump 12 of `load_lumps` with the result of `malloc`: `effects = malloc(sizeof(struct
q3bsp_effect_t) * num_effects);` and the loop over `i < num_effects`. -/
def load_lump_effects_malloc (malloc : ℕ → Bool) (m : EQ3Map) (fptr : FILE) :
    Option (EQ3Map × FILE) :=
  use_table malloc sizeof_q3bsp_effect_t (load_lump_effects m fptr).1.num_effects
    (load_lump_effects m fptr)

/-- Lump 13 of `load_lumps` with the result of `malloc`: `faces = malloc(sizeof(struct
q3bsp_face_t) * num_faces);` and the loop over `i < num_faces`. -/
def load_lump_faces_malloc (malloc : ℕ → Bool) (m : EQ3Map) (fptr : FILE) :
    Option (EQ3Map × FILE) :=
  use_table malloc sizeof_q3bsp_face_t (load_lump_faces m fptr).1.num_faces
    (load_lump_faces m fptr)

/-- Lump 14 of `load_lumps` with the result of `malloc`: `lightmaps = malloc(sizeof(struct
q3bsp_lightmap_t) * num_lightmaps);` and the loop over `i < num_lightmaps`. -/
def load_lump_lightmaps_malloc (malloc : ℕ → Bool) (m : EQ3Map) (fptr : FILE) :
    Option (EQ3Map × FILE) :=
  use_table malloc sizeof_q3bsp_lightmap_t (load_lump_lightmaps m fptr).1.num_lightmaps
    (load_lump_lightmaps m fptr)

/-- Lump 15 of `load_lumps` with the result of `malloc`: `lightvols = malloc(sizeof(struct
q3bsp_lightvol_t) * num_lightvols);` and the loop over `i < num_lightvols`. -/
def load_lump_lightvols_malloc (malloc : ℕ → Bool) (m : EQ3Map) (fptr : FILE) :
    Option (EQ3Map × FILE) :=
  use_table malloc sizeof_q3bsp_lightvol_t (load_lump_lightvols m fptr).1.num_lightvols
    (load_lump_lightvols m fptr)

/-- Lump 16 of `load_lumps` with the result of `malloc`: after the two counts are read,
`visdata.vecs = (byte*)malloc(sizeof(byte) * visdata.num_vecs * visdata.sz_vecs);
fread(visdata.vecs, (visdata.num_vecs * visdata.sz_vecs), 1, fptr);`. The argument of `malloc`
is formed in `size_t`, the size handed to `fread` is a product of two `int`: when it does not
fit an `int` the behaviour is undefined. With the null pointer and a size other than 0,
`fread` is handed the null pointer as a buffer: undefined. -/
def load_lump_visdata_malloc (malloc : ℕ → Bool) (m : EQ3Map) (fptr : FILE) :
    Option (EQ3Map × FILE) :=
  let s := load_lump_visdata m fptr
  let product := s.1.visdata.num_vecs * s.1.visdata.sz_vecs
  if ¬ fits_int product then none
  else if malloc (to_size_t (1 * s.1.visdata.num_vecs * s.1.visdata.sz_vecs)) = false ∧
      0 < to_size_t product then none
  else some s

/-- The seventeen lumps of `load_lumps` in the order of the source, each with the result of
its `malloc`. -/
def lump_steps (malloc : ℕ → Bool) : List (EQ3Map → FILE → Option (EQ3Map × FILE)) :=
  [load_lump_entities_malloc malloc, load_lump_textures_malloc malloc,
   load_lump_planes_malloc malloc, load_lump_nodes_malloc malloc,
   load_lump_leafs_malloc malloc, load_lump_leaffaces_malloc malloc,
   load_lump_leafbrushes_malloc malloc, load_lump_models_malloc malloc,
   load_lump_brushes_malloc malloc, load_lump_brushsides_malloc malloc,
   load_lump_vertexes_malloc malloc, load_lump_meshverts_malloc malloc,
   load_lump_effects_malloc malloc, load_lump_faces_malloc malloc,
   load_lump_lightmaps_malloc malloc, load_lump_lightvols_malloc malloc,
   load_lump_visdata_malloc malloc]

/-- The lumps of `steps` run one after the other on the map and the stream; a lump with
undefined behaviour ends the run. -/
def run_lump_steps :
    List (EQ3Map → FILE → Option (EQ3Map × FILE)) → EQ3Map × FILE → Option (EQ3Map × FILE)
  | [], s => some s
  | step :: rest, s =>
    match step s.1 s.2 with
    | none => none
    | some s1 => run_lump_steps rest s1

/-- The method `EQ3Map::load_lumps` with the results of `malloc`: the seventeen lumps in
order, then `return 1`. -/
def load_lumps_malloc (malloc : ℕ → Bool) (m : EQ3Map) (fptr : FILE) :
    Option (ℤ × EQ3Map × FILE) :=
  match run_lump_steps (lump_steps malloc) (m, fptr) with
  | none => none
  | some s => some (1, s.1, s.2)

/-- The method `EQ3Map::load` with the results of `malloc`. `file` is the result of `fopen`
(`none` when it fails); `after_lumps` stands for the calls `load_textures(); load_lightmaps();
parse_entities();` made once the stream is closed. Returned: the return value, the map, and
the stream as it was when closed; `none` when `load_lumps` has undefined behaviour. -/
def load_malloc (malloc : ℕ → Bool) (file : Option FILE) (after_lumps : EQ3Map → EQ3Map)
    (m : EQ3Map) : Option (ℤ × EQ3Map × Option FILE) :=
  match file with
  | none => some (0, m, none)
  | some fptr =>
    /- Read the header -/
    let h := load_header m fptr
    if h.1 = 0 then some (0, h.2.1, some h.2.2)
    else
      /- Load the lumps -/
      match load_lumps_malloc malloc h.2.1 h.2.2 with
      | none => none
      | some l =>
        if l.1 = 0 then some (0, l.2.1, some l.2.2)
        else some (1, after_lumps l.2.1, some l.2.2)

/-- An allocator that returns a buffer for every request below `limit` bytes and the null
pointer for every other request. -/
def malloc_below (limit : ℕ) : ℕ → Bool := fun n => decide (n < limit)

/-- A map file of 152 bytes, the header and an empty visibility lump, whose directory gives
the entities lump the offset 144 and the length -1. -/
def file_negative_entities : List byte :=
  header_bytes 46
    [(144, -1), (144, 0), (144, 0), (144, 0), (144, 0), (144, 0), (144, 0), (144, 0), (144, 0),
     (144, 0), (144, 0), (144, 0), (144, 0), (144, 0), (144, 0), (144, 0), (144, 8)] ++
  List.replicate 8 0

/-! ## Properties of `find_leaf` -/

theorem find_leaf_loop_neg (nodes : List q3bsp_node_t) (planes : List q3bsp_plane_t)
    (pos : vector3) (fuel : ℕ) (r : ℤ) (hr : r < 0) :
    find_leaf_loop nodes planes pos fuel r = Outcome.value (~~~r) := by
  have h : ¬ r ≥ 0 := by omega
  cases fuel <;> simp [find_leaf_loop, h]

theorem find_leaf_loop_of_descent (nodes : List q3bsp_node_t) (planes : List q3bsp_plane_t)
    (pos : vector3) (i r : ℤ) (h : spec_descent nodes planes pos i r) :
    ∃ fuel, ∀ fuel', fuel ≤ fuel' →
      find_leaf_loop nodes planes pos fuel' i = Outcome.value (~~~r) := by
  induction h with
  | leaf r hr => exact ⟨0, fun fuel' _ => find_leaf_loop_neg nodes planes pos fuel' r hr⟩
  | front i r node plane hi hn hp hd _ ih =>
    obtain ⟨fuel, hf⟩ := ih
    refine ⟨fuel + 1, fun fuel' hle => ?_⟩
    obtain ⟨k, rfl⟩ : ∃ k, fuel' = k + 1 := ⟨fuel' - 1, by omega⟩
    have hd' : plane_distance plane pos ≥ 0 := by
      simpa [plane_distance, spec_dot] using hd
    simp only [find_leaf_loop, hn, hp]
    rw [if_pos (show i ≥ 0 from hi), if_pos hd']
    exact hf k (by omega)
  | back i r node plane hi hn hp hd _ ih =>
    obtain ⟨fuel, hf⟩ := ih
    refine ⟨fuel + 1, fun fuel' hle => ?_⟩
    obtain ⟨k, rfl⟩ : ∃ k, fuel' = k + 1 := ⟨fuel' - 1, by omega⟩
    have hd' : ¬ plane_distance plane pos ≥ 0 := by
      have : plane_distance plane pos < 0 := by
        simpa [plane_distance, spec_dot] using hd
      exact not_le.mpr this
    simp only [find_leaf_loop, hn, hp]
    rw [if_pos (show i ≥ 0 from hi), if_neg hd']
    exact hf k (by omega)

theorem find_leaf_loop_value_unique (nodes : List q3bsp_node_t) (planes : List q3bsp_plane_t)
    (pos : vector3) (i r : ℤ) (h : spec_descent nodes planes pos i r) :
    ∀ fuel v, find_leaf_loop nodes planes pos fuel i = Outcome.value v → v = ~~~r := by
  induction h with
  | leaf r hr =>
    intro fuel v hv
    rw [find_leaf_loop_neg nodes planes pos fuel r hr] at hv
    exact (Outcome.value.inj hv).symm
  | front i r node plane hi hn hp hd _ ih =>
    intro fuel v hv
    have hd' : plane_distance plane pos ≥ 0 := by
      simpa [plane_distance, spec_dot] using hd
    cases fuel with
    | zero => simp [find_leaf_loop, hi] at hv
    | succ k =>
      simp only [find_leaf_loop, hn, hp] at hv
      rw [if_pos (show i ≥ 0 from hi), if_pos hd'] at hv
      exact ih k v hv
  | back i r node plane hi hn hp hd _ ih =>
    intro fuel v hv
    have hd' : ¬ plane_distance plane pos ≥ 0 := by
      have : plane_distance plane pos < 0 := by
        simpa [plane_distance, spec_dot] using hd
      exact not_le.mpr this
    cases fuel with
    | zero => simp [find_leaf_loop, hi] at hv
    | succ k =>
      simp only [find_leaf_loop, hn, hp] at hv
      rw [if_pos (show i ≥ 0 from hi), if_neg hd'] at hv
      exact ih k v hv

/-- C1: whenever the reference descent from node index 0 reaches the negative index `r`,
`find_leaf` returns the bitwise complement `~r`: it does so for every sufficiently large fuel, and
no amount of fuel makes it return anything else. -/
theorem find_leaf_eq_reference_descent (nodes : List q3bsp_node_t) (planes : List q3bsp_plane_t)
    (pos : vector3) (r : ℤ) (h : spec_descent nodes planes pos 0 r) :
    (∃ fuel, ∀ fuel', fuel ≤ fuel' → find_leaf nodes planes pos fuel' = Outcome.value (~~~r)) ∧
    (∀ fuel v, find_leaf nodes planes pos fuel = Outcome.value v → v = ~~~r) :=
  ⟨find_leaf_loop_of_descent nodes planes pos 0 r h,
   find_leaf_loop_value_unique nodes planes pos 0 r h⟩

/-- Witness for C1: on the two-level tree the reference descent of the point `(1, 5, 0)` ends
at index `-2`, and `find_leaf` returns leaf 1. -/
theorem find_leaf_eq_reference_descent_witness :
    spec_descent two_level_nodes two_level_planes ⟨1, 5, 0⟩ 0 (-2) ∧
    ((∃ fuel, ∀ fuel', fuel ≤ fuel' →
        find_leaf two_level_nodes two_level_planes ⟨1, 5, 0⟩ fuel' = Outcome.value 1) ∧
      (∀ fuel v, find_leaf two_level_nodes two_level_planes ⟨1, 5, 0⟩ fuel = Outcome.value v →
        v = 1)) :=
  have h : spec_descent two_level_nodes two_level_planes ⟨1, 5, 0⟩ 0 (-2) :=
    spec_descent.front 0 (-2) ⟨0, (1, -1), (-8, -8, -8), (8, 8, 8)⟩ ⟨(1, 0, 0), 0⟩
      (by decide) rfl rfl (by norm_num [spec_dot])
      (spec_descent.front 1 (-2) ⟨1, (-2, -3), (0, -8, -8), (8, 8, 8)⟩ ⟨(0, 1, 0), 2⟩
        (by decide) rfl rfl (by norm_num [spec_dot])
        (spec_descent.leaf (-2) (by decide)))
  ⟨h, find_leaf_eq_reference_descent two_level_nodes two_level_planes ⟨1, 5, 0⟩ (-2) h⟩

/-! ## Properties of `is_cluster_visable` -/

theorem byte_and_bit_ne_zero (v k : ℕ) :
    Int.land (v : ℤ) (((1 : ℕ) <<< k : ℕ) : ℤ) ≠ 0 ↔ v.testBit k = true := by
  have h : Int.land (v : ℤ) (((1 : ℕ) <<< k : ℕ) : ℤ) = ((v &&& ((1 : ℕ) <<< k) : ℕ) : ℤ) := rfl
  rw [h, Nat.one_shiftLeft, Nat.and_two_pow]
  cases hb : v.testBit k <;> simp

theorem land_seven_of_nonneg (test : ℤ) (h : 0 ≤ test) :
    (Int.land test 7).toNat = (test % 8).toNat := by
  obtain ⟨n, rfl⟩ := Int.eq_ofNat_of_zero_le h
  have h1 : Int.land (n : ℤ) 7 = ((n &&& 7 : ℕ) : ℤ) := rfl
  have h2 : n &&& 7 = n % 8 := Nat.and_pow_two_sub_one_eq_mod n 3
  rw [h1, h2]
  simp

/-- C2: for `0 ≤ test < num_vecs` with `test / 8 < sz_vecs`, `is_cluster_visable(current, test)`
returns a non-zero value if and only if `current < 0` or bit `test & 7` of the byte
`vecs[current * sz_vecs + test / 8]` is set. -/
theorem is_cluster_visable_iff (visdata : q3bsp_visdata_t) (current test : ℤ)
    (h0 : 0 ≤ test) (_h1 : test < visdata.num_vecs) (_h2 : test / 8 < visdata.sz_vecs) :
    (∃ r, is_cluster_visable visdata current test = some r ∧ r ≠ 0) ↔
      (current < 0 ∨
        ∃ vec, table_get visdata.vecs (current * visdata.sz_vecs + test / 8) = some vec ∧
          vec.val.testBit (test % 8).toNat = true) := by
  have hdiv : Int.tdiv test 8 = test / 8 := Int.tdiv_eq_ediv h0 (by decide)
  unfold is_cluster_visable
  by_cases hc : current < 0
  · simp [hc]
  · rw [if_neg hc, hdiv, land_seven_of_nonneg test h0]
    cases hg : table_get visdata.vecs (current * visdata.sz_vecs + test / 8) with
    | none => simp [hc]
    | some vec =>
      simp only [hc, false_or, Option.some.injEq, exists_eq_left']
      exact byte_and_bit_ne_zero vec.val (test % 8).toNat

/-- Witness for C2: in the table of two clusters, cluster 1 sees cluster 1. -/
theorem is_cluster_visable_iff_witness :
    (0 : ℤ) ≤ 1 ∧ (1 : ℤ) < visdata_two_clusters.num_vecs ∧
    (1 : ℤ) / 8 < visdata_two_clusters.sz_vecs ∧
    ((∃ r, is_cluster_visable visdata_two_clusters 1 1 = some r ∧ r ≠ 0) ↔
      ((1 : ℤ) < 0 ∨
        ∃ vec, table_get visdata_two_clusters.vecs (1 * visdata_two_clusters.sz_vecs + 1 / 8) =
            some vec ∧
          vec.val.testBit ((1 : ℤ) % 8).toNat = true)) :=
  ⟨by decide, by decide, by decide,
    is_cluster_visable_iff visdata_two_clusters 1 1 (by decide) (by decide) (by decide)⟩

/-! ## Properties of the frustum tests -/

theorem is_point_visable_loop_eq_zero (camera : RCamera) (x y z : ℚ) (l : List (Fin 6)) :
    is_point_visable_loop camera x y z l = 0 ↔ ∃ i ∈ l, frustum_distance camera i x y z ≤ 0 := by
  induction l with
  | nil => simp [is_point_visable_loop]
  | cons i rest ih =>
    by_cases h : frustum_distance camera i x y z ≤ 0
    · simp [is_point_visable_loop, h]
    · simp [is_point_visable_loop, h, ih]

theorem is_point_visable_loop_zero_or_one (camera : RCamera) (x y z : ℚ) (l : List (Fin 6)) :
    is_point_visable_loop camera x y z l = 0 ∨ is_point_visable_loop camera x y z l = 1 := by
  induction l with
  | nil => simp [is_point_visable_loop]
  | cons i rest ih =>
    by_cases h : frustum_distance camera i x y z ≤ 0
    · simp [is_point_visable_loop, h]
    · simpa [is_point_visable_loop, h] using ih

theorem mem_all_planes (i : Fin 6) : i ∈ ([0, 1, 2, 3, 4, 5] : List (Fin 6)) := by
  revert i
  decide

/-- C7: `is_point_visable` returns 0 exactly when some plane `i` has
`a_i·x + b_i·y + c_i·z + d_i ≤ 0`, and returns 1 otherwise; a point strictly behind any of
the six planes, the near plane (`frustum[5]`) among them, is reported not visible. -/
theorem is_point_visable_iff (camera : RCamera) (x y z : ℚ) :
    (is_point_visable camera x y z = 0 ↔
      ∃ i : Fin 6, camera.frustum i 0 * x + camera.frustum i 1 * y + camera.frustum i 2 * z +
        camera.frustum i 3 ≤ 0) ∧
    (is_point_visable camera x y z = 1 ↔
      ¬ ∃ i : Fin 6, camera.frustum i 0 * x + camera.frustum i 1 * y + camera.frustum i 2 * z +
        camera.frustum i 3 ≤ 0) ∧
    (∀ i : Fin 6, camera.frustum i 0 * x + camera.frustum i 1 * y + camera.frustum i 2 * z +
        camera.frustum i 3 < 0 → is_point_visable camera x y z = 0) := by
  have key : is_point_visable camera x y z = 0 ↔
      ∃ i : Fin 6, camera.frustum i 0 * x + camera.frustum i 1 * y + camera.frustum i 2 * z +
        camera.frustum i 3 ≤ 0 := by
    unfold is_point_visable
    rw [is_point_visable_loop_eq_zero]
    constructor
    · rintro ⟨i, _, hi⟩
      exact ⟨i, hi⟩
    · rintro ⟨i, hi⟩
      exact ⟨i, mem_all_planes i, hi⟩
  refine ⟨key, ?_, ?_⟩
  · rw [← key]
    rcases is_point_visable_loop_zero_or_one camera x y z [0, 1, 2, 3, 4, 5] with h | h
    · simp [is_point_visable, h]
    · simp [is_point_visable, h]
  · intro i h
    exact key.mpr ⟨i, le_of_lt h⟩

/-- C5 (the code at the failing input): every one of the six planes `(-1, 0, 0, 0)` has all
eight corners of the box `(1,1,1)`-`(2,2,2)` behind it, and `is_box_visable` returns 1. -/
theorem is_box_visable_misses_cull :
    (∀ i : Fin 6, ∀ c ∈ box_corners 1 1 1 2 2 2,
      camera_facing_neg_x.frustum i 0 * c.1 + camera_facing_neg_x.frustum i 1 * c.2.1 +
        camera_facing_neg_x.frustum i 2 * c.2.2 + camera_facing_neg_x.frustum i 3 ≤ 0) ∧
    is_box_visable camera_facing_neg_x 1 1 1 2 2 2 = 1 := by
  constructor
  · intro i c hc
    simp only [box_corners, List.mem_cons, List.mem_singleton, List.not_mem_nil, or_false] at hc
    rcases hc with rfl | rfl | rfl | rfl | rfl | rfl | rfl | rfl <;>
      norm_num [camera_facing_neg_x]
  · norm_num [is_box_visable, is_box_visable_loop, frustum_distance, camera_facing_neg_x]

/-- C6 (the code at the failing input): the corner `(x2, y1, z1) = (1, 0, 0)` of the box
`(-1,0,0)`-`(1,2,2)` satisfies `is_point_visable`, and `is_box_visable` returns 0 for the box. -/
theorem is_box_visable_culls_visible_corner :
    (1, 0, 0) ∈ box_corners (-1) 0 0 1 2 2 ∧
    is_point_visable camera_one_plane 1 0 0 = 1 ∧
    is_box_visable camera_one_plane (-1) 0 0 1 2 2 = 0 := by
  refine ⟨by simp [box_corners], ?_, ?_⟩
  · decide!
  · decide!

/-! ## Properties of `render` -/

/-- The values of `count_down` are those of the loop `for (; v >= 0; --v)`. -/
theorem count_down_unfold (start : ℤ) :
    count_down start = if start ≥ 0 then start :: count_down (start - 1) else [] := by
  unfold count_down
  by_cases h : start ≥ 0
  · obtain ⟨n, rfl⟩ := Int.eq_ofNat_of_zero_le h
    cases n with
    | zero => simp [count_down_from]
    | succ k =>
      have h1 : ((k + 1 : ℕ) : ℤ) - 1 ≥ 0 := by omega
      have h2 : (((k + 1 : ℕ) : ℤ) - 1).toNat = k := by omega
      simp only [h, h1, h2, if_true, Int.toNat_ofNat, count_down_from]
  · simp [h]

/-- C3 (the code at the failing input): on a map with one leaf (`num_leafs = 1`, leaf table of
length 1) the first leaf `render` examines is `leafs[1]`, outside the leaf table. -/
theorem render_examines_leaf_past_table :
    render 1 [node_to_leaf_zero] [plane_x] [leaf_without_faces] [⟨7⟩] visdata_one_cluster
        camera_sees_all 1 =
      Outcome.value [render_event.leaf 1, render_event.fault] ∧
    table_get [leaf_without_faces] 1 = none := by
  decide!

/-- C4 (the code at the failing input): for a leaf that passes both tests, the inner loop hands
`leaffaces[leafface + num_leaffaces]` to `render_face` as well: a leaf with `num_leaffaces = 0`
submits face 7, and a leaf with the range `leaffaces[0..1]` also submits `leaffaces[2]`. -/
theorem render_submits_face_past_range :
    render_leaves [leaf_without_faces] [⟨7⟩] visdata_one_cluster camera_sees_all 0 [0] =
      [render_event.leaf 0, render_event.render_face 7] ∧
    render_leaves [leaf_with_two_faces] [⟨10⟩, ⟨11⟩, ⟨12⟩] visdata_one_cluster camera_sees_all 0
        [0] =
      [render_event.leaf 0, render_event.render_face 12, render_event.render_face 11,
        render_event.render_face 10] := by
  decide!

/-! ## Properties of the loader -/

theorem fread_pos (fptr : FILE) (size count : ℕ)
    (h : fptr.pos + size * count ≤ fptr.data.length) :
    (fread fptr size count).2.pos = fptr.pos + size * count ∧
    (fread fptr size count).2.data = fptr.data := by
  simp only [fread, List.length_take, List.length_drop, and_true]
  omega

theorem read_members_pos (freads : List (ℕ × ℕ)) (fptr : FILE)
    (h : fptr.pos + (freads.map fun sc => sc.1 * sc.2).sum ≤ fptr.data.length) :
    (read_members fptr freads).2.pos = fptr.pos + (freads.map fun sc => sc.1 * sc.2).sum ∧
    (read_members fptr freads).2.data = fptr.data := by
  induction freads generalizing fptr with
  | nil => simp [read_members]
  | cons sc rest ih =>
    obtain ⟨size, count⟩ := sc
    simp only [List.map_cons, List.sum_cons] at h ⊢
    have h1 := fread_pos fptr size count (by omega)
    have h2 := ih (fread fptr size count).2 (by rw [h1.1, h1.2]; omega)
    simp only [read_members]
    rw [h2.1, h2.2, h1.1, h1.2]
    exact ⟨by omega, rfl⟩

theorem read_record_pos (layout : lump_layout) (fptr : FILE)
    (h : fptr.pos + bytes_per_record layout ≤ fptr.data.length) :
    (read_record layout fptr).2.pos = fptr.pos + bytes_per_record layout :=
  (read_members_pos layout.freads fptr h).1

theorem int_of_bytes_eq_magic (b0 b1 b2 b3 : byte) (tail : List byte) :
    int_of_bytes (b0 :: b1 :: b2 :: b3 :: tail) = 0x50534249 ↔
      (b0, b1, b2, b3) = (73, 66, 83, 80) := by
  have h0 := b0.isLt
  have h1 := b1.isLt
  have h2 := b2.isLt
  have h3 := b3.isLt
  simp only [int_of_bytes, List.getD_cons_zero, List.getD_cons_succ, Prod.mk.injEq]
  constructor
  · intro h
    split_ifs at h with hu
    · exact ⟨Fin.ext (show b0.val = 73 by omega), Fin.ext (show b1.val = 66 by omega),
        Fin.ext (show b2.val = 83 by omega), Fin.ext (show b3.val = 80 by omega)⟩
    · exfalso
      omega
  · rintro ⟨rfl, rfl, rfl, rfl⟩
    decide

/-- The element counts stored by `load_lumps`, for every header and file: each is the
directory length of its own lump divided by the element size, except `num_leaffaces`, which is
computed from the length of the leafs lump. -/
theorem load_lumps_counts (m : EQ3Map) (fptr : FILE) :
    (load_lumps m fptr).1 = 1 ∧
    (load_lumps m fptr).2.1.num_textures =
      Int.tdiv (LUMP_LENGTH m LUMP_TEXTURES) SIZEOF_TEXTURE ∧
    (load_lumps m fptr).2.1.num_planes = Int.tdiv (LUMP_LENGTH m LUMP_PLANES) SIZEOF_PLANE ∧
    (load_lumps m fptr).2.1.num_nodes = Int.tdiv (LUMP_LENGTH m LUMP_NODES) SIZEOF_NODE ∧
    (load_lumps m fptr).2.1.num_leafs = Int.tdiv (LUMP_LENGTH m LUMP_LEAFS) SIZEOF_LEAF ∧
    (load_lumps m fptr).2.1.num_leaffaces =
      Int.tdiv (LUMP_LENGTH m LUMP_LEAFS) SIZEOF_LEAFFACE ∧
    (load_lumps m fptr).2.1.num_leafbrushes =
      Int.tdiv (LUMP_LENGTH m LUMP_LEAFBRUSHES) SIZEOF_LEAFBRUSH ∧
    (load_lumps m fptr).2.1.num_models = Int.tdiv (LUMP_LENGTH m LUMP_MODELS) SIZEOF_MODEL ∧
    (load_lumps m fptr).2.1.num_brushes = Int.tdiv (LUMP_LENGTH m LUMP_BRUSHES) SIZEOF_BRUSH ∧
    (load_lumps m fptr).2.1.num_brushsides =
      Int.tdiv (LUMP_LENGTH m LUMP_BRUSHSIDES) SIZEOF_BRUSHSIDE ∧
    (load_lumps m fptr).2.1.num_vertexes =
      Int.tdiv (LUMP_LENGTH m LUMP_VERTEXES) SIZEOF_VERTEX ∧
    (load_lumps m fptr).2.1.num_meshverts =
      Int.tdiv (LUMP_LENGTH m LUMP_MESHVERTS) SIZEOF_MESHVERT ∧
    (load_lumps m fptr).2.1.num_effects = Int.tdiv (LUMP_LENGTH m LUMP_EFFECTS) SIZEOF_EFFECT ∧
    (load_lumps m fptr).2.1.num_faces = Int.tdiv (LUMP_LENGTH m LUMP_FACES) SIZEOF_FACE ∧
    (load_lumps m fptr).2.1.num_lightmaps =
      Int.tdiv (LUMP_LENGTH m LUMP_LIGHTMAPS) SIZEOF_LIGHTMAP ∧
    (load_lumps m fptr).2.1.num_lightvols =
      Int.tdiv (LUMP_LENGTH m LUMP_LIGHTVOLS) SIZEOF_LIGHTVOL ∧
    (load_lumps m fptr).2.1.header = m.header := by
  simp only [load_lumps, load_lump_entities, load_lump_textures, load_lump_planes,
    load_lump_nodes, load_lump_leafs, load_lump_leaffaces, load_lump_leafbrushes,
    load_lump_models, load_lump_brushes, load_lump_brushsides, load_lump_vertexes,
    load_lump_meshverts, load_lump_effects, load_lump_faces, load_lump_lightmaps,
    load_lump_lightvols, load_lump_visdata, LUMP_LENGTH, and_self]

/-- The bytes one loop iteration asks for, against the `SIZEOF_*` constant of the lump: they
agree for thirteen lumps and differ for nodes (36 against 32) and models (40 against 80). -/
theorem bytes_per_record_against_sizeof :
    (bytes_per_record texture_layout : ℤ) = SIZEOF_TEXTURE ∧
    (bytes_per_record plane_layout : ℤ) = SIZEOF_PLANE ∧
    (bytes_per_record node_layout : ℤ) = SIZEOF_NODE + 4 ∧
    (bytes_per_record leaf_layout : ℤ) = SIZEOF_LEAF ∧
    (bytes_per_record leafface_layout : ℤ) = SIZEOF_LEAFFACE ∧
    (bytes_per_record leafbrush_layout : ℤ) = SIZEOF_LEAFBRUSH ∧
    (bytes_per_record model_layout : ℤ) + 40 = SIZEOF_MODEL ∧
    (bytes_per_record brush_layout : ℤ) = SIZEOF_BRUSH ∧
    (bytes_per_record brushside_layout : ℤ) = SIZEOF_BRUSHSIDE ∧
    (bytes_per_record vertex_layout : ℤ) = SIZEOF_VERTEX ∧
    (bytes_per_record meshvert_layout : ℤ) = SIZEOF_MESHVERT ∧
    (bytes_per_record effect_layout : ℤ) = SIZEOF_EFFECT ∧
    (bytes_per_record face_layout : ℤ) = SIZEOF_FACE ∧
    (bytes_per_record lightmap_layout : ℤ) = SIZEOF_LIGHTMAP ∧
    (bytes_per_record lightvol_layout : ℤ) = SIZEOF_LIGHTVOL := by
  decide

/-- C8 (the code at the failing input): loading the file `file_two_leaffaces`, whose leaf-faces
lump is 8 bytes long (2 elements of `SIZEOF_LEAFFACE = 4` bytes) and whose leafs lump is 96
bytes long, succeeds and stores `num_leaffaces = 24 = 96 / 4`. -/
theorem load_lumps_counts_leaffaces_from_leafs_lump :
    (load (some ⟨file_two_leaffaces, 0⟩) id map_before_load).1 = 1 ∧
    LUMP_LENGTH (load (some ⟨file_two_leaffaces, 0⟩) id map_before_load).2.1 LUMP_LEAFFACES = 8 ∧
    LUMP_LENGTH (load (some ⟨file_two_leaffaces, 0⟩) id map_before_load).2.1 LUMP_LEAFS = 96 ∧
    SIZEOF_LEAFFACE = 4 ∧
    (load (some ⟨file_two_leaffaces, 0⟩) id map_before_load).2.1.num_leaffaces = 24 := by
  decide!

/-- C9 (the code at the failing input): one iteration of the nodes loop consumes 36 bytes while
`SIZEOF_NODE` is 32, and one iteration of the models loop consumes 40 bytes while `SIZEOF_MODEL`
is 80. Loading `file_two_nodes`, whose nodes lump holds the 64 bytes 0..63, gives
`num_nodes = 2`; reading the two nodes consumes 72 bytes of the 64-byte lump: the second node is
read from byte 36 of the lump on, and its last member takes 8 bytes from behind the lump. -/
theorem node_and_model_reads_differ_from_sizeof :
    (∀ fptr : FILE, fptr.pos + 36 ≤ fptr.data.length →
      (read_record node_layout fptr).2.pos = fptr.pos + 36) ∧
    SIZEOF_NODE = 32 ∧
    (∀ fptr : FILE, fptr.pos + 40 ≤ fptr.data.length →
      (read_record model_layout fptr).2.pos = fptr.pos + 40) ∧
    SIZEOF_MODEL = 80 ∧
    (load (some ⟨file_two_nodes, 0⟩) id map_before_load).2.1.num_nodes = 2 ∧
    (read_records node_layout 2 ⟨file_two_nodes, 144⟩).2.pos = 144 + 72 ∧
    (load (some ⟨file_two_nodes, 0⟩) id map_before_load).2.1.nodes =
      [[[0, 1, 2, 3], [4, 5, 6, 7, 8, 9, 10, 11],
        [12, 13, 14, 15, 20, 21, 22, 23, 16, 17, 18, 19],
        [24, 25, 26, 27, 32, 33, 34, 35, 28, 29, 30, 31]],
       [[36, 37, 38, 39], [40, 41, 42, 43, 44, 45, 46, 47],
        [48, 49, 50, 51, 56, 57, 58, 59, 52, 53, 54, 55],
        [60, 61, 62, 63, 201, 0, 0, 0, 200, 0, 0, 0]]] := by
  refine ⟨fun fptr h => read_record_pos node_layout fptr h, rfl,
    fun fptr h => read_record_pos model_layout fptr h, rfl, ?_, ?_, ?_⟩
  · decide!
  · decide!
  · decide!

/-- C10: on a file that starts with the four bytes `b0 b1 b2 b3`, `load_header` returns 1
exactly when they are `'I' 'B' 'S' 'P'` (the little-endian integer 0x50534249); for every other
prefix `load_header` returns 0 and `load` returns 0 with the map unchanged apart from
`header.magic` and with only those four bytes consumed: `load_lumps` is not run. -/
theorem load_header_accepts_exactly_ibsp (m : EQ3Map) (after_lumps : EQ3Map → EQ3Map)
    (b0 b1 b2 b3 : byte) (rest : List byte) :
    int_of_bytes [73, 66, 83, 80] = 0x50534249 ∧
    ((load_header m ⟨b0 :: b1 :: b2 :: b3 :: rest, 0⟩).1 = 1 ↔
      (b0, b1, b2, b3) = (73, 66, 83, 80)) ∧
    ((b0, b1, b2, b3) ≠ (73, 66, 83, 80) →
      (load_header m ⟨b0 :: b1 :: b2 :: b3 :: rest, 0⟩).1 = 0 ∧
      load (some ⟨b0 :: b1 :: b2 :: b3 :: rest, 0⟩) after_lumps m =
        (0, { m with header := { m.header with magic := int_of_bytes [b0, b1, b2, b3] } },
          some ⟨b0 :: b1 :: b2 :: b3 :: rest, 4⟩)) := by
  have hmagic := int_of_bytes_eq_magic b0 b1 b2 b3 []
  have hread : fread ⟨b0 :: b1 :: b2 :: b3 :: rest, 0⟩ 4 1 =
      ([b0, b1, b2, b3], ⟨b0 :: b1 :: b2 :: b3 :: rest, 4⟩) := by
    simp [fread]
  have hstore : store_int m.header.magic [b0, b1, b2, b3] = int_of_bytes [b0, b1, b2, b3] := by
    simp [store_int, bytes_of_int]
  refine ⟨by decide, ?_, ?_⟩
  · unfold load_header
    simp only [hread, hstore]
    by_cases h : int_of_bytes [b0, b1, b2, b3] = 0x50534249
    · simp [h, hmagic.mp h]
    · have h' : ¬ (b0, b1, b2, b3) = (73, 66, 83, 80) := fun e => h (hmagic.mpr e)
      simp [h, h']
  · intro hne
    have h : ¬ int_of_bytes [b0, b1, b2, b3] = 0x50534249 := fun e => hne (hmagic.mp e)
    have hh : load_header m ⟨b0 :: b1 :: b2 :: b3 :: rest, 0⟩ =
        (0, { m with header := { m.header with magic := int_of_bytes [b0, b1, b2, b3] } },
          ⟨b0 :: b1 :: b2 :: b3 :: rest, 4⟩) := by
      unfold load_header
      simp only [hread, hstore]
      rw [if_pos h]
    refine ⟨by rw [hh], ?_⟩
    simp only [load, hh, if_true]

/-- Witness for C10: a file starting with the bytes `'R' 'I' 'F' 'F'` is rejected. -/
theorem load_header_accepts_exactly_ibsp_witness :
    ((82, 73, 70, 70) : byte × byte × byte × byte) ≠ (73, 66, 83, 80) ∧
    (load_header map_before_load ⟨[82, 73, 70, 70, 0, 0], 0⟩).1 = 0 ∧
    load (some ⟨[82, 73, 70, 70, 0, 0], 0⟩) id map_before_load =
      (0, { map_before_load with
              header := { map_before_load.header with
                magic := int_of_bytes [82, 73, 70, 70] } },
        some ⟨[82, 73, 70, 70, 0, 0], 4⟩) :=
  ⟨by decide,
    (load_header_accepts_exactly_ibsp map_before_load id 82 73 70 70 [0, 0]).2.2 (by decide)⟩

/-! ## Properties of the axis swap -/

/-- C20: one application of `swizzle_coords_f` (and of `swizzle_coords_i`) turns `(x, y, z)`
into `(x, z, y)`, leaving `x` unchanged, and a second application gives `(x, y, z)` again. -/
theorem swizzle_coords_involution :
    (∀ x y z : ℚ, swizzle_coords_f x y z = (x, z, y) ∧
      swizzle_coords_f (swizzle_coords_f x y z).1 (swizzle_coords_f x y z).2.1
        (swizzle_coords_f x y z).2.2 = (x, y, z)) ∧
    (∀ x y z : ℤ, swizzle_coords_i x y z = (x, z, y) ∧
      swizzle_coords_i (swizzle_coords_i x y z).1 (swizzle_coords_i x y z).2.1
        (swizzle_coords_i x y z).2.2 = (x, y, z)) :=
  ⟨fun _ _ _ => ⟨rfl, rfl⟩, fun _ _ _ => ⟨rfl, rfl⟩⟩

/-- The value-level swap used by the loader on 4-byte elements is the same operation. -/
theorem swizzle_coords_eq (x y z : ℚ) (a b c : ℤ) :
    swizzle_coords x y z = swizzle_coords_f x y z ∧
    swizzle_coords a b c = swizzle_coords_i a b c :=
  ⟨rfl, rfl⟩

/-! ## Properties of `get_spawn_point` -/

/-- C14 (the code at the failing input): on a freshly constructed map (`num_spawn_points = 0`)
`get_spawn_point(0, ...)` returns 1 and overwrites the outputs with the cleared slot 0; on a
map with all fifty spawn points stored, `get_spawn_point(50, ...)` reads `spawn_points[50]`,
outside the array. Indices below `num_spawn_points` are served and larger ones rejected. -/
theorem get_spawn_point_accepts_index_num :
    get_spawn_point constructed_spawn_members 0 7 ⟨1, 2, 3⟩ = Outcome.value (1, 0, ⟨0, 0, 0⟩) ∧
    get_spawn_point full_spawn_members 50 7 ⟨1, 2, 3⟩ = Outcome.out_of_bounds ∧
    get_spawn_point full_spawn_members 49 7 ⟨1, 2, 3⟩ = Outcome.value (1, 49, ⟨49, 0, 0⟩) ∧
    get_spawn_point full_spawn_members 51 7 ⟨1, 2, 3⟩ = Outcome.value (0, 7, ⟨1, 2, 3⟩) := by
  decide!

/-! ## `is_cluster_visable` on test clusters outside the table -/

theorem ldiff_seven (n : ℕ) : Nat.ldiff 7 n = 7 - n % 8 := by
  have hlt : n % 8 < 2 ^ 3 := Nat.mod_lt n (by decide)
  have e : 7 - n % 8 = 2 ^ 3 - (n % 8 + 1) := by omega
  rw [e]
  apply Nat.eq_of_testBit_eq
  intro k
  have h7 : Nat.testBit 7 k = decide (k < 3) := Nat.testBit_two_pow_sub_one 3 k
  have hm : Nat.testBit (n % 8) k = (decide (k < 3) && Nat.testBit n k) :=
    Nat.testBit_mod_two_pow n 3 k
  rw [Nat.testBit_ldiff, Nat.testBit_two_pow_sub_succ hlt, h7, hm]
  cases decide (k < 3) <;> simp

theorem land_seven (test : ℤ) : (Int.land test 7).toNat = (test % 8).toNat := by
  cases test with
  | ofNat n => exact land_seven_of_nonneg (Int.ofNat n) (Int.ofNat_nonneg n)
  | negSucc n =>
    have h1 : Int.land (Int.negSucc n) 7 = ((Nat.ldiff 7 n : ℕ) : ℤ) := rfl
    rw [h1, ldiff_seven, Int.negSucc_emod n (by decide)]
    omega

/-- C16 (counterexample): with the one-cluster table (`vecs = [1]`) and current cluster 0, the
test cluster `-1` is reported not visible (bit 7 of the byte is clear), and the test cluster 8
makes the function read `vecs[1]`, outside the table. -/
theorem is_cluster_visable_out_of_range_fails :
    (0 : ℤ) ≤ 0 ∧ (-1 : ℤ) < 0 ∧ visdata_one_cluster.num_vecs ≤ 8 ∧
    is_cluster_visable visdata_one_cluster 0 (-1) = some 0 ∧
    is_cluster_visable visdata_one_cluster 0 8 = none ∧
    table_get visdata_one_cluster.vecs (0 * visdata_one_cluster.sz_vecs + Int.tdiv 8 8) = none := by
  have h7 : (Int.land (-1) 7).toNat = 7 := by
    rw [land_seven]
    decide
  refine ⟨by decide, by decide, by decide, ?_, by decide!, by decide⟩
  unfold is_cluster_visable
  rw [if_neg (by decide), h7]
  decide

/-- C16 (amended): for a current cluster `≥ 0` and a test cluster outside `[0, num_vecs)`,
`is_cluster_visable` validates nothing: it reads the byte
`vecs[current * sz_vecs + test / 8]` (`/` rounding towards zero) and reports visible exactly
when that byte lies in the table and its bit `test mod 8` is set; the read is outside the table
exactly when that index is. -/
theorem is_cluster_visable_unvalidated (visdata : q3bsp_visdata_t) (current test : ℤ)
    (hc : 0 ≤ current) (_ht : test < 0 ∨ visdata.num_vecs ≤ test) :
    ((∃ r, is_cluster_visable visdata current test = some r ∧ r ≠ 0) ↔
      ∃ vec, table_get visdata.vecs (current * visdata.sz_vecs + Int.tdiv test 8) = some vec ∧
        vec.val.testBit (test % 8).toNat = true) ∧
    (is_cluster_visable visdata current test = none ↔
      table_get visdata.vecs (current * visdata.sz_vecs + Int.tdiv test 8) = none) := by
  have hn : ¬ current < 0 := by omega
  unfold is_cluster_visable
  rw [if_neg hn, land_seven test]
  cases hg : table_get visdata.vecs (current * visdata.sz_vecs + Int.tdiv test 8) with
  | none => simp
  | some vec =>
    simp only [Option.some.injEq, exists_eq_left', reduceCtorEq, iff_false, not_false_eq_true,
      and_true]
    exact byte_and_bit_ne_zero vec.val (test % 8).toNat

/-- Witness for the amended C16: current cluster 1 and test cluster `-9` in the two-cluster
table; the byte read is `vecs[0]`, in the row of cluster 0. -/
theorem is_cluster_visable_unvalidated_witness :
    ((0 : ℤ) ≤ 1 ∧ ((-9 : ℤ) < 0 ∨ visdata_two_clusters.num_vecs ≤ -9)) ∧
    ((∃ r, is_cluster_visable visdata_two_clusters 1 (-9) = some r ∧ r ≠ 0) ↔
      ∃ vec, table_get visdata_two_clusters.vecs
          (1 * visdata_two_clusters.sz_vecs + Int.tdiv (-9) 8) = some vec ∧
        vec.val.testBit ((-9 : ℤ) % 8).toNat = true) ∧
    (is_cluster_visable visdata_two_clusters 1 (-9) = none ↔
      table_get visdata_two_clusters.vecs
        (1 * visdata_two_clusters.sz_vecs + Int.tdiv (-9) 8) = none) :=
  ⟨⟨by decide, Or.inl (by decide)⟩,
    is_cluster_visable_unvalidated visdata_two_clusters 1 (-9) (by decide) (Or.inl (by decide))⟩

/-! ## Termination of `find_leaf` -/

theorem spec_descent_of_find_leaf_loop (nodes : List q3bsp_node_t) (planes : List q3bsp_plane_t)
    (pos : vector3) (fuel : ℕ) :
    ∀ i v, find_leaf_loop nodes planes pos fuel i = Outcome.value v →
      ∃ r, spec_descent nodes planes pos i r ∧ v = ~~~r := by
  induction fuel with
  | zero =>
    intro i v hv
    by_cases hi : i ≥ 0
    · simp [find_leaf_loop, hi] at hv
    · simp only [find_leaf_loop, if_neg hi, Outcome.value.injEq] at hv
      exact ⟨i, spec_descent.leaf i (by omega), hv.symm⟩
  | succ k ih =>
    intro i v hv
    by_cases hi : i ≥ 0
    · simp only [find_leaf_loop, if_pos hi] at hv
      cases hn : table_get nodes i with
      | none => simp [hn] at hv
      | some node =>
        cases hp : table_get planes node.plane with
        | none => simp [hn, hp] at hv
        | some plane =>
          simp only [hn, hp] at hv
          by_cases hd : plane_distance plane pos ≥ 0
          · rw [if_pos hd] at hv
            obtain ⟨r, hr, hvr⟩ := ih _ v hv
            exact ⟨r, spec_descent.front i r node plane hi hn hp
              (by simpa [plane_distance, spec_dot] using hd) hr, hvr⟩
          · rw [if_neg hd] at hv
            obtain ⟨r, hr, hvr⟩ := ih _ v hv
            have hlt : plane_distance plane pos < 0 := not_le.mp hd
            exact ⟨r, spec_descent.back i r node plane hi hn hp
              (by simpa [plane_distance, spec_dot] using hlt) hr, hvr⟩
    · simp only [find_leaf_loop, if_neg hi, Outcome.value.injEq] at hv
      exact ⟨i, spec_descent.leaf i (by omega), hv.symm⟩

theorem find_leaf_loop_self_loop (pos : vector3) (fuel : ℕ) :
    find_leaf_loop self_loop_nodes [plane_x] pos fuel 0 = Outcome.out_of_fuel := by
  induction fuel with
  | zero => simp [find_leaf_loop]
  | succ k ih =>
    have hn : table_get self_loop_nodes 0 =
        some { plane := 0, children := (0, 0), mins := (-8, -8, -8), maxs := (8, 8, 8) } := rfl
    have hp : table_get [plane_x] 0 = some plane_x := rfl
    simp only [find_leaf_loop, hn, hp, ge_iff_le, le_refl, if_true]
    split_ifs <;> exact ih

/-- C17 (counterexample): on the table whose node 0 has both children 0, `find_leaf` returns
for no amount of fuel (it loops forever, reporting nothing); on the table whose node 0 has the
child index 5, `find_leaf` indexes `nodes[5]`, outside the one-node table. -/
theorem find_leaf_has_no_guard :
    (¬ ∃ fuel, find_leaf self_loop_nodes [plane_x] ⟨1, 0, 0⟩ fuel ≠ Outcome.out_of_fuel) ∧
    find_leaf dangling_child_nodes [plane_x] ⟨1, 0, 0⟩ 2 = Outcome.out_of_bounds ∧
    table_get dangling_child_nodes 5 = none := by
  refine ⟨?_, by decide!, by decide⟩
  rintro ⟨fuel, h⟩
  exact h (find_leaf_loop_self_loop ⟨1, 0, 0⟩ fuel)

/-- C17 (amended): `find_leaf` has no depth guard and no error report; it terminates, returning
the complement of the negative index reached, exactly on the node tables, plane tables and
points for which the descent from node 0 reaches a negative index through entries of the
tables. -/
theorem find_leaf_terminates_iff_descent (nodes : List q3bsp_node_t)
    (planes : List q3bsp_plane_t) (pos : vector3) (v : ℤ) :
    (∃ fuel, find_leaf nodes planes pos fuel = Outcome.value v) ↔
      ∃ r, spec_descent nodes planes pos 0 r ∧ v = ~~~r := by
  constructor
  · rintro ⟨fuel, h⟩
    exact spec_descent_of_find_leaf_loop nodes planes pos fuel 0 v h
  · rintro ⟨r, hr, rfl⟩
    obtain ⟨fuel, hf⟩ := find_leaf_loop_of_descent nodes planes pos 0 r hr
    exact ⟨fuel, hf fuel (le_refl fuel)⟩

/-! ## What `load` accepts -/

theorem load_header_of_magic_bytes (m : EQ3Map) (b0 b1 b2 b3 : byte) (rest : List byte)
    (h : int_of_bytes [b0, b1, b2, b3] = 0x50534249) :
    (load_header m ⟨b0 :: b1 :: b2 :: b3 :: rest, 0⟩).1 = 1 := by
  have hread : fread ⟨b0 :: b1 :: b2 :: b3 :: rest, 0⟩ 4 1 =
      ([b0, b1, b2, b3], ⟨b0 :: b1 :: b2 :: b3 :: rest, 4⟩) := by
    simp [fread]
  have hstore : store_int m.header.magic [b0, b1, b2, b3] = int_of_bytes [b0, b1, b2, b3] := by
    simp [store_int, bytes_of_int]
  unfold load_header
  simp only [hread, hstore]
  simp [h]

theorem load_header_of_magic (m : EQ3Map) (rest : List byte) :
    (load_header m ⟨73 :: 66 :: 83 :: 80 :: rest, 0⟩).1 = 1 :=
  load_header_of_magic_bytes m 73 66 83 80 rest (by decide)

theorem load_of_magic (m : EQ3Map) (after_lumps : EQ3Map → EQ3Map) (rest : List byte) :
    load (some ⟨73 :: 66 :: 83 :: 80 :: rest, 0⟩) after_lumps m =
      (1, after_lumps
            (load_lumps (load_header m ⟨73 :: 66 :: 83 :: 80 :: rest, 0⟩).2.1
              (load_header m ⟨73 :: 66 :: 83 :: 80 :: rest, 0⟩).2.2).2.1,
        some (load_lumps (load_header m ⟨73 :: 66 :: 83 :: 80 :: rest, 0⟩).2.1
              (load_header m ⟨73 :: 66 :: 83 :: 80 :: rest, 0⟩).2.2).2.2) := by
  have h1 := load_header_of_magic m rest
  have h2 := (load_lumps_counts (load_header m ⟨73 :: 66 :: 83 :: 80 :: rest, 0⟩).2.1
    (load_header m ⟨73 :: 66 :: 83 :: 80 :: rest, 0⟩).2.2).1
  simp only [load, h1, h2]
  simp

theorem LUMP_LENGTH_of_header (a b : EQ3Map) (l : Fin 17) (h : a.header = b.header) :
    LUMP_LENGTH a l = LUMP_LENGTH b l := by
  unfold LUMP_LENGTH
  rw [h]

theorem load_map_of_magic (m : EQ3Map) (rest : List byte) :
    (load (some ⟨73 :: 66 :: 83 :: 80 :: rest, 0⟩) id m).2.1 =
      (load_lumps (load_header m ⟨73 :: 66 :: 83 :: 80 :: rest, 0⟩).2.1
        (load_header m ⟨73 :: 66 :: 83 :: 80 :: rest, 0⟩).2.2).2.1 := by
  rw [load_of_magic]
  exact id_eq _

theorem loaded_map_def (m : EQ3Map) (data : List byte) :
    loaded_map m data = (load (some ⟨data, 0⟩) id m).2.1 := rfl

theorem loaded_map_of_magic (m : EQ3Map) (rest : List byte) :
    loaded_map m (73 :: 66 :: 83 :: 80 :: rest) =
      (load_lumps (load_header m ⟨73 :: 66 :: 83 :: 80 :: rest, 0⟩).2.1
        (load_header m ⟨73 :: 66 :: 83 :: 80 :: rest, 0⟩).2.2).2.1 :=
  (loaded_map_def m (73 :: 66 :: 83 :: 80 :: rest)).trans (load_map_of_magic m rest)

/-! ## `load` with the results of `malloc` -/

theorem use_table_cases (malloc : ℕ → Bool) (sizeof_struct num : ℤ) (s : EQ3Map × FILE) :
    use_table malloc sizeof_struct num s = none ∨
      use_table malloc sizeof_struct num s = some s := by
  unfold use_table
  split_ifs
  · exact Or.inl rfl
  · exact Or.inr rfl

theorem load_lump_entities_malloc_cases (malloc : ℕ → Bool) (m : EQ3Map) (fptr : FILE) :
    load_lump_entities_malloc malloc m fptr = none ∨
      load_lump_entities_malloc malloc m fptr = some (load_lump_entities m fptr) := by
  unfold load_lump_entities_malloc
  split_ifs
  · exact Or.inl rfl
  · exact Or.inr rfl

theorem load_lump_visdata_malloc_cases (malloc : ℕ → Bool) (m : EQ3Map) (fptr : FILE) :
    load_lump_visdata_malloc malloc m fptr = none ∨
      load_lump_visdata_malloc malloc m fptr = some (load_lump_visdata m fptr) := by
  unfold load_lump_visdata_malloc
  dsimp only
  split_ifs <;> first | exact Or.inl rfl | exact Or.inr rfl

/-- The lumps of `load_lumps` as the reads leave the map and the stream, in the order of the
source. -/
theorem load_lumps_eq_foldl (m : EQ3Map) (fptr : FILE) :
    load_lumps m fptr =
      (1, (List.foldl (fun (s : EQ3Map × FILE) (g : EQ3Map → FILE → EQ3Map × FILE) => g s.1 s.2)
        (m, fptr)
        [load_lump_entities, load_lump_textures, load_lump_planes, load_lump_nodes,
         load_lump_leafs, load_lump_leaffaces, load_lump_leafbrushes, load_lump_models,
         load_lump_brushes, load_lump_brushsides, load_lump_vertexes, load_lump_meshverts,
         load_lump_effects, load_lump_faces, load_lump_lightmaps, load_lump_lightvols,
         load_lump_visdata])) := rfl

theorem run_lump_steps_cases :
    ∀ (steps : List (EQ3Map → FILE → Option (EQ3Map × FILE)))
      (reads : List (EQ3Map → FILE → EQ3Map × FILE)),
      List.Forall₂ (fun step read => ∀ m fptr, step m fptr = none ∨
        step m fptr = some (read m fptr)) steps reads →
      ∀ s : EQ3Map × FILE, run_lump_steps steps s = none ∨
        run_lump_steps steps s =
          some (List.foldl (fun (s : EQ3Map × FILE) (g : EQ3Map → FILE → EQ3Map × FILE) =>
            g s.1 s.2) s reads) := by
  intro steps reads h
  induction h with
  | nil =>
    intro s
    exact Or.inr rfl
  | cons hstep _ ih =>
    intro s
    rcases hstep s.1 s.2 with h | h
    · left
      simp only [run_lump_steps, h]
    · simp only [run_lump_steps, h, List.foldl_cons]
      exact ih _

theorem lump_steps_cases (malloc : ℕ → Bool) :
    List.Forall₂ (fun step read => ∀ m fptr, step m fptr = none ∨
        step m fptr = some (read m fptr)) (lump_steps malloc)
      [load_lump_entities, load_lump_textures, load_lump_planes, load_lump_nodes,
       load_lump_leafs, load_lump_leaffaces, load_lump_leafbrushes, load_lump_models,
       load_lump_brushes, load_lump_brushsides, load_lump_vertexes, load_lump_meshverts,
       load_lump_effects, load_lump_faces, load_lump_lightmaps, load_lump_lightvols,
       load_lump_visdata] := by
  unfold lump_steps
  refine List.Forall₂.cons (load_lump_entities_malloc_cases malloc) ?_
  refine List.Forall₂.cons (fun m fptr => use_table_cases malloc _ _ _) ?_
  refine List.Forall₂.cons (fun m fptr => use_table_cases malloc _ _ _) ?_
  refine List.Forall₂.cons (fun m fptr => use_table_cases malloc _ _ _) ?_
  refine List.Forall₂.cons (fun m fptr => use_table_cases malloc _ _ _) ?_
  refine List.Forall₂.cons (fun m fptr => use_table_cases malloc _ _ _) ?_
  refine List.Forall₂.cons (fun m fptr => use_table_cases malloc _ _ _) ?_
  refine List.Forall₂.cons (fun m fptr => use_table_cases malloc _ _ _) ?_
  refine List.Forall₂.cons (fun m fptr => use_table_cases malloc _ _ _) ?_
  refine List.Forall₂.cons (fun m fptr => use_table_cases malloc _ _ _) ?_
  refine List.Forall₂.cons (fun m fptr => use_table_cases malloc _ _ _) ?_
  refine List.Forall₂.cons (fun m fptr => use_table_cases malloc _ _ _) ?_
  refine List.Forall₂.cons (fun m fptr => use_table_cases malloc _ _ _) ?_
  refine List.Forall₂.cons (fun m fptr => use_table_cases malloc _ _ _) ?_
  refine List.Forall₂.cons (fun m fptr => use_table_cases malloc _ _ _) ?_
  refine List.Forall₂.cons (fun m fptr => use_table_cases malloc _ _ _) ?_
  exact List.Forall₂.cons (load_lump_visdata_malloc_cases malloc) List.Forall₂.nil

theorem load_lumps_malloc_cases (malloc : ℕ → Bool) (m : EQ3Map) (fptr : FILE) :
    load_lumps_malloc malloc m fptr = none ∨
      load_lumps_malloc malloc m fptr = some (load_lumps m fptr) := by
  unfold load_lumps_malloc
  rcases run_lump_steps_cases _ _ (lump_steps_cases malloc) (m, fptr) with h | h
  · left
    rw [h]
  · right
    rw [h, load_lumps_eq_foldl]

theorem run_lump_steps_append (a b : List (EQ3Map → FILE → Option (EQ3Map × FILE))) :
    ∀ s : EQ3Map × FILE, run_lump_steps (a ++ b) s =
      match run_lump_steps a s with
      | none => none
      | some s1 => run_lump_steps b s1 := by
  induction a with
  | nil =>
    intro s
    rfl
  | cons step rest ih =>
    intro s
    cases h : step s.1 s.2 with
    | none => simp only [List.cons_append, run_lump_steps, h]
    | some s1 =>
      simp only [List.cons_append, run_lump_steps, h]
      exact ih s1

theorem run_lump_steps_of_some :
    ∀ (steps : List (EQ3Map → FILE → Option (EQ3Map × FILE)))
      (reads : List (EQ3Map → FILE → EQ3Map × FILE)),
      List.Forall₂ (fun step read => ∀ m fptr, step m fptr = some (read m fptr)) steps reads →
      ∀ s : EQ3Map × FILE, run_lump_steps steps s =
        some (List.foldl (fun (s : EQ3Map × FILE) (g : EQ3Map → FILE → EQ3Map × FILE) =>
          g s.1 s.2) s reads) := by
  intro steps reads h
  induction h with
  | nil =>
    intro s
    rfl
  | cons hstep _ ih =>
    intro s
    simp only [run_lump_steps, hstep s.1 s.2, List.foldl_cons]
    exact ih _

theorem use_table_of_malloc (malloc : ℕ → Bool) (hmalloc : ∀ n, malloc n = true)
    (sizeof_struct num : ℤ) (s : EQ3Map × FILE) :
    use_table malloc sizeof_struct num s = some s := by
  unfold use_table
  rw [if_neg]
  rw [hmalloc]
  simp

theorem load_lump_entities_malloc_of_malloc (malloc : ℕ → Bool) (hmalloc : ∀ n, malloc n = true)
    (m : EQ3Map) (fptr : FILE) :
    load_lump_entities_malloc malloc m fptr = some (load_lump_entities m fptr) := by
  unfold load_lump_entities_malloc
  rw [if_neg]
  rw [hmalloc]
  simp

theorem load_lump_visdata_malloc_of_malloc (malloc : ℕ → Bool) (hmalloc : ∀ n, malloc n = true)
    (m : EQ3Map) (fptr : FILE)
    (hfits : fits_int ((load_lump_visdata m fptr).1.visdata.num_vecs *
      (load_lump_visdata m fptr).1.visdata.sz_vecs)) :
    load_lump_visdata_malloc malloc m fptr = some (load_lump_visdata m fptr) := by
  unfold load_lump_visdata_malloc
  dsimp only
  rw [if_neg (not_not.mpr hfits), if_neg]
  rw [hmalloc]
  simp

/-- The state of `load_lumps` before lump 16, as the reads leave the map and the stream. -/
theorem load_lumps_eq_visdata (m : EQ3Map) (fptr : FILE) :
    load_lumps m fptr =
      (1, load_lump_visdata
        (List.foldl (fun (s : EQ3Map × FILE) (g : EQ3Map → FILE → EQ3Map × FILE) => g s.1 s.2)
          (m, fptr)
          [load_lump_entities, load_lump_textures, load_lump_planes, load_lump_nodes,
           load_lump_leafs, load_lump_leaffaces, load_lump_leafbrushes, load_lump_models,
           load_lump_brushes, load_lump_brushsides, load_lump_vertexes, load_lump_meshverts,
           load_lump_effects, load_lump_faces, load_lump_lightmaps, load_lump_lightvols]).1
        (List.foldl (fun (s : EQ3Map × FILE) (g : EQ3Map → FILE → EQ3Map × FILE) => g s.1 s.2)
          (m, fptr)
          [load_lump_entities, load_lump_textures, load_lump_planes, load_lump_nodes,
           load_lump_leafs, load_lump_leaffaces, load_lump_leafbrushes, load_lump_models,
           load_lump_brushes, load_lump_brushsides, load_lump_vertexes, load_lump_meshverts,
           load_lump_effects, load_lump_faces, load_lump_lightmaps, load_lump_lightvols]).2) :=
  rfl

theorem load_lumps_malloc_of_malloc (malloc : ℕ → Bool) (hmalloc : ∀ n, malloc n = true)
    (m : EQ3Map) (fptr : FILE)
    (hfits : fits_int ((load_lumps m fptr).2.1.visdata.num_vecs *
      (load_lumps m fptr).2.1.visdata.sz_vecs)) :
    load_lumps_malloc malloc m fptr = some (load_lumps m fptr) := by
  have hsplit : lump_steps malloc =
      [load_lump_entities_malloc malloc, load_lump_textures_malloc malloc,
       load_lump_planes_malloc malloc, load_lump_nodes_malloc malloc,
       load_lump_leafs_malloc malloc, load_lump_leaffaces_malloc malloc,
       load_lump_leafbrushes_malloc malloc, load_lump_models_malloc malloc,
       load_lump_brushes_malloc malloc, load_lump_brushsides_malloc malloc,
       load_lump_vertexes_malloc malloc, load_lump_meshverts_malloc malloc,
       load_lump_effects_malloc malloc, load_lump_faces_malloc malloc,
       load_lump_lightmaps_malloc malloc, load_lump_lightvols_malloc malloc] ++
      [load_lump_visdata_malloc malloc] := rfl
  have hfirst : List.Forall₂
      (fun step read => ∀ m fptr, step m fptr = some (read m fptr))
      [load_lump_entities_malloc malloc, load_lump_textures_malloc malloc,
       load_lump_planes_malloc malloc, load_lump_nodes_malloc malloc,
       load_lump_leafs_malloc malloc, load_lump_leaffaces_malloc malloc,
       load_lump_leafbrushes_malloc malloc, load_lump_models_malloc malloc,
       load_lump_brushes_malloc malloc, load_lump_brushsides_malloc malloc,
       load_lump_vertexes_malloc malloc, load_lump_meshverts_malloc malloc,
       load_lump_effects_malloc malloc, load_lump_faces_malloc malloc,
       load_lump_lightmaps_malloc malloc, load_lump_lightvols_malloc malloc]
      [load_lump_entities, load_lump_textures, load_lump_planes, load_lump_nodes,
       load_lump_leafs, load_lump_leaffaces, load_lump_leafbrushes, load_lump_models,
       load_lump_brushes, load_lump_brushsides, load_lump_vertexes, load_lump_meshverts,
       load_lump_effects, load_lump_faces, load_lump_lightmaps, load_lump_lightvols] := by
    refine List.Forall₂.cons (load_lump_entities_malloc_of_malloc malloc hmalloc) ?_
    refine List.Forall₂.cons (fun m fptr => use_table_of_malloc malloc hmalloc _ _ _) ?_
    refine List.Forall₂.cons (fun m fptr => use_table_of_malloc malloc hmalloc _ _ _) ?_
    refine List.Forall₂.cons (fun m fptr => use_table_of_malloc malloc hmalloc _ _ _) ?_
    refine List.Forall₂.cons (fun m fptr => use_table_of_malloc malloc hmalloc _ _ _) ?_
    refine List.Forall₂.cons (fun m fptr => use_table_of_malloc malloc hmalloc _ _ _) ?_
    refine List.Forall₂.cons (fun m fptr => use_table_of_malloc malloc hmalloc _ _ _) ?_
    refine List.Forall₂.cons (fun m fptr => use_table_of_malloc malloc hmalloc _ _ _) ?_
    refine List.Forall₂.cons (fun m fptr => use_table_of_malloc malloc hmalloc _ _ _) ?_
    refine List.Forall₂.cons (fun m fptr => use_table_of_malloc malloc hmalloc _ _ _) ?_
    refine List.Forall₂.cons (fun m fptr => use_table_of_malloc malloc hmalloc _ _ _) ?_
    refine List.Forall₂.cons (fun m fptr => use_table_of_malloc malloc hmalloc _ _ _) ?_
    refine List.Forall₂.cons (fun m fptr => use_table_of_malloc malloc hmalloc _ _ _) ?_
    refine List.Forall₂.cons (fun m fptr => use_table_of_malloc malloc hmalloc _ _ _) ?_
    refine List.Forall₂.cons (fun m fptr => use_table_of_malloc malloc hmalloc _ _ _) ?_
    exact List.Forall₂.cons (fun m fptr => use_table_of_malloc malloc hmalloc _ _ _)
      List.Forall₂.nil
  rw [load_lumps_eq_visdata] at hfits
  unfold load_lumps_malloc
  rw [hsplit, run_lump_steps_append, run_lump_steps_of_some _ _ hfirst]
  simp only [run_lump_steps]
  rw [load_lump_visdata_malloc_of_malloc malloc hmalloc _ _ hfits, load_lumps_eq_visdata]

theorem load_lumps_malloc_null_entities (malloc : ℕ → Bool) (m : EQ3Map) (fptr : FILE)
    (hnull : malloc (to_size_t (1 * LUMP_LENGTH m LUMP_ENTITIES)) = false)
    (hsize : 0 < to_size_t (LUMP_LENGTH m LUMP_ENTITIES)) :
    load_lumps_malloc malloc m fptr = none := by
  have h : load_lump_entities_malloc malloc m fptr = none := by
    unfold load_lump_entities_malloc
    rw [if_pos ⟨hnull, hsize⟩]
  simp only [load_lumps_malloc, lump_steps, run_lump_steps, h]

theorem load_malloc_cases (malloc : ℕ → Bool) (m : EQ3Map) (after_lumps : EQ3Map → EQ3Map)
    (fptr : FILE) (hh : (load_header m fptr).1 = 1) :
    load_malloc malloc (some fptr) after_lumps m = none ∨
      load_malloc malloc (some fptr) after_lumps m =
        some (1, after_lumps (load_lumps (load_header m fptr).2.1 (load_header m fptr).2.2).2.1,
          some (load_lumps (load_header m fptr).2.1 (load_header m fptr).2.2).2.2) := by
  have h1 : ¬ (1 : ℤ) = 0 := by decide
  have h2 := (load_lumps_counts (load_header m fptr).2.1 (load_header m fptr).2.2).1
  unfold load_malloc
  simp only [hh, if_neg h1]
  rcases load_lumps_malloc_cases malloc (load_header m fptr).2.1 (load_header m fptr).2.2 with
    h | h
  · left
    rw [h]
  · right
    rw [h]
    simp only [h2, if_neg h1]

theorem load_malloc_of_malloc (malloc : ℕ → Bool) (hmalloc : ∀ n, malloc n = true)
    (m : EQ3Map) (after_lumps : EQ3Map → EQ3Map) (fptr : FILE)
    (hh : (load_header m fptr).1 = 1)
    (hfits : fits_int
      ((load_lumps (load_header m fptr).2.1 (load_header m fptr).2.2).2.1.visdata.num_vecs *
        (load_lumps (load_header m fptr).2.1 (load_header m fptr).2.2).2.1.visdata.sz_vecs)) :
    load_malloc malloc (some fptr) after_lumps m =
      some (1, after_lumps (load_lumps (load_header m fptr).2.1 (load_header m fptr).2.2).2.1,
        some (load_lumps (load_header m fptr).2.1 (load_header m fptr).2.2).2.2) := by
  have h1 : ¬ (1 : ℤ) = 0 := by decide
  have h2 := (load_lumps_counts (load_header m fptr).2.1 (load_header m fptr).2.2).1
  unfold load_malloc
  simp only [hh, if_neg h1]
  rw [load_lumps_malloc_of_malloc malloc hmalloc _ _ hfits]
  simp only [h2, if_neg h1]

theorem load_malloc_null_entities (malloc : ℕ → Bool) (m : EQ3Map)
    (after_lumps : EQ3Map → EQ3Map) (fptr : FILE) (hh : (load_header m fptr).1 = 1)
    (hnull : malloc (to_size_t (1 * LUMP_LENGTH (load_header m fptr).2.1 LUMP_ENTITIES)) = false)
    (hsize : 0 < to_size_t (LUMP_LENGTH (load_header m fptr).2.1 LUMP_ENTITIES)) :
    load_malloc malloc (some fptr) after_lumps m = none := by
  have h1 : ¬ (1 : ℤ) = 0 := by decide
  unfold load_malloc
  simp only [hh, if_neg h1]
  rw [load_lumps_malloc_null_entities malloc _ _ hnull hsize]

theorem LUMP_LENGTH_loaded_map (m : EQ3Map) (rest : List byte) (l : Fin 17) :
    LUMP_LENGTH (loaded_map m (73 :: 66 :: 83 :: 80 :: rest)) l =
      LUMP_LENGTH (load_header m ⟨73 :: 66 :: 83 :: 80 :: rest, 0⟩).2.1 l := by
  rw [loaded_map_of_magic]
  generalize (load_header m ⟨73 :: 66 :: 83 :: 80 :: rest, 0⟩).2.1 = m1
  generalize (load_header m ⟨73 :: 66 :: 83 :: 80 :: rest, 0⟩).2.2 = f1
  exact LUMP_LENGTH_of_header _ _ l (load_lumps_counts m1 f1).2.2.2.2.2.2.2.2.2.2.2.2.2.2.2.2

theorem fread_data (fptr : FILE) (size count : ℕ) :
    (fread fptr size count).2.data = fptr.data := rfl

theorem fseek_data (fptr : FILE) (offset : ℤ) : (fseek fptr offset).data = fptr.data := by
  unfold fseek
  split_ifs <;> rfl

theorem fseek_of_nonneg (fptr : FILE) (offset : ℤ) (h : 0 ≤ offset) :
    fseek fptr offset = ⟨fptr.data, offset.toNat⟩ := by
  unfold fseek
  rw [if_neg (by omega)]

theorem read_members_data (freads : List (ℕ × ℕ)) (fptr : FILE) :
    (read_members fptr freads).2.data = fptr.data := by
  induction freads generalizing fptr with
  | nil => rfl
  | cons sc rest ih =>
    obtain ⟨size, count⟩ := sc
    simp only [read_members]
    rw [ih, fread_data]

theorem read_records_data (layout : lump_layout) (n : ℕ) (fptr : FILE) :
    (read_records layout n fptr).2.data = fptr.data := by
  induction n generalizing fptr with
  | zero => rfl
  | succ k ih =>
    simp only [read_records]
    rw [ih]
    exact read_members_data layout.freads fptr

theorem file_bytes_length (data : List byte) (off n : ℕ) (h : off + n ≤ data.length) :
    (file_bytes data off n).length = n := by
  simp only [file_bytes, List.length_take, List.length_drop]
  omega

theorem swizzle_member_file_bytes (data : List byte) (off : ℕ)
    (h : off + 12 ≤ data.length) :
    swizzle_member (file_bytes data off 12) = swapped_triple data off := by
  have hl := file_bytes_length data off 12 h
  unfold swizzle_member
  rw [if_pos hl]
  simp only [swizzle_coords, swapped_triple, file_bytes, List.take_take, List.drop_take,
    List.drop_drop]
  have e1 : min 4 12 = 4 := rfl
  have e2 : 12 - 4 = 8 := rfl
  have e3 : min 4 8 = 4 := rfl
  have e4 : 12 - 8 = 4 := rfl
  simp only [e1, e2, e3, e4, List.take_take]

theorem swizzle_read_members (data : List byte) (swizzled : List ℕ) (freads : List (ℕ × ℕ)) :
    ∀ off k, off + (freads.map fun sc => sc.1 * sc.2).sum ≤ data.length →
      swizzled_are_triples swizzled k freads = true →
      swizzle_members swizzled k (read_members ⟨data, off⟩ freads).1 =
        expected_members data swizzled off k freads := by
  induction freads with
  | nil => intro off k _ _; rfl
  | cons sc rest ih =>
    obtain ⟨size, count⟩ := sc
    intro off k hfit htri
    simp only [List.map_cons, List.sum_cons] at hfit
    simp only [swizzled_are_triples, Bool.and_eq_true, Bool.or_eq_true, decide_eq_true_eq]
      at htri
    have hnext : (fread ⟨data, off⟩ size count).2 = ⟨data, off + size * count⟩ := by
      have hp := fread_pos ⟨data, off⟩ size count (by simpa using by omega)
      cases hf : (fread ⟨data, off⟩ size count).2 with
      | mk d p =>
        rw [hf] at hp
        simp only at hp
        rw [hp.1, hp.2]
    have hfirst : (fread ⟨data, off⟩ size count).1 = file_bytes data off (size * count) := rfl
    simp only [read_members, swizzle_members, expected_members, hnext, hfirst]
    rw [ih (off + size * count) (k + 1) (by omega) htri.2]
    by_cases hk : k ∈ swizzled
    · have h12 : size * count = 12 := by
        rcases htri.1 with h | h
        · exact absurd hk h
        · exact h
      rw [if_pos hk, if_pos hk, h12, swizzle_member_file_bytes data off (by omega)]
    · rw [if_neg hk, if_neg hk]

theorem read_record_expected (layout : lump_layout) (data : List byte) (off : ℕ)
    (hfit : off + bytes_per_record layout ≤ data.length)
    (htri : swizzled_are_triples layout.swizzled 0 layout.freads = true) :
    (read_record layout ⟨data, off⟩).1 =
      expected_members data layout.swizzled off 0 layout.freads :=
  swizzle_read_members data layout.swizzled layout.freads off 0 hfit htri

theorem read_records_get (layout : lump_layout) (data : List byte) (n : ℕ) :
    ∀ off i, i < n → off + (i + 1) * bytes_per_record layout ≤ data.length →
      (read_records layout n ⟨data, off⟩).1[i]? =
        some (read_record layout ⟨data, off + i * bytes_per_record layout⟩).1 := by
  induction n with
  | zero => intro off i hi; omega
  | succ k ih =>
    intro off i hi hfit
    cases i with
    | zero => simp [read_records]
    | succ j =>
      have hb : off + bytes_per_record layout ≤ data.length := by
        have : (j + 1 + 1) * bytes_per_record layout =
            (j + 1) * bytes_per_record layout + bytes_per_record layout := by ring
        omega
      have hnext : (read_record layout ⟨data, off⟩).2 =
          ⟨data, off + bytes_per_record layout⟩ := by
        have hp := read_record_pos layout ⟨data, off⟩ hb
        have hd : (read_record layout ⟨data, off⟩).2.data = data :=
          read_members_data layout.freads ⟨data, off⟩
        cases hf : (read_record layout ⟨data, off⟩).2 with
        | mk d p =>
          rw [hf] at hp hd
          simp only at hp hd
          rw [hp, hd]
      simp only [read_records, List.getElem?_cons_succ, hnext]
      rw [ih (off + bytes_per_record layout) j (by omega) (by
        have : (j + 1 + 1) * bytes_per_record layout =
            (j + 1) * bytes_per_record layout + bytes_per_record layout := by ring
        omega)]
      have : off + bytes_per_record layout + j * bytes_per_record layout =
          off + (j + 1) * bytes_per_record layout := by ring
      rw [this]

theorem stored_record (layout : lump_layout) (data : List byte) (n off i : ℕ) (hi : i < n)
    (hfit : off + (i + 1) * bytes_per_record layout ≤ data.length)
    (htri : swizzled_are_triples layout.swizzled 0 layout.freads = true) :
    (read_records layout n ⟨data, off⟩).1[i]? =
      some (expected_members data layout.swizzled (off + i * bytes_per_record layout) 0
        layout.freads) := by
  rw [read_records_get layout data n off i hi hfit,
    read_record_expected layout data (off + i * bytes_per_record layout) (by
      have : (i + 1) * bytes_per_record layout =
          i * bytes_per_record layout + bytes_per_record layout := by ring
      omega) htri]

theorem load_lumps_planes_table (m : EQ3Map) (fptr : FILE)
    (h : 0 ≤ (m.header.direntry LUMP_PLANES).offset) :
    (load_lumps m fptr).2.1.planes =
      (read_records plane_layout (load_lumps m fptr).2.1.num_planes.toNat
        ⟨fptr.data, (m.header.direntry LUMP_PLANES).offset.toNat⟩).1 := by
  simp only [load_lumps, load_lump_entities, load_lump_textures, load_lump_planes,
    load_lump_nodes, load_lump_leafs, load_lump_leaffaces, load_lump_leafbrushes,
    load_lump_models, load_lump_brushes, load_lump_brushsides, load_lump_vertexes,
    load_lump_meshverts, load_lump_effects, load_lump_faces, load_lump_lightmaps,
    load_lump_lightvols, load_lump_visdata, SEEK_LUMP, LUMP_LENGTH]
  rw [fseek_of_nonneg _ _ h]
  simp only [read_records_data, fseek_data, fread_data]

theorem load_lumps_nodes_table (m : EQ3Map) (fptr : FILE)
    (h : 0 ≤ (m.header.direntry LUMP_NODES).offset) :
    (load_lumps m fptr).2.1.nodes =
      (read_records node_layout (load_lumps m fptr).2.1.num_nodes.toNat
        ⟨fptr.data, (m.header.direntry LUMP_NODES).offset.toNat⟩).1 := by
  simp only [load_lumps, load_lump_entities, load_lump_textures, load_lump_planes,
    load_lump_nodes, load_lump_leafs, load_lump_leaffaces, load_lump_leafbrushes,
    load_lump_models, load_lump_brushes, load_lump_brushsides, load_lump_vertexes,
    load_lump_meshverts, load_lump_effects, load_lump_faces, load_lump_lightmaps,
    load_lump_lightvols, load_lump_visdata, SEEK_LUMP, LUMP_LENGTH]
  rw [fseek_of_nonneg _ _ h]
  simp only [read_records_data, fseek_data, fread_data]

theorem load_lumps_leafs_table (m : EQ3Map) (fptr : FILE)
    (h : 0 ≤ (m.header.direntry LUMP_LEAFS).offset) :
    (load_lumps m fptr).2.1.leafs =
      (read_records leaf_layout (load_lumps m fptr).2.1.num_leafs.toNat
        ⟨fptr.data, (m.header.direntry LUMP_LEAFS).offset.toNat⟩).1 := by
  simp only [load_lumps, load_lump_entities, load_lump_textures, load_lump_planes,
    load_lump_nodes, load_lump_leafs, load_lump_leaffaces, load_lump_leafbrushes,
    load_lump_models, load_lump_brushes, load_lump_brushsides, load_lump_vertexes,
    load_lump_meshverts, load_lump_effects, load_lump_faces, load_lump_lightmaps,
    load_lump_lightvols, load_lump_visdata, SEEK_LUMP, LUMP_LENGTH]
  rw [fseek_of_nonneg _ _ h]
  simp only [read_records_data, fseek_data, fread_data]

theorem load_lumps_models_table (m : EQ3Map) (fptr : FILE)
    (h : 0 ≤ (m.header.direntry LUMP_MODELS).offset) :
    (load_lumps m fptr).2.1.models =
      (read_records model_layout (load_lumps m fptr).2.1.num_models.toNat
        ⟨fptr.data, (m.header.direntry LUMP_MODELS).offset.toNat⟩).1 := by
  simp only [load_lumps, load_lump_entities, load_lump_textures, load_lump_planes,
    load_lump_nodes, load_lump_leafs, load_lump_leaffaces, load_lump_leafbrushes,
    load_lump_models, load_lump_brushes, load_lump_brushsides, load_lump_vertexes,
    load_lump_meshverts, load_lump_effects, load_lump_faces, load_lump_lightmaps,
    load_lump_lightvols, load_lump_visdata, SEEK_LUMP, LUMP_LENGTH]
  rw [fseek_of_nonneg _ _ h]
  simp only [read_records_data, fseek_data, fread_data]

theorem load_lumps_vertexes_table (m : EQ3Map) (fptr : FILE)
    (h : 0 ≤ (m.header.direntry LUMP_VERTEXES).offset) :
    (load_lumps m fptr).2.1.vertexes =
      (read_records vertex_layout (load_lumps m fptr).2.1.num_vertexes.toNat
        ⟨fptr.data, (m.header.direntry LUMP_VERTEXES).offset.toNat⟩).1 := by
  simp only [load_lumps, load_lump_entities, load_lump_textures, load_lump_planes,
    load_lump_nodes, load_lump_leafs, load_lump_leaffaces, load_lump_leafbrushes,
    load_lump_models, load_lump_brushes, load_lump_brushsides, load_lump_vertexes,
    load_lump_meshverts, load_lump_effects, load_lump_faces, load_lump_lightmaps,
    load_lump_lightvols, load_lump_visdata, SEEK_LUMP, LUMP_LENGTH]
  rw [fseek_of_nonneg _ _ h]
  simp only [read_records_data, fseek_data, fread_data]

theorem load_lumps_faces_table (m : EQ3Map) (fptr : FILE)
    (h : 0 ≤ (m.header.direntry LUMP_FACES).offset) :
    (load_lumps m fptr).2.1.faces =
      (read_records face_layout (load_lumps m fptr).2.1.num_faces.toNat
        ⟨fptr.data, (m.header.direntry LUMP_FACES).offset.toNat⟩).1 := by
  simp only [load_lumps, load_lump_entities, load_lump_textures, load_lump_planes,
    load_lump_nodes, load_lump_leafs, load_lump_leaffaces, load_lump_leafbrushes,
    load_lump_models, load_lump_brushes, load_lump_brushsides, load_lump_vertexes,
    load_lump_meshverts, load_lump_effects, load_lump_faces, load_lump_lightmaps,
    load_lump_lightvols, load_lump_visdata, SEEK_LUMP, LUMP_LENGTH]
  rw [fseek_of_nonneg _ _ h]
  simp only [read_records_data, fseek_data, fread_data]

theorem planes_record_stored (m : EQ3Map) (fptr : FILE) (i : ℕ)
    (hi : (i : ℤ) < (load_lumps m fptr).2.1.num_planes)
    (hoff : 0 ≤ (m.header.direntry LUMP_PLANES).offset)
    (hfit : (m.header.direntry LUMP_PLANES).offset.toNat + (i + 1) * 16 ≤ fptr.data.length) :
    (load_lumps m fptr).2.1.planes[i]? =
      some [swapped_triple fptr.data ((m.header.direntry LUMP_PLANES).offset.toNat + i * 16),
        file_bytes fptr.data ((m.header.direntry LUMP_PLANES).offset.toNat + i * 16 + 12) 4] := by
  have hb : bytes_per_record plane_layout = 16 := rfl
  rw [load_lumps_planes_table m fptr hoff,
    stored_record plane_layout fptr.data _ _ i (by omega) (by rw [hb]; exact hfit) rfl, hb]
  rfl

theorem nodes_record_stored (m : EQ3Map) (fptr : FILE) (i : ℕ)
    (hi : (i : ℤ) < (load_lumps m fptr).2.1.num_nodes)
    (hoff : 0 ≤ (m.header.direntry LUMP_NODES).offset)
    (hfit : (m.header.direntry LUMP_NODES).offset.toNat + (i + 1) * 36 ≤ fptr.data.length) :
    (load_lumps m fptr).2.1.nodes[i]? =
      some [file_bytes fptr.data ((m.header.direntry LUMP_NODES).offset.toNat + i * 36) 4,
        file_bytes fptr.data ((m.header.direntry LUMP_NODES).offset.toNat + i * 36 + 4) 8,
        swapped_triple fptr.data ((m.header.direntry LUMP_NODES).offset.toNat + i * 36 + 12),
        swapped_triple fptr.data ((m.header.direntry LUMP_NODES).offset.toNat + i * 36 + 24)] := by
  have hb : bytes_per_record node_layout = 36 := rfl
  rw [load_lumps_nodes_table m fptr hoff,
    stored_record node_layout fptr.data _ _ i (by omega) (by rw [hb]; exact hfit) rfl, hb]
  rfl

theorem leafs_record_stored (m : EQ3Map) (fptr : FILE) (i : ℕ)
    (hi : (i : ℤ) < (load_lumps m fptr).2.1.num_leafs)
    (hoff : 0 ≤ (m.header.direntry LUMP_LEAFS).offset)
    (hfit : (m.header.direntry LUMP_LEAFS).offset.toNat + (i + 1) * 48 ≤ fptr.data.length) :
    (load_lumps m fptr).2.1.leafs[i]? =
      some [file_bytes fptr.data ((m.header.direntry LUMP_LEAFS).offset.toNat + i * 48) 4,
        file_bytes fptr.data ((m.header.direntry LUMP_LEAFS).offset.toNat + i * 48 + 4) 4,
        swapped_triple fptr.data ((m.header.direntry LUMP_LEAFS).offset.toNat + i * 48 + 8),
        swapped_triple fptr.data ((m.header.direntry LUMP_LEAFS).offset.toNat + i * 48 + 20),
        file_bytes fptr.data ((m.header.direntry LUMP_LEAFS).offset.toNat + i * 48 + 32) 4,
        file_bytes fptr.data ((m.header.direntry LUMP_LEAFS).offset.toNat + i * 48 + 36) 4,
        file_bytes fptr.data ((m.header.direntry LUMP_LEAFS).offset.toNat + i * 48 + 40) 4,
        file_bytes fptr.data ((m.header.direntry LUMP_LEAFS).offset.toNat + i * 48 + 44) 4] := by
  have hb : bytes_per_record leaf_layout = 48 := rfl
  rw [load_lumps_leafs_table m fptr hoff,
    stored_record leaf_layout fptr.data _ _ i (by omega) (by rw [hb]; exact hfit) rfl, hb]
  rfl

theorem models_record_stored (m : EQ3Map) (fptr : FILE) (i : ℕ)
    (hi : (i : ℤ) < (load_lumps m fptr).2.1.num_models)
    (hoff : 0 ≤ (m.header.direntry LUMP_MODELS).offset)
    (hfit : (m.header.direntry LUMP_MODELS).offset.toNat + (i + 1) * 40 ≤ fptr.data.length) :
    (load_lumps m fptr).2.1.models[i]? =
      some [swapped_triple fptr.data ((m.header.direntry LUMP_MODELS).offset.toNat + i * 40),
        swapped_triple fptr.data ((m.header.direntry LUMP_MODELS).offset.toNat + i * 40 + 12),
        file_bytes fptr.data ((m.header.direntry LUMP_MODELS).offset.toNat + i * 40 + 24) 4,
        file_bytes fptr.data ((m.header.direntry LUMP_MODELS).offset.toNat + i * 40 + 28) 4,
        file_bytes fptr.data ((m.header.direntry LUMP_MODELS).offset.toNat + i * 40 + 32) 4,
        file_bytes fptr.data ((m.header.direntry LUMP_MODELS).offset.toNat + i * 40 + 36) 4] := by
  have hb : bytes_per_record model_layout = 40 := rfl
  rw [load_lumps_models_table m fptr hoff,
    stored_record model_layout fptr.data _ _ i (by omega) (by rw [hb]; exact hfit) rfl, hb]
  rfl

theorem vertexes_record_stored (m : EQ3Map) (fptr : FILE) (i : ℕ)
    (hi : (i : ℤ) < (load_lumps m fptr).2.1.num_vertexes)
    (hoff : 0 ≤ (m.header.direntry LUMP_VERTEXES).offset)
    (hfit : (m.header.direntry LUMP_VERTEXES).offset.toNat + (i + 1) * 44 ≤ fptr.data.length) :
    (load_lumps m fptr).2.1.vertexes[i]? =
      some [swapped_triple fptr.data ((m.header.direntry LUMP_VERTEXES).offset.toNat + i * 44),
        file_bytes fptr.data ((m.header.direntry LUMP_VERTEXES).offset.toNat + i * 44 + 12) 16,
        swapped_triple fptr.data ((m.header.direntry LUMP_VERTEXES).offset.toNat + i * 44 + 28),
        file_bytes fptr.data ((m.header.direntry LUMP_VERTEXES).offset.toNat + i * 44 + 40) 4] := by
  have hb : bytes_per_record vertex_layout = 44 := rfl
  rw [load_lumps_vertexes_table m fptr hoff,
    stored_record vertex_layout fptr.data _ _ i (by omega) (by rw [hb]; exact hfit) rfl, hb]
  rfl

theorem faces_record_stored (m : EQ3Map) (fptr : FILE) (i : ℕ)
    (hi : (i : ℤ) < (load_lumps m fptr).2.1.num_faces)
    (hoff : 0 ≤ (m.header.direntry LUMP_FACES).offset)
    (hfit : (m.header.direntry LUMP_FACES).offset.toNat + (i + 1) * 104 ≤ fptr.data.length) :
    (load_lumps m fptr).2.1.faces[i]? =
      some [file_bytes fptr.data ((m.header.direntry LUMP_FACES).offset.toNat + i * 104) 4,
        file_bytes fptr.data ((m.header.direntry LUMP_FACES).offset.toNat + i * 104 + 4) 4,
        file_bytes fptr.data ((m.header.direntry LUMP_FACES).offset.toNat + i * 104 + 8) 4,
        file_bytes fptr.data ((m.header.direntry LUMP_FACES).offset.toNat + i * 104 + 12) 4,
        file_bytes fptr.data ((m.header.direntry LUMP_FACES).offset.toNat + i * 104 + 16) 4,
        file_bytes fptr.data ((m.header.direntry LUMP_FACES).offset.toNat + i * 104 + 20) 4,
        file_bytes fptr.data ((m.header.direntry LUMP_FACES).offset.toNat + i * 104 + 24) 4,
        file_bytes fptr.data ((m.header.direntry LUMP_FACES).offset.toNat + i * 104 + 28) 4,
        file_bytes fptr.data ((m.header.direntry LUMP_FACES).offset.toNat + i * 104 + 32) 8,
        file_bytes fptr.data ((m.header.direntry LUMP_FACES).offset.toNat + i * 104 + 40) 8,
        swapped_triple fptr.data ((m.header.direntry LUMP_FACES).offset.toNat + i * 104 + 48),
        file_bytes fptr.data ((m.header.direntry LUMP_FACES).offset.toNat + i * 104 + 60) 24,
        swapped_triple fptr.data ((m.header.direntry LUMP_FACES).offset.toNat + i * 104 + 84),
        file_bytes fptr.data ((m.header.direntry LUMP_FACES).offset.toNat + i * 104 + 96) 8] := by
  have hb : bytes_per_record face_layout = 104 := rfl
  rw [load_lumps_faces_table m fptr hoff,
    stored_record face_layout fptr.data _ _ i (by omega) (by rw [hb]; exact hfit) rfl, hb]
  rfl

/-- C11: after `load_lumps`, every record that was read completely from the file holds, in
each position, normal and bounding-box member (plane `normal`; node, leaf and model `mins` and
`maxs`; vertex `position` and `normal`; face `lm_origin` and `normal`), the triple
`(v0, v1, v2)` found in the file stored as `(v0, v2, v1)`, and in every other member (among
them plane `dist`) the bytes found in the file, unchanged. Record `i` of a lump is the one
read at the lump offset plus `i` times the bytes read per record. -/
theorem load_lumps_swaps_each_triple_once (m : EQ3Map) (fptr : FILE) :
    (∀ i : ℕ, (i : ℤ) < (load_lumps m fptr).2.1.num_planes →
      0 ≤ (m.header.direntry LUMP_PLANES).offset →
      (m.header.direntry LUMP_PLANES).offset.toNat + (i + 1) * 16 ≤ fptr.data.length →
      (load_lumps m fptr).2.1.planes[i]? =
        some [swapped_triple fptr.data ((m.header.direntry LUMP_PLANES).offset.toNat + i * 16),
          file_bytes fptr.data ((m.header.direntry LUMP_PLANES).offset.toNat + i * 16 + 12) 4]) ∧
    (∀ i : ℕ, (i : ℤ) < (load_lumps m fptr).2.1.num_nodes →
      0 ≤ (m.header.direntry LUMP_NODES).offset →
      (m.header.direntry LUMP_NODES).offset.toNat + (i + 1) * 36 ≤ fptr.data.length →
      (load_lumps m fptr).2.1.nodes[i]? =
        some [file_bytes fptr.data ((m.header.direntry LUMP_NODES).offset.toNat + i * 36) 4,
          file_bytes fptr.data ((m.header.direntry LUMP_NODES).offset.toNat + i * 36 + 4) 8,
          swapped_triple fptr.data ((m.header.direntry LUMP_NODES).offset.toNat + i * 36 + 12),
          swapped_triple fptr.data ((m.header.direntry LUMP_NODES).offset.toNat + i * 36 + 24)]) ∧
    (∀ i : ℕ, (i : ℤ) < (load_lumps m fptr).2.1.num_leafs →
      0 ≤ (m.header.direntry LUMP_LEAFS).offset →
      (m.header.direntry LUMP_LEAFS).offset.toNat + (i + 1) * 48 ≤ fptr.data.length →
      (load_lumps m fptr).2.1.leafs[i]? =
        some [file_bytes fptr.data ((m.header.direntry LUMP_LEAFS).offset.toNat + i * 48) 4,
          file_bytes fptr.data ((m.header.direntry LUMP_LEAFS).offset.toNat + i * 48 + 4) 4,
          swapped_triple fptr.data ((m.header.direntry LUMP_LEAFS).offset.toNat + i * 48 + 8),
          swapped_triple fptr.data ((m.header.direntry LUMP_LEAFS).offset.toNat + i * 48 + 20),
          file_bytes fptr.data ((m.header.direntry LUMP_LEAFS).offset.toNat + i * 48 + 32) 4,
          file_bytes fptr.data ((m.header.direntry LUMP_LEAFS).offset.toNat + i * 48 + 36) 4,
          file_bytes fptr.data ((m.header.direntry LUMP_LEAFS).offset.toNat + i * 48 + 40) 4,
          file_bytes fptr.data ((m.header.direntry LUMP_LEAFS).offset.toNat + i * 48 + 44) 4]) ∧
    (∀ i : ℕ, (i : ℤ) < (load_lumps m fptr).2.1.num_models →
      0 ≤ (m.header.direntry LUMP_MODELS).offset →
      (m.header.direntry LUMP_MODELS).offset.toNat + (i + 1) * 40 ≤ fptr.data.length →
      (load_lumps m fptr).2.1.models[i]? =
        some [swapped_triple fptr.data ((m.header.direntry LUMP_MODELS).offset.toNat + i * 40),
          swapped_triple fptr.data ((m.header.direntry LUMP_MODELS).offset.toNat + i * 40 + 12),
          file_bytes fptr.data ((m.header.direntry LUMP_MODELS).offset.toNat + i * 40 + 24) 4,
          file_bytes fptr.data ((m.header.direntry LUMP_MODELS).offset.toNat + i * 40 + 28) 4,
          file_bytes fptr.data ((m.header.direntry LUMP_MODELS).offset.toNat + i * 40 + 32) 4,
          file_bytes fptr.data ((m.header.direntry LUMP_MODELS).offset.toNat + i * 40 + 36) 4]) ∧
    (∀ i : ℕ, (i : ℤ) < (load_lumps m fptr).2.1.num_vertexes →
      0 ≤ (m.header.direntry LUMP_VERTEXES).offset →
      (m.header.direntry LUMP_VERTEXES).offset.toNat + (i + 1) * 44 ≤ fptr.data.length →
      (load_lumps m fptr).2.1.vertexes[i]? =
        some [swapped_triple fptr.data ((m.header.direntry LUMP_VERTEXES).offset.toNat + i * 44),
          file_bytes fptr.data ((m.header.direntry LUMP_VERTEXES).offset.toNat + i * 44 + 12) 16,
          swapped_triple fptr.data ((m.header.direntry LUMP_VERTEXES).offset.toNat + i * 44 + 28),
          file_bytes fptr.data ((m.header.direntry LUMP_VERTEXES).offset.toNat + i * 44 + 40) 4]) ∧
    (∀ i : ℕ, (i : ℤ) < (load_lumps m fptr).2.1.num_faces →
      0 ≤ (m.header.direntry LUMP_FACES).offset →
      (m.header.direntry LUMP_FACES).offset.toNat + (i + 1) * 104 ≤ fptr.data.length →
      (load_lumps m fptr).2.1.faces[i]? =
        some [file_bytes fptr.data ((m.header.direntry LUMP_FACES).offset.toNat + i * 104) 4,
          file_bytes fptr.data ((m.header.direntry LUMP_FACES).offset.toNat + i * 104 + 4) 4,
          file_bytes fptr.data ((m.header.direntry LUMP_FACES).offset.toNat + i * 104 + 8) 4,
          file_bytes fptr.data ((m.header.direntry LUMP_FACES).offset.toNat + i * 104 + 12) 4,
          file_bytes fptr.data ((m.header.direntry LUMP_FACES).offset.toNat + i * 104 + 16) 4,
          file_bytes fptr.data ((m.header.direntry LUMP_FACES).offset.toNat + i * 104 + 20) 4,
          file_bytes fptr.data ((m.header.direntry LUMP_FACES).offset.toNat + i * 104 + 24) 4,
          file_bytes fptr.data ((m.header.direntry LUMP_FACES).offset.toNat + i * 104 + 28) 4,
          file_bytes fptr.data ((m.header.direntry LUMP_FACES).offset.toNat + i * 104 + 32) 8,
          file_bytes fptr.data ((m.header.direntry LUMP_FACES).offset.toNat + i * 104 + 40) 8,
          swapped_triple fptr.data ((m.header.direntry LUMP_FACES).offset.toNat + i * 104 + 48),
          file_bytes fptr.data ((m.header.direntry LUMP_FACES).offset.toNat + i * 104 + 60) 24,
          swapped_triple fptr.data ((m.header.direntry LUMP_FACES).offset.toNat + i * 104 + 84),
          file_bytes fptr.data ((m.header.direntry LUMP_FACES).offset.toNat + i * 104 + 96) 8]) :=
  ⟨fun i h1 h2 h3 => planes_record_stored m fptr i h1 h2 h3,
   fun i h1 h2 h3 => nodes_record_stored m fptr i h1 h2 h3,
   fun i h1 h2 h3 => leafs_record_stored m fptr i h1 h2 h3,
   fun i h1 h2 h3 => models_record_stored m fptr i h1 h2 h3,
   fun i h1 h2 h3 => vertexes_record_stored m fptr i h1 h2 h3,
   fun i h1 h2 h3 => faces_record_stored m fptr i h1 h2 h3⟩

/-- Witness for C11: the second node (`i = 1`) of `file_two_nodes` is read completely; its
`mins` and `maxs` are stored swapped, `plane` and `children` as in the file. -/
theorem load_lumps_swaps_each_triple_once_witness :
    ((1 : ℕ) : ℤ) < (load_lumps map_two_nodes_header ⟨file_two_nodes, 144⟩).2.1.num_nodes ∧
    0 ≤ (map_two_nodes_header.header.direntry LUMP_NODES).offset ∧
    (map_two_nodes_header.header.direntry LUMP_NODES).offset.toNat + (1 + 1) * 36 ≤
      (⟨file_two_nodes, 144⟩ : FILE).data.length ∧
    (load_lumps map_two_nodes_header ⟨file_two_nodes, 144⟩).2.1.nodes[1]? =
      some [file_bytes (⟨file_two_nodes, 144⟩ : FILE).data
          ((map_two_nodes_header.header.direntry LUMP_NODES).offset.toNat + 1 * 36) 4,
        file_bytes (⟨file_two_nodes, 144⟩ : FILE).data
          ((map_two_nodes_header.header.direntry LUMP_NODES).offset.toNat + 1 * 36 + 4) 8,
        swapped_triple (⟨file_two_nodes, 144⟩ : FILE).data
          ((map_two_nodes_header.header.direntry LUMP_NODES).offset.toNat + 1 * 36 + 12),
        swapped_triple (⟨file_two_nodes, 144⟩ : FILE).data
          ((map_two_nodes_header.header.direntry LUMP_NODES).offset.toNat + 1 * 36 + 24)] ∧
    swapped_triple file_two_nodes (144 + 1 * 36 + 12) =
      [48, 49, 50, 51, 56, 57, 58, 59, 52, 53, 54, 55] :=
  ⟨by decide!, by decide!, by decide!,
    (load_lumps_swaps_each_triple_once map_two_nodes_header ⟨file_two_nodes, 144⟩).2.1 1
      (by decide!) (by decide!) (by decide!),
    by decide!⟩

/-! ## Properties of `get_next_token` and of the entity reader -/

theorem skip_to_quote_append (pre rest : List Char)
    (hpre : ∀ c ∈ pre, c ≠ NUL ∧ c ≠ QUOTE ∧ c ≠ RBRACE) :
    skip_to_quote (pre ++ rest) = skip_to_quote rest := by
  induction pre with
  | nil => rfl
  | cons c cs ih =>
    have hc := hpre c (List.mem_cons_self c cs)
    simp only [List.cons_append, skip_to_quote]
    rw [if_pos hc]
    exact ih (fun d hd => hpre d (List.mem_cons_of_mem c hd))

theorem skip_to_quote_quote (rest : List Char) :
    skip_to_quote (QUOTE :: rest) = QUOTE :: rest := by
  simp [skip_to_quote]

theorem skip_to_quote_rbrace (rest : List Char) :
    skip_to_quote (RBRACE :: rest) = RBRACE :: rest := by
  simp [skip_to_quote]

theorem copy_token_append (tok rest : List Char) (htok : ∀ c ∈ tok, c ≠ NUL ∧ c ≠ QUOTE) :
    ∀ n, tok.length < n → copy_token n (tok ++ QUOTE :: rest) = tok := by
  induction tok with
  | nil =>
    intro n hn
    obtain ⟨k, rfl⟩ : ∃ k, n = k + 1 := ⟨n - 1, by simp at hn; omega⟩
    simp [copy_token]
  | cons c cs ih =>
    intro n hn
    obtain ⟨k, rfl⟩ : ∃ k, n = k + 1 := ⟨n - 1, by simp at hn; omega⟩
    have hc := htok c (List.mem_cons_self c cs)
    simp only [List.cons_append, copy_token]
    rw [if_pos hc]
    exact congrArg (List.cons c) (ih (fun d hd => htok d (List.mem_cons_of_mem c hd)) k
      (by simp at hn; omega))

theorem get_next_token_quoted (pre tok rest : List Char) (buf_size : ℕ)
    (hpre : ∀ c ∈ pre, c ≠ NUL ∧ c ≠ QUOTE ∧ c ≠ RBRACE)
    (htok : ∀ c ∈ tok, c ≠ NUL ∧ c ≠ QUOTE) (hlen : tok.length < buf_size) :
    get_next_token (pre ++ QUOTE :: (tok ++ QUOTE :: rest)) buf_size = (tok, some rest) := by
  have hq1 : ¬ (deref (QUOTE :: (tok ++ QUOTE :: rest)) = NUL ∨
      deref (QUOTE :: (tok ++ QUOTE :: rest)) = RBRACE) := by
    simp only [deref, List.headD_cons]
    decide
  unfold get_next_token
  simp only [skip_to_quote_append pre _ hpre, skip_to_quote_quote, if_neg hq1, List.tail_cons,
    copy_token_append tok rest htok buf_size hlen, List.drop_left, advance]

theorem get_next_token_at_rbrace (pre rest : List Char) (buf_size : ℕ)
    (hpre : ∀ c ∈ pre, c ≠ NUL ∧ c ≠ QUOTE ∧ c ≠ RBRACE) :
    get_next_token (pre ++ RBRACE :: rest) buf_size = ([], some (RBRACE :: rest)) := by
  unfold get_next_token
  simp only [skip_to_quote_append pre _ hpre, skip_to_quote_rbrace]
  simp [deref]

/-- C15: when the next double quote of the string comes before any `}` and a closing double
quote follows fewer than `buf_size` characters later, `get_next_token` writes exactly the text
between the two quotes to the buffer (which stays terminated) and returns the position right
after the closing quote; when a `}` comes before any double quote, the buffer stays empty and
the position of the `}` is returned. For `asdf "foo" bar` the token is `foo` and the rest is
` bar`. -/
theorem get_next_token_policy :
    (∀ (pre tok rest : List Char) (buf_size : ℕ),
      (∀ c ∈ pre, c ≠ NUL ∧ c ≠ QUOTE ∧ c ≠ RBRACE) → (∀ c ∈ tok, c ≠ NUL ∧ c ≠ QUOTE) →
      tok.length < buf_size →
      get_next_token (pre ++ QUOTE :: (tok ++ QUOTE :: rest)) buf_size = (tok, some rest) ∧
      buf_string tok buf_size = some tok) ∧
    (∀ (pre rest : List Char) (buf_size : ℕ),
      (∀ c ∈ pre, c ≠ NUL ∧ c ≠ QUOTE ∧ c ≠ RBRACE) →
      get_next_token (pre ++ RBRACE :: rest) buf_size = ([], some (RBRACE :: rest))) ∧
    get_next_token "asdf \"foo\" bar".toList 20 = ("foo".toList, some " bar".toList) := by
  refine ⟨fun pre tok rest buf_size hpre htok hlen =>
      ⟨get_next_token_quoted pre tok rest buf_size hpre htok hlen, ?_⟩,
    fun pre rest buf_size hpre => get_next_token_at_rbrace pre rest buf_size hpre, ?_⟩
  · simp [buf_string, hlen]
  · decide!

theorem deref_sep_quote (pre rest : List Char) (hpre : clean_sep pre) :
    deref (pre ++ QUOTE :: rest) ≠ NUL ∧ deref (pre ++ QUOTE :: rest) ≠ RBRACE := by
  cases pre with
  | nil =>
    simp only [List.nil_append, deref, List.headD_cons]
    decide
  | cons c cs =>
    have hc := hpre c (List.mem_cons_self c cs)
    simp only [List.cons_append, deref, List.headD_cons]
    exact ⟨hc.1, hc.2.2⟩

theorem parse_block_loop_at_rbrace (libc : sscanf_t) (b tail : List Char) (fuel : ℕ)
    (m : spawn_members) :
    parse_block_loop libc b (fuel + 1) (some (RBRACE :: tail)) m =
      Outcome.value (RBRACE :: tail, m) := by
  simp [parse_block_loop, deref]

theorem cstrcmp_classname_empty : cstrcmp (some str_classname) (some []) ≠ 0 := by
  decide!

theorem parse_block_loop_closing (libc : sscanf_t) (b closing tail : List Char)
    (hclosing : clean_sep closing) (fuel : ℕ) (m : spawn_members) :
    parse_block_loop libc b (fuel + 2) (some (closing ++ RBRACE :: tail)) m =
      Outcome.value (RBRACE :: tail, m) := by
  cases closing with
  | nil => exact parse_block_loop_at_rbrace libc b tail (fuel + 1) m
  | cons c cs =>
    have hc := hclosing c (List.mem_cons_self c cs)
    have hcond : deref (c :: cs ++ RBRACE :: tail) ≠ NUL ∧
        deref (c :: cs ++ RBRACE :: tail) ≠ RBRACE := by
      simp only [List.cons_append, deref, List.headD_cons]
      exact ⟨hc.1, hc.2.2⟩
    have h1 := get_next_token_at_rbrace (c :: cs) tail 256 hclosing
    have h2 := get_next_token_at_rbrace [] tail 256 (by intro d hd; cases hd)
    simp only [List.nil_append] at h2
    rw [parse_block_loop, if_pos hcond]
    simp only [h1, h2, if_neg cstrcmp_classname_empty]
    exact parse_block_loop_at_rbrace libc b tail fuel m

theorem run_callbacks_no_match (libc : sscanf_t) (fuel : ℕ) (b value : List Char)
    (m : spawn_members)
    (h : cstrcmp (some str_info_player_deathmatch) (some value) ≠ 0) :
    run_callbacks b value (entity_loader_callbacks libc fuel) m = Outcome.value m := by
  simp [entity_loader_callbacks, run_callbacks, h]

theorem parse_block_loop_ignores (libc : sscanf_t) (b closing tail : List Char)
    (hclosing : clean_sep closing) (pairs : List entity_pair) :
    (∀ p ∈ pairs, clean_pair p) →
    (∀ p ∈ pairs, cstrcmp (some str_classname) (some p.2.1) = 0 →
      cstrcmp (some str_info_player_deathmatch) (some p.2.2.2) ≠ 0) →
    ∀ fuel m, pairs.length + 2 ≤ fuel →
      parse_block_loop libc b fuel (some (render_pairs closing tail pairs)) m =
        Outcome.value (RBRACE :: tail, m) := by
  induction pairs with
  | nil =>
    intro _ _ fuel m hf
    obtain ⟨k, rfl⟩ : ∃ k, fuel = k + 2 := ⟨fuel - 2, by simp at hf; omega⟩
    exact parse_block_loop_closing libc b closing tail hclosing k m
  | cons p rest ih =>
    intro hclean hno fuel m hf
    obtain ⟨s1, k, s2, v⟩ := p
    obtain ⟨f, rfl⟩ : ∃ f, fuel = f + 1 := ⟨fuel - 1, by simp at hf; omega⟩
    have hp : clean_pair (s1, k, s2, v) := hclean _ (List.mem_cons_self _ _)
    obtain ⟨hs1, hk, hs2, hv⟩ := hp
    have hcond := deref_sep_quote s1
      (k ++ QUOTE :: (s2 ++ QUOTE :: (v ++ QUOTE :: render_pairs closing tail rest))) hs1
    have h1 := get_next_token_quoted s1 k
      (s2 ++ QUOTE :: (v ++ QUOTE :: render_pairs closing tail rest)) 256 hs1 hk.1 hk.2
    have h2 := get_next_token_quoted s2 v (render_pairs closing tail rest) 256 hs2 hv.1 hv.2
    have hrest := ih (fun q hq => hclean q (List.mem_cons_of_mem _ hq))
      (fun q hq => hno q (List.mem_cons_of_mem _ hq))
    simp only [render_pairs]
    rw [parse_block_loop, if_pos hcond]
    simp only [h1, h2]
    by_cases hcn : cstrcmp (some str_classname) (some k) = 0
    · have hv2 := hno (s1, k, s2, v) (List.mem_cons_self _ _) hcn
      rw [if_pos hcn, run_callbacks_no_match libc f _ v m hv2]
      exact hrest f m (by simp at hf; omega)
    · rw [if_neg hcn]
      exact hrest f m (by simp at hf; omega)

theorem clean_sep_lbrace (s : List Char) (h : clean_sep s) : clean_sep (LBRACE :: s) := by
  intro c hc
  rcases List.mem_cons.mp hc with rfl | hc
  · decide
  · exact h c hc

theorem lbrace_render_pairs (closing tail : List Char) (pairs : List entity_pair) :
    LBRACE :: render_pairs closing tail pairs =
      match pairs with
      | [] => render_pairs (LBRACE :: closing) tail []
      | (s1, k, s2, v) :: rest => render_pairs closing tail ((LBRACE :: s1, k, s2, v) :: rest) := by
  cases pairs with
  | nil => rfl
  | cons p rest =>
    obtain ⟨s1, k, s2, v⟩ := p
    rfl

theorem parse_block_loop_block (libc : sscanf_t) (b closing tail : List Char)
    (hclosing : clean_sep closing) (pairs : List entity_pair)
    (hclean : ∀ p ∈ pairs, clean_pair p)
    (hno : ∀ p ∈ pairs, cstrcmp (some str_classname) (some p.2.1) = 0 →
      cstrcmp (some str_info_player_deathmatch) (some p.2.2.2) ≠ 0)
    (fuel : ℕ) (m : spawn_members) (hf : pairs.length + 2 ≤ fuel) :
    parse_block_loop libc b fuel (some (LBRACE :: render_pairs closing tail pairs)) m =
      Outcome.value (RBRACE :: tail, m) := by
  rw [lbrace_render_pairs]
  cases pairs with
  | nil =>
    exact parse_block_loop_ignores libc b (LBRACE :: closing) tail (clean_sep_lbrace _ hclosing)
      [] (fun _ h => absurd h (List.not_mem_nil _)) (fun _ h => absurd h (List.not_mem_nil _))
      fuel m hf
  | cons p rest =>
    obtain ⟨s1, k, s2, v⟩ := p
    have hp := hclean _ (List.mem_cons_self _ _)
    refine parse_block_loop_ignores libc b closing tail hclosing
      ((LBRACE :: s1, k, s2, v) :: rest) ?_ ?_ fuel m hf
    · intro q hq
      rcases List.mem_cons.mp hq with rfl | hq
      · exact ⟨clean_sep_lbrace _ hp.1, hp.2.1, hp.2.2.1, hp.2.2.2⟩
      · exact hclean q (List.mem_cons_of_mem _ hq)
    · intro q hq
      rcases List.mem_cons.mp hq with rfl | hq
      · exact hno (s1, k, s2, v) (List.mem_cons_self _ _)
      · exact hno q (List.mem_cons_of_mem _ hq)

theorem skip_to_lbrace_append (pre rest : List Char) (hpre : clean_filler pre) :
    skip_to_lbrace (pre ++ rest) = skip_to_lbrace rest := by
  induction pre with
  | nil => rfl
  | cons c cs ih =>
    have hc := hpre c (List.mem_cons_self c cs)
    simp only [List.cons_append, skip_to_lbrace]
    rw [if_pos hc]
    exact ih (fun d hd => hpre d (List.mem_cons_of_mem c hd))

theorem skip_to_lbrace_lbrace (rest : List Char) :
    skip_to_lbrace (LBRACE :: rest) = LBRACE :: rest := by
  simp [skip_to_lbrace]

theorem skip_to_lbrace_clean (pre : List Char) (hpre : clean_filler pre) :
    skip_to_lbrace pre = [] := by
  have h := skip_to_lbrace_append pre [] hpre
  rw [List.append_nil] at h
  rw [h]
  rfl

theorem parse_entities_loop_ignores (libc : sscanf_t) (trailer : List Char)
    (htrailer : clean_filler trailer) (blocks : List entity_block) :
    (∀ blk ∈ blocks, clean_block blk) → (∀ blk ∈ blocks, no_deathmatch_classname blk) →
    ∀ (lead : List Char), clean_filler lead → ∀ fuel m,
      blocks.length + (blocks.map fun blk => blk.2.1.length).sum + 3 ≤ fuel →
      parse_entities_loop libc fuel (lead ++ entity_text trailer blocks) m =
        Outcome.value m := by
  induction blocks with
  | nil =>
    intro _ _ lead hlead fuel m hf
    obtain ⟨f, rfl⟩ : ∃ f, fuel = f + 1 := ⟨fuel - 1, by omega⟩
    have hall : clean_filler (lead ++ trailer) := by
      intro c hc
      rcases List.mem_append.mp hc with h | h
      · exact hlead c h
      · exact htrailer c h
    simp only [entity_text, parse_entities_loop, skip_to_lbrace_clean _ hall]
    simp [deref]
  | cons blk rest ih =>
    intro hclean hno lead hlead fuel m hf
    obtain ⟨filler, pairs, closing⟩ := blk
    obtain ⟨f, rfl⟩ : ∃ f, fuel = f + 1 := ⟨fuel - 1, by omega⟩
    have hb : clean_block (filler, pairs, closing) := hclean _ (List.mem_cons_self _ _)
    obtain ⟨hfil, hpairs, hclosing⟩ := hb
    have hnb : no_deathmatch_classname (filler, pairs, closing) :=
      hno _ (List.mem_cons_self _ _)
    have hall : clean_filler (lead ++ filler) := by
      intro c hc
      rcases List.mem_append.mp hc with h | h
      · exact hlead c h
      · exact hfil c h
    have hskip : skip_to_lbrace (lead ++ entity_text trailer ((filler, pairs, closing) :: rest)) =
        LBRACE :: render_pairs closing (entity_text trailer rest) pairs := by
      simp only [entity_text]
      rw [← List.append_assoc, skip_to_lbrace_append _ _ hall, skip_to_lbrace_lbrace]
    have hblock := parse_block_loop_block libc
      (LBRACE :: render_pairs closing (entity_text trailer rest) pairs) closing
      (entity_text trailer rest) hclosing pairs hpairs hnb f m (by
        simp only [List.length_cons, List.map_cons, List.sum_cons] at hf
        omega)
    have hnext := ih (fun q hq => hclean q (List.mem_cons_of_mem _ hq))
      (fun q hq => hno q (List.mem_cons_of_mem _ hq)) [RBRACE]
      (by intro c hc; rw [List.mem_singleton] at hc; subst hc; decide) f m (by
        simp only [List.length_cons, List.map_cons, List.sum_cons] at hf
        omega)
    have hlb : ¬ deref (LBRACE :: render_pairs closing (entity_text trailer rest) pairs) =
        NUL := by
      simp only [deref, List.headD_cons]
      decide
    rw [parse_entities_loop]
    by_cases hd : deref (lead ++ entity_text trailer ((filler, pairs, closing) :: rest)) ≠ NUL
    · rw [if_pos hd, hskip, if_neg hlb, hblock]
      exact hnext
    · rw [if_neg hd]

theorem cstrcmp_keys :
    cstrcmp (some str_classname) (some str_classname) = 0 ∧
    cstrcmp (some str_info_player_deathmatch) (some str_info_player_deathmatch) = 0 ∧
    cstrcmp (some str_classname) (some str_angle) ≠ 0 ∧
    cstrcmp (some str_classname) (some str_origin) ≠ 0 ∧
    cstrcmp (some str_angle) (some str_classname) ≠ 0 ∧
    cstrcmp (some str_origin) (some str_classname) ≠ 0 ∧
    cstrcmp (some str_angle) (some str_angle) = 0 ∧
    cstrcmp (some str_angle) (some str_origin) ≠ 0 ∧
    cstrcmp (some str_origin) (some str_origin) = 0 ∧
    cstrcmp (some str_angle) (some []) ≠ 0 ∧
    cstrcmp (some str_origin) (some []) ≠ 0 := by
  decide!

theorem load_entity_loop_at_rbrace (libc : sscanf_t) (index : ℤ) (tail : List Char) (fuel : ℕ)
    (m : spawn_members) :
    load_entity_loop libc index (fuel + 1) (some (RBRACE :: tail)) m = Outcome.value m := by
  simp [load_entity_loop, deref]

theorem store_spawn_key_empty (libc : sscanf_t) (index : ℤ) (value : List Char)
    (m : spawn_members) : store_spawn_key libc index [] value m = Outcome.value m := by
  unfold store_spawn_key
  rw [if_neg cstrcmp_keys.2.2.2.2.2.2.2.2.2.1, if_neg cstrcmp_keys.2.2.2.2.2.2.2.2.2.2]

theorem load_entity_loop_closing (libc : sscanf_t) (index : ℤ) (closing tail : List Char)
    (hclosing : clean_sep closing) (fuel : ℕ) (m : spawn_members) :
    load_entity_loop libc index (fuel + 2) (some (closing ++ RBRACE :: tail)) m =
      Outcome.value m := by
  cases closing with
  | nil => exact load_entity_loop_at_rbrace libc index tail (fuel + 1) m
  | cons c cs =>
    have hc := hclosing c (List.mem_cons_self c cs)
    have hcond : deref (c :: cs ++ RBRACE :: tail) ≠ NUL ∧
        deref (c :: cs ++ RBRACE :: tail) ≠ RBRACE := by
      simp only [List.cons_append, deref, List.headD_cons]
      exact ⟨hc.1, hc.2.2⟩
    have h1 := get_next_token_at_rbrace (c :: cs) tail 256 hclosing
    have h2 := get_next_token_at_rbrace [] tail 256 (by intro d hd; cases hd)
    simp only [List.nil_append] at h2
    rw [load_entity_loop, if_pos hcond]
    simp only [h1, h2, store_spawn_key_empty]
    exact load_entity_loop_at_rbrace libc index tail fuel m

theorem load_entity_loop_pairs (libc : sscanf_t) (index : ℤ) (closing tail : List Char)
    (hclosing : clean_sep closing) (pairs : List entity_pair) :
    (∀ p ∈ pairs, clean_pair p) →
    ∀ fuel m, pairs.length + 2 ≤ fuel →
      load_entity_loop libc index fuel (some (render_pairs closing tail pairs)) m =
        store_pairs libc index pairs m := by
  induction pairs with
  | nil =>
    intro _ fuel m hf
    obtain ⟨k, rfl⟩ : ∃ k, fuel = k + 2 := ⟨fuel - 2, by simp at hf; omega⟩
    exact load_entity_loop_closing libc index closing tail hclosing k m
  | cons p rest ih =>
    intro hclean fuel m hf
    obtain ⟨s1, k, s2, v⟩ := p
    obtain ⟨f, rfl⟩ : ∃ f, fuel = f + 1 := ⟨fuel - 1, by simp at hf; omega⟩
    have hp : clean_pair (s1, k, s2, v) := hclean _ (List.mem_cons_self _ _)
    obtain ⟨hs1, hk, hs2, hv⟩ := hp
    have hcond := deref_sep_quote s1
      (k ++ QUOTE :: (s2 ++ QUOTE :: (v ++ QUOTE :: render_pairs closing tail rest))) hs1
    have h1 := get_next_token_quoted s1 k
      (s2 ++ QUOTE :: (v ++ QUOTE :: render_pairs closing tail rest)) 256 hs1 hk.1 hk.2
    have h2 := get_next_token_quoted s2 v (render_pairs closing tail rest) 256 hs2 hv.1 hv.2
    have hrest := ih (fun q hq => hclean q (List.mem_cons_of_mem _ hq))
    simp only [render_pairs, store_pairs]
    rw [load_entity_loop, if_pos hcond]
    simp only [h1, h2]
    cases hs : store_spawn_key libc index k v m with
    | value m1 => exact hrest f m1 (by simp at hf; omega)
    | out_of_bounds => rfl
    | out_of_fuel => rfl

theorem deathmatch_block_eq (a o : List Char) :
    deathmatch_block a o = LBRACE :: render_pairs [' '] [] (deathmatch_pairs a o) := by
  simp [deathmatch_block, deathmatch_pairs, render_pairs, quoted]

theorem clean_sep_blank : clean_sep [' '] := by
  intro c hc
  rw [List.mem_singleton] at hc
  subst hc
  decide

theorem clean_token_keys :
    clean_token str_classname ∧ clean_token str_info_player_deathmatch ∧
    clean_token str_angle ∧ clean_token str_origin := by
  unfold clean_token
  decide!

theorem deathmatch_pairs_clean (a o : List Char) (ha : clean_token a) (ho : clean_token o) :
    ∀ p ∈ deathmatch_pairs a o, clean_pair p := by
  intro p hp
  simp only [deathmatch_pairs, List.mem_cons, List.mem_singleton, List.not_mem_nil,
    or_false] at hp
  rcases hp with rfl | rfl | rfl
  · exact ⟨clean_sep_blank, clean_token_keys.1, clean_sep_blank, clean_token_keys.2.1⟩
  · exact ⟨clean_sep_blank, clean_token_keys.2.2.1, clean_sep_blank, ha⟩
  · exact ⟨clean_sep_blank, clean_token_keys.2.2.2, clean_sep_blank, ho⟩

theorem store_pairs_deathmatch (libc : sscanf_t) (a o : List Char) (A X Y Z : ℚ)
    (ha : clean_token a) (ho : clean_token o)
    (hA : libc.scan_f a = some A) (hO : libc.scan_fff o = [X, Y, Z]) :
    store_pairs libc 0 (deathmatch_pairs a o)
        { constructed_spawn_members with num_spawn_points := 0 + 1 } =
      Outcome.value
        { spawn_points := ⟨A, ⟨X, Z, Y⟩⟩ :: List.replicate 49 ⟨0, ⟨0, 0, 0⟩⟩,
          num_spawn_points := 1 } := by
  have hba : buf_string a 256 = some a := by simp [buf_string, ha.2]
  have hbo : buf_string o 256 = some o := by simp [buf_string, ho.2]
  have hrep : List.replicate Q3_MAX_SPAWN_POINTS (⟨0, ⟨0, 0, 0⟩⟩ : q3bsp_spawn_point_t) =
      ⟨0, ⟨0, 0, 0⟩⟩ :: List.replicate 49 ⟨0, ⟨0, 0, 0⟩⟩ := rfl
  obtain ⟨_, _, _, _, k1, k2, k3, k4, k5, _, _⟩ := cstrcmp_keys
  simp only [store_pairs, deathmatch_pairs, store_spawn_key, if_neg k1, if_neg k2, if_pos k3,
    if_neg k4, if_pos k5, hba, hbo, hA, hO, constructed_spawn_members, hrep, write_angle,
    write_origin, table_get, swizzle_coords_f, SWAP]
  simp

/-- C12: for every angle text `a` and origin text `o` (without double quote, shorter than
256 characters) that `sscanf` converts to `A` and to `X Y Z`, parsing the entity text
`{ "classname" "info_player_deathmatch" "angle" "a" "origin" "o" }` on a freshly constructed
map gives, for every fuel of at least 8, exactly one spawn point, with angle `A` and origin
`(X, Z, Y)`; the other 49 slots stay cleared. -/
theorem parse_entities_single_deathmatch_block (libc : sscanf_t) (a o : List Char)
    (A X Y Z : ℚ) (fuel : ℕ) (ha : clean_token a) (ho : clean_token o)
    (hA : libc.scan_f a = some A) (hO : libc.scan_fff o = [X, Y, Z]) (hfuel : 8 ≤ fuel) :
    parse_entities libc fuel (some (deathmatch_block a o)) constructed_spawn_members =
      Outcome.value
        { spawn_points := ⟨A, ⟨X, Z, Y⟩⟩ :: List.replicate 49 ⟨0, ⟨0, 0, 0⟩⟩,
          num_spawn_points := 1 } := by
  obtain ⟨g, rfl⟩ : ∃ g, fuel = g + 2 := ⟨fuel - 2, by omega⟩
  have hclean := deathmatch_pairs_clean a o ha ho
  obtain ⟨c1, c2, c3, c4, _, _, _, _, _, _, _⟩ := cstrcmp_keys
  /- the text, seen from the opening brace and from the first pair -/
  have htext := deathmatch_block_eq a o
  have hlb : deref (LBRACE :: render_pairs [' '] [] (deathmatch_pairs a o)) ≠ NUL ∧
      deref (LBRACE :: render_pairs [' '] [] (deathmatch_pairs a o)) ≠ RBRACE := by
    simp only [deref, List.headD_cons]
    decide
  /- the two tokens of the first pair -/
  have h1 : get_next_token (LBRACE :: render_pairs [' '] [] (deathmatch_pairs a o)) 256 =
      (str_classname, some ([' '] ++ QUOTE :: (str_info_player_deathmatch ++ QUOTE ::
        render_pairs [' '] [] [([' '], str_angle, [' '], a), ([' '], str_origin, [' '], o)]))) :=
    get_next_token_quoted [LBRACE, ' '] str_classname _ 256
      (clean_sep_lbrace _ clean_sep_blank) clean_token_keys.1.1 clean_token_keys.1.2
  have h2 : get_next_token ([' '] ++ QUOTE :: (str_info_player_deathmatch ++ QUOTE ::
        render_pairs [' '] [] [([' '], str_angle, [' '], a), ([' '], str_origin, [' '], o)]))
        256 =
      (str_info_player_deathmatch, some (render_pairs [' '] []
        [([' '], str_angle, [' '], a), ([' '], str_origin, [' '], o)])) :=
    get_next_token_quoted [' '] str_info_player_deathmatch _ 256 clean_sep_blank
      clean_token_keys.2.1.1 clean_token_keys.2.1.2
  /- the callback -/
  have hcb : load_entity_info_player_deathmatch libc g
        (LBRACE :: render_pairs [' '] [] (deathmatch_pairs a o)) constructed_spawn_members =
      Outcome.value
        { spawn_points := ⟨A, ⟨X, Z, Y⟩⟩ :: List.replicate 49 ⟨0, ⟨0, 0, 0⟩⟩,
          num_spawn_points := 1 } := by
    have hnum : ¬ constructed_spawn_members.num_spawn_points > (Q3_MAX_SPAWN_POINTS : ℤ) := by
      decide
    unfold load_entity_info_player_deathmatch
    rw [if_neg hnum]
    simp only [advance]
    rw [load_entity_loop_pairs libc _ [' '] [] clean_sep_blank (deathmatch_pairs a o) hclean g _
      (by simp [deathmatch_pairs]; omega)]
    exact store_pairs_deathmatch libc a o A X Y Z ha ho hA hO
  /- the rest of the block: the keys `angle` and `origin` are not `classname` -/
  have hrest := parse_block_loop_ignores libc
    (LBRACE :: render_pairs [' '] [] (deathmatch_pairs a o)) [' '] [] clean_sep_blank
    [([' '], str_angle, [' '], a), ([' '], str_origin, [' '], o)]
    (fun p hp => hclean p (List.mem_cons_of_mem _ hp))
    (by
      intro p hp hcn
      simp only [List.mem_cons, List.mem_singleton, List.not_mem_nil, or_false] at hp
      rcases hp with rfl | rfl
      · exact absurd hcn c3
      · exact absurd hcn c4)
    g { spawn_points := ⟨A, ⟨X, Z, Y⟩⟩ :: List.replicate 49 ⟨0, ⟨0, 0, 0⟩⟩,
        num_spawn_points := 1 } (by simp; omega)
  /- after the block -/
  have hafter := parse_entities_loop_ignores libc [] (by intro c hc; cases hc) []
    (fun _ h => absurd h (List.not_mem_nil _)) (fun _ h => absurd h (List.not_mem_nil _))
    [RBRACE] (by intro c hc; rw [List.mem_singleton] at hc; subst hc; decide) (g + 1)
    { spawn_points := ⟨A, ⟨X, Z, Y⟩⟩ :: List.replicate 49 ⟨0, ⟨0, 0, 0⟩⟩,
      num_spawn_points := 1 } (by simp; omega)
  simp only [entity_text, List.append_nil] at hafter
  rw [htext]
  unfold parse_entities
  simp only []
  rw [if_neg hlb.1, parse_entities_loop, if_pos hlb.1, skip_to_lbrace_lbrace, if_neg hlb.1,
    parse_block_loop, if_pos hlb]
  simp only [h1, h2, if_pos c1, entity_loader_callbacks, run_callbacks, if_pos c2, hcb, hrest]
  exact hafter

/-- Witness for C12: the text with angle `90` and origin `0 64 32` gives the spawn point with
angle 90 and origin `(0, 32, 64)`. -/
theorem parse_entities_single_deathmatch_block_witness :
    (clean_token "90".toList ∧ clean_token "0 64 32".toList ∧
      sscanf_example.scan_f "90".toList = some 90 ∧
      sscanf_example.scan_fff "0 64 32".toList = [0, 64, 32] ∧ 8 ≤ 8) ∧
    parse_entities sscanf_example 8 (some (deathmatch_block "90".toList "0 64 32".toList))
        constructed_spawn_members =
      Outcome.value
        { spawn_points := ⟨90, ⟨0, 32, 64⟩⟩ :: List.replicate 49 ⟨0, ⟨0, 0, 0⟩⟩,
          num_spawn_points := 1 } :=
  ⟨⟨by unfold clean_token; decide!, by unfold clean_token; decide!, by decide!, by decide!,
      le_refl 8⟩,
    parse_entities_single_deathmatch_block sscanf_example "90".toList "0 64 32".toList
      90 0 64 32 8 (by unfold clean_token; decide!) (by unfold clean_token; decide!)
      (by decide!) (by decide!) (le_refl 8)⟩

/-- C13 (the code at the failing input): with 51 `info_player_deathmatch` blocks that carry
an angle, the 51st block passes the guard (`50 > 50` is false) and its angle is written to
`spawn_points[50]`, outside the array; with 51 blocks that carry no angle and no origin,
`parse_entities` ends with `num_spawn_points = 51`. With 50 blocks all is in bounds. -/
theorem parse_entities_overruns_spawn_points :
    parse_entities sscanf_example 60 (some (deathmatch_text 51)) constructed_spawn_members =
      Outcome.out_of_bounds ∧
    parse_entities sscanf_example 60 (some (bare_deathmatch_text 51))
        constructed_spawn_members =
      Outcome.value { spawn_points := List.replicate 50 ⟨0, ⟨0, 0, 0⟩⟩,
                      num_spawn_points := 51 } ∧
    parse_entities sscanf_example 60 (some (deathmatch_text 50)) constructed_spawn_members =
      Outcome.value { spawn_points := List.replicate 50 ⟨90, ⟨0, 32, 64⟩⟩,
                      num_spawn_points := 50 } := by
  refine ⟨?_, ?_, ?_⟩
  · decide!
  · decide!
  · decide!

/-! ## A cluster sees itself -/

/-- C21: in a visibility table with `num_vecs ≤ 8 * sz_vecs` in which bit `c & 7` of the byte
`vecs[c * sz_vecs + c / 8]` is set for each `0 ≤ c < num_vecs`, `is_cluster_visable(c, c)`
returns a non-zero value for every such `c`. -/
theorem is_cluster_visable_self (visdata : q3bsp_visdata_t)
    (_hsz : visdata.num_vecs ≤ 8 * visdata.sz_vecs)
    (hbits : ∀ c : ℤ, 0 ≤ c → c < visdata.num_vecs →
      ∃ vec, table_get visdata.vecs (c * visdata.sz_vecs + c / 8) = some vec ∧
        vec.val.testBit (Int.land c 7).toNat = true) :
    ∀ c : ℤ, 0 ≤ c → c < visdata.num_vecs →
      ∃ r, is_cluster_visable visdata c c = some r ∧ r ≠ 0 := by
  intro c h0 h1
  obtain ⟨vec, hvec, hbit⟩ := hbits c h0 h1
  have hdiv : Int.tdiv c 8 = c / 8 := Int.tdiv_eq_ediv h0 (by decide)
  have hc : ¬ c < 0 := by omega
  unfold is_cluster_visable
  rw [if_neg hc, hdiv, hvec]
  refine ⟨_, rfl, ?_⟩
  exact (byte_and_bit_ne_zero vec.val (Int.land c 7).toNat).mpr hbit

/-- Witness for C21: in the table of two clusters with the bytes 1 and 3, each of the two
clusters sees itself. -/
theorem is_cluster_visable_self_witness :
    visdata_two_clusters.num_vecs ≤ 8 * visdata_two_clusters.sz_vecs ∧
    (∀ c : ℤ, 0 ≤ c → c < visdata_two_clusters.num_vecs →
      ∃ vec, table_get visdata_two_clusters.vecs
          (c * visdata_two_clusters.sz_vecs + c / 8) = some vec ∧
        vec.val.testBit (Int.land c 7).toNat = true) ∧
    (∀ c : ℤ, 0 ≤ c → c < visdata_two_clusters.num_vecs →
      ∃ r, is_cluster_visable visdata_two_clusters c c = some r ∧ r ≠ 0) :=
  have hbits : ∀ c : ℤ, 0 ≤ c → c < visdata_two_clusters.num_vecs →
      ∃ vec, table_get visdata_two_clusters.vecs
          (c * visdata_two_clusters.sz_vecs + c / 8) = some vec ∧
        vec.val.testBit (Int.land c 7).toNat = true := by
    intro c h0 h1
    have h2 : c < 2 := h1
    interval_cases c
    · exact ⟨1, rfl, by decide⟩
    · exact ⟨3, rfl, by decide⟩
  ⟨by decide, hbits, is_cluster_visable_self visdata_two_clusters (by decide) hbits⟩

/-! ## The hand-built tree of one node -/

theorem complement_neg (a : ℤ) (h : 0 ≤ a) : ~~~a < 0 := by
  obtain ⟨n, rfl⟩ := Int.eq_ofNat_of_zero_le h
  exact Int.negSucc_lt_zero n

theorem complement_complement (a : ℤ) : ~~~(~~~a) = a := by
  cases a <;> rfl

/-- C22: in the tree whose only node has the plane with normal `(1, 0, 0)` and distance 0 and
the children `~a` and `~b` (`a, b ≥ 0`), `find_leaf` returns `a` for every point with `x ≥ 0`
and `b` for every point with `x < 0` (for every fuel of at least 1); the centre of a leaf
bounding box lying in `x > 0` maps to `a`, and of one lying in `x < 0` to `b`. -/
theorem find_leaf_hand_built (a b : ℤ) (ha : 0 ≤ a) (hb : 0 ≤ b) (fuel : ℕ) (hfuel : 1 ≤ fuel) :
    (∀ p : vector3, 0 ≤ p.x →
      find_leaf (hand_built_nodes a b) [plane_x] p fuel = Outcome.value a) ∧
    (∀ p : vector3, p.x < 0 →
      find_leaf (hand_built_nodes a b) [plane_x] p fuel = Outcome.value b) ∧
    (∀ leaf : q3bsp_leaf_t, 0 < leaf.mins.1 → 0 < leaf.maxs.1 →
      find_leaf (hand_built_nodes a b) [plane_x] (spec_bbox_centre leaf) fuel = Outcome.value a) ∧
    (∀ leaf : q3bsp_leaf_t, leaf.mins.1 < 0 → leaf.maxs.1 < 0 →
      find_leaf (hand_built_nodes a b) [plane_x] (spec_bbox_centre leaf) fuel = Outcome.value b) := by
  obtain ⟨f, rfl⟩ : ∃ f, fuel = f + 1 := ⟨fuel - 1, by omega⟩
  have hna : ~~~a < 0 := complement_neg a ha
  have hnb : ~~~b < 0 := complement_neg b hb
  have hnna : ~~~(~~~a) = a := complement_complement a
  have hnnb : ~~~(~~~b) = b := complement_complement b
  have hdist : ∀ p : vector3, plane_distance plane_x p = p.x := by
    intro p
    simp [plane_distance, plane_x]
  have hn : table_get (hand_built_nodes a b) 0 =
      some ⟨0, (~~~a, ~~~b), (0, 0, 0), (0, 0, 0)⟩ := rfl
  have hpl : table_get [plane_x] 0 = some plane_x := rfl
  have front : ∀ p : vector3, 0 ≤ p.x →
      find_leaf (hand_built_nodes a b) [plane_x] p (f + 1) = Outcome.value a := by
    intro p hp
    have h : plane_distance plane_x p ≥ 0 := by rw [hdist]; exact hp
    unfold find_leaf find_leaf_loop
    rw [if_pos (le_refl (0 : ℤ)), hn]
    simp only [hpl, if_pos h]
    rw [find_leaf_loop_neg _ _ _ _ _ hna, hnna]
  have back : ∀ p : vector3, p.x < 0 →
      find_leaf (hand_built_nodes a b) [plane_x] p (f + 1) = Outcome.value b := by
    intro p hp
    have h : ¬ plane_distance plane_x p ≥ 0 := by rw [hdist]; exact not_le.mpr hp
    unfold find_leaf find_leaf_loop
    rw [if_pos (le_refl (0 : ℤ)), hn]
    simp only [hpl, if_neg h]
    rw [find_leaf_loop_neg _ _ _ _ _ hnb, hnnb]
  refine ⟨front, back, ?_, ?_⟩
  · intro leaf h1 h2
    apply front
    have h1q : (0 : ℚ) < leaf.mins.1 := by exact_mod_cast h1
    have h2q : (0 : ℚ) < leaf.maxs.1 := by exact_mod_cast h2
    simp only [spec_bbox_centre]
    linarith
  · intro leaf h1 h2
    apply back
    have h1q : (leaf.mins.1 : ℚ) < 0 := by exact_mod_cast h1
    have h2q : (leaf.maxs.1 : ℚ) < 0 := by exact_mod_cast h2
    simp only [spec_bbox_centre]
    linarith

/-- Witness for C22: the tree with the leaves 0 and 1. -/
theorem find_leaf_hand_built_witness :
    (0 : ℤ) ≤ 0 ∧ (0 : ℤ) ≤ 1 ∧ 1 ≤ 1 ∧
    (∀ p : vector3, 0 ≤ p.x →
      find_leaf (hand_built_nodes 0 1) [plane_x] p 1 = Outcome.value 0) ∧
    (∀ p : vector3, p.x < 0 →
      find_leaf (hand_built_nodes 0 1) [plane_x] p 1 = Outcome.value 1) ∧
    (∀ leaf : q3bsp_leaf_t, 0 < leaf.mins.1 → 0 < leaf.maxs.1 →
      find_leaf (hand_built_nodes 0 1) [plane_x] (spec_bbox_centre leaf) 1 = Outcome.value 0) ∧
    (∀ leaf : q3bsp_leaf_t, leaf.mins.1 < 0 → leaf.maxs.1 < 0 →
      find_leaf (hand_built_nodes 0 1) [plane_x] (spec_bbox_centre leaf) 1 = Outcome.value 1) :=
  ⟨le_refl 0, by decide, le_refl 1,
    find_leaf_hand_built 0 1 (le_refl 0) (by decide) 1 (le_refl 1)⟩

/-! ## Blocks with other classnames -/

theorem clean_unknown_classname_blocks :
    (∀ blk ∈ unknown_classname_blocks, clean_block blk) ∧
    (∀ blk ∈ unknown_classname_blocks, no_deathmatch_classname blk) := by
  constructor
  · decide!
  · decide!

/-- C23 (the code at a text without the value `info_player_deathmatch`): the comparison of
`parse_entities` ignores case, so the block `{ "classname" "INFO_PLAYER_DEATHMATCH" }`, whose
only value differs from `info_player_deathmatch`, adds a spawn point: `num_spawn_points`
changes from 0 to 1. -/
theorem parse_entities_matches_upper_case :
    (∀ blk ∈ upper_deathmatch_blocks, ∀ p ∈ blk.2.1, p.2.2.2 ≠ str_info_player_deathmatch) ∧
    parse_entities sscanf_example 8 (some (entity_text [] upper_deathmatch_blocks))
        constructed_spawn_members =
      Outcome.value { spawn_points := List.replicate 50 ⟨0, ⟨0, 0, 0⟩⟩,
                      num_spawn_points := 1 } := by
  constructor
  · decide!
  · decide!

/-- C23 (amended): for every entity text made of well-formed blocks (tokens between double
quotes, shorter than 256 characters) in which no block has a key that compares equal to
`classname`, ignoring case, with a value that compares equal to `info_player_deathmatch`,
ignoring case, `parse_entities` returns with `spawn_points` and `num_spawn_points`
unchanged. -/
theorem parse_entities_ignores_unknown_classnames (libc : sscanf_t) (trailer : List Char)
    (blocks : List entity_block) (m : spawn_members) (fuel : ℕ)
    (htrailer : clean_filler trailer) (hclean : ∀ blk ∈ blocks, clean_block blk)
    (hno : ∀ blk ∈ blocks, no_deathmatch_classname blk)
    (hfuel : blocks.length + (blocks.map fun blk => blk.2.1.length).sum + 3 ≤ fuel) :
    parse_entities libc fuel (some (entity_text trailer blocks)) m = Outcome.value m := by
  have h := parse_entities_loop_ignores libc trailer htrailer blocks hclean hno []
    (by intro c hc; cases hc) fuel m hfuel
  simp only [List.nil_append] at h
  simp only [parse_entities, h, ite_self]

/-- Witness for C23: the text of the blocks `{ "classname" "worldspawn" }` and
`{ "classname" "light" "origin" "0 64 32" }` leaves the constructed spawn members as they
are. -/
theorem parse_entities_ignores_unknown_classnames_witness :
    clean_filler [Char.ofNat 10] ∧
    (∀ blk ∈ unknown_classname_blocks, clean_block blk) ∧
    (∀ blk ∈ unknown_classname_blocks, no_deathmatch_classname blk) ∧
    unknown_classname_blocks.length +
      (unknown_classname_blocks.map fun blk => blk.2.1.length).sum + 3 ≤ 8 ∧
    parse_entities sscanf_example 8
        (some (entity_text [Char.ofNat 10] unknown_classname_blocks))
        constructed_spawn_members =
      Outcome.value constructed_spawn_members :=
  have hfil : clean_filler [Char.ofNat 10] := by decide!
  ⟨hfil, clean_unknown_classname_blocks.1, clean_unknown_classname_blocks.2, by decide,
    parse_entities_ignores_unknown_classnames sscanf_example [Char.ofNat 10]
      unknown_classname_blocks constructed_spawn_members 8 hfil
      clean_unknown_classname_blocks.1 clean_unknown_classname_blocks.2 (by decide)⟩

/-! ## Properties of `update_frustum` -/

theorem matrix4_of_array_m {K : Type} (a : Fin 16 → K) (r c : Fin 4) :
    (matrix4.of_array a).m r c = a (array_index r c) := by
  fin_cases r <;> fin_cases c <;> rfl

theorem matrix4_transpose_m {K : Type} (a : matrix4 K) (r c : Fin 4) :
    a.transpose.m r c = a.m c r := by
  fin_cases r <;> fin_cases c <;> rfl

theorem matrix4_mul_m {K : Type} [Add K] [Mul K] (a b : matrix4 K) (r c : Fin 4) :
    (a.mul b).m r c = a.m r 0 * b.m 0 c + a.m r 1 * b.m 1 c + a.m r 2 * b.m 2 c +
      a.m r 3 * b.m 3 c := by
  fin_cases r <;> fin_cases c <;> rfl

theorem clip_matrix_row {K : Type} [Field K] (pm mvm : Fin 16 → K) (i j : Fin 4) :
    (clip_matrix pm mvm).row i j = spec_clip pm mvm i j := by
  unfold clip_matrix matrix4.row spec_clip
  simp only [matrix4_transpose_m, matrix4_mul_m, matrix4_of_array_m]
  ring

/-- C24: for all arrays `pm` and `mvm`, the matrix built by `update_frustum` (a `matrix4`
from each array, `m_mvm * m_pm`, transposed) has the entries `C[i][j] = Σ_k pm[4k+i] ·
mvm[4j+k]`, and the six planes before normalisation are row 3 − row 0, row 3 + row 0,
row 3 + row 1, row 3 − row 1, row 3 − row 2 and row 3 + row 2 of `C`; `update_frustum` stores
the result of `normalize_plane` on each. -/
theorem update_frustum_planes_of_clip {K : Type} [Field K] (sqrt : K → K)
    (pm mvm : Fin 16 → K) :
    (∀ i j, (((matrix4.of_array mvm).mul (matrix4.of_array pm)).transpose).row i j =
      spec_clip pm mvm i j) ∧
    (∀ j, frustum_planes (clip_matrix pm mvm) 0 j = spec_clip pm mvm 3 j - spec_clip pm mvm 0 j) ∧
    (∀ j, frustum_planes (clip_matrix pm mvm) 1 j = spec_clip pm mvm 3 j + spec_clip pm mvm 0 j) ∧
    (∀ j, frustum_planes (clip_matrix pm mvm) 2 j = spec_clip pm mvm 3 j + spec_clip pm mvm 1 j) ∧
    (∀ j, frustum_planes (clip_matrix pm mvm) 3 j = spec_clip pm mvm 3 j - spec_clip pm mvm 1 j) ∧
    (∀ j, frustum_planes (clip_matrix pm mvm) 4 j = spec_clip pm mvm 3 j - spec_clip pm mvm 2 j) ∧
    (∀ j, frustum_planes (clip_matrix pm mvm) 5 j = spec_clip pm mvm 3 j + spec_clip pm mvm 2 j) ∧
    (∀ i, update_frustum sqrt pm mvm i =
      ![(normalize_plane sqrt (frustum_planes (clip_matrix pm mvm) i 0)
          (frustum_planes (clip_matrix pm mvm) i 1) (frustum_planes (clip_matrix pm mvm) i 2)
          (frustum_planes (clip_matrix pm mvm) i 3)).1,
        (normalize_plane sqrt (frustum_planes (clip_matrix pm mvm) i 0)
          (frustum_planes (clip_matrix pm mvm) i 1) (frustum_planes (clip_matrix pm mvm) i 2)
          (frustum_planes (clip_matrix pm mvm) i 3)).2.1,
        (normalize_plane sqrt (frustum_planes (clip_matrix pm mvm) i 0)
          (frustum_planes (clip_matrix pm mvm) i 1) (frustum_planes (clip_matrix pm mvm) i 2)
          (frustum_planes (clip_matrix pm mvm) i 3)).2.2.1,
        (normalize_plane sqrt (frustum_planes (clip_matrix pm mvm) i 0)
          (frustum_planes (clip_matrix pm mvm) i 1) (frustum_planes (clip_matrix pm mvm) i 2)
          (frustum_planes (clip_matrix pm mvm) i 3)).2.2.2]) := by
  refine ⟨clip_matrix_row pm mvm, ?_, ?_, ?_, ?_, ?_, ?_, fun _ => rfl⟩ <;>
    intro j <;> simp only [← clip_matrix_row] <;> rfl

/-! ## Properties of `normalize_plane` -/

/-- C25: over the real numbers, for a plane `(a, b, c, d)` with `(a, b, c) ≠ (0, 0, 0)`,
`normalize_plane` gives `(a, b, c, d) / sqrt(a² + b² + c²)`; the result satisfies
`a'² + b'² + c'² = 1`, and `a'·x + b'·y + c'·z + d'` has the sign of `a·x + b·y + c·z + d`
at every point. -/
theorem normalize_plane_unit (a b c d : ℝ) (h : (a, b, c) ≠ (0, 0, 0)) :
    normalize_plane Real.sqrt a b c d =
      (a / Real.sqrt (a ^ 2 + b ^ 2 + c ^ 2), b / Real.sqrt (a ^ 2 + b ^ 2 + c ^ 2),
        c / Real.sqrt (a ^ 2 + b ^ 2 + c ^ 2), d / Real.sqrt (a ^ 2 + b ^ 2 + c ^ 2)) ∧
    (normalize_plane Real.sqrt a b c d).1 ^ 2 + (normalize_plane Real.sqrt a b c d).2.1 ^ 2 +
      (normalize_plane Real.sqrt a b c d).2.2.1 ^ 2 = 1 ∧
    ∀ x y z : ℝ,
      SignType.sign ((normalize_plane Real.sqrt a b c d).1 * x +
        (normalize_plane Real.sqrt a b c d).2.1 * y +
        (normalize_plane Real.sqrt a b c d).2.2.1 * z +
        (normalize_plane Real.sqrt a b c d).2.2.2) =
      SignType.sign (a * x + b * y + c * z + d) := by
  have hpos : 0 < a ^ 2 + b ^ 2 + c ^ 2 := by
    have hne : a ≠ 0 ∨ b ≠ 0 ∨ c ≠ 0 := by
      by_contra hcon
      push_neg at hcon
      exact h (by rw [hcon.1, hcon.2.1, hcon.2.2])
    rcases hne with ha | hb | hc
    · have := sq_pos_of_ne_zero ha
      nlinarith [sq_nonneg b, sq_nonneg c]
    · have := sq_pos_of_ne_zero hb
      nlinarith [sq_nonneg a, sq_nonneg c]
    · have := sq_pos_of_ne_zero hc
      nlinarith [sq_nonneg a, sq_nonneg b]
  have hmag : 0 < Real.sqrt (a ^ 2 + b ^ 2 + c ^ 2) := Real.sqrt_pos.mpr hpos
  have hsq : Real.sqrt (a ^ 2 + b ^ 2 + c ^ 2) ^ 2 = a ^ 2 + b ^ 2 + c ^ 2 :=
    Real.sq_sqrt hpos.le
  have heq : a * a + b * b + c * c = a ^ 2 + b ^ 2 + c ^ 2 := by ring
  have hdef : normalize_plane Real.sqrt a b c d =
      (a / Real.sqrt (a ^ 2 + b ^ 2 + c ^ 2), b / Real.sqrt (a ^ 2 + b ^ 2 + c ^ 2),
        c / Real.sqrt (a ^ 2 + b ^ 2 + c ^ 2), d / Real.sqrt (a ^ 2 + b ^ 2 + c ^ 2)) := by
    simp only [normalize_plane, heq]
  rw [hdef]
  refine ⟨rfl, ?_, ?_⟩
  · simp only [div_pow]
    rw [← add_div, ← add_div, hsq]
    exact div_self hpos.ne'
  · intro x y z
    have hfac : a / Real.sqrt (a ^ 2 + b ^ 2 + c ^ 2) * x +
        b / Real.sqrt (a ^ 2 + b ^ 2 + c ^ 2) * y +
        c / Real.sqrt (a ^ 2 + b ^ 2 + c ^ 2) * z + d / Real.sqrt (a ^ 2 + b ^ 2 + c ^ 2) =
        (a * x + b * y + c * z + d) * (Real.sqrt (a ^ 2 + b ^ 2 + c ^ 2))⁻¹ := by
      field_simp
    simp only [hfac]
    rw [sign_mul, sign_pos (inv_pos.mpr hmag), mul_one]

/-- Witness for C25: the plane `(3, 0, 4, 5)`. -/
theorem normalize_plane_unit_witness :
    ((3 : ℝ), (0 : ℝ), (4 : ℝ)) ≠ (0, 0, 0) ∧
    (normalize_plane Real.sqrt (3 : ℝ) 0 4 5 =
      (3 / Real.sqrt (3 ^ 2 + 0 ^ 2 + 4 ^ 2), 0 / Real.sqrt (3 ^ 2 + 0 ^ 2 + 4 ^ 2),
        4 / Real.sqrt (3 ^ 2 + 0 ^ 2 + 4 ^ 2), 5 / Real.sqrt (3 ^ 2 + 0 ^ 2 + 4 ^ 2)) ∧
    (normalize_plane Real.sqrt (3 : ℝ) 0 4 5).1 ^ 2 +
      (normalize_plane Real.sqrt (3 : ℝ) 0 4 5).2.1 ^ 2 +
      (normalize_plane Real.sqrt (3 : ℝ) 0 4 5).2.2.1 ^ 2 = 1 ∧
    ∀ x y z : ℝ,
      SignType.sign ((normalize_plane Real.sqrt (3 : ℝ) 0 4 5).1 * x +
        (normalize_plane Real.sqrt (3 : ℝ) 0 4 5).2.1 * y +
        (normalize_plane Real.sqrt (3 : ℝ) 0 4 5).2.2.1 * z +
        (normalize_plane Real.sqrt (3 : ℝ) 0 4 5).2.2.2) =
      SignType.sign ((3 : ℝ) * x + 0 * y + 4 * z + 5)) :=
  have h : ((3 : ℝ), (0 : ℝ), (4 : ℝ)) ≠ (0, 0, 0) := by
    intro hcon
    have h3 : (3 : ℝ) = 0 := congrArg Prod.fst hcon
    norm_num at h3
  ⟨h, normalize_plane_unit 3 0 4 5 h⟩

/-! ## Properties of `rotate_hor` -/

/-- C30 (the code at the failing input): from `theta_rot = 0`, `rotate_hor(-10)` stores 370,
and `rotate_hor_abs(-10)` stores 370, outside `[0, 360)`: `FLOAT_MOD` gives -10 and the
correction computes `360 - (-10)`. For a sum that is not negative the result is in range:
`rotate_hor(20)` from 350 stores 10; whenever `FLOAT_MOD` gives a negative value, the value
stored is above 360. -/
theorem rotate_hor_leaves_range :
    (0 : ℚ) ≤ 0 ∧ (0 : ℚ) < 360 ∧ FLOAT_MOD (0 + -10) 360 = -10 ∧
    rotate_hor 0 (-10) = 370 ∧ rotate_hor_abs (-10) = 370 ∧
    ¬ (rotate_hor 0 (-10) < 360) ∧ ¬ (rotate_hor_abs (-10) < 360) ∧
    rotate_hor 350 20 = 10 ∧
    (∀ theta_rot angle : ℚ, FLOAT_MOD (theta_rot + angle) 360 < 0 →
      360 < rotate_hor theta_rot angle) := by
  refine ⟨?_, ?_, ?_, ?_, ?_, ?_, ?_, ?_, ?_⟩
  · decide!
  · decide!
  · decide!
  · decide!
  · decide!
  · decide!
  · decide!
  · decide!
  · intro theta_rot angle h
    simp only [rotate_hor, if_pos h]
    linarith

/-! ## `find_leaf` on well-formed trees -/

theorem table_get_of_lt {α : Type} (table : List α) (i : ℤ) (h0 : 0 ≤ i)
    (h1 : i < table.length) :
    ∃ x, table_get table i = some x ∧ table[i.toNat]? = some x := by
  have hlt : i.toNat < table.length := by omega
  refine ⟨table[i.toNat], ?_, List.getElem?_eq_getElem hlt⟩
  unfold table_get
  rw [if_neg (by omega), List.getElem?_eq_getElem hlt]

theorem complement_nonneg (c : ℤ) (h : c < 0) : 0 ≤ ~~~c := by
  cases c with
  | ofNat n => exact absurd h (by simp)
  | negSucc n => exact Int.ofNat_nonneg n

theorem find_leaf_loop_well_formed (nodes : List q3bsp_node_t) (planes : List q3bsp_plane_t)
    (num_leafs : ℤ) (pos : vector3)
    (hwf : spec_well_formed nodes planes.length num_leafs)
    (hplane : ∀ node ∈ nodes, 0 ≤ node.plane) :
    ∀ (k : ℕ) (i : ℤ), 0 ≤ i → i < nodes.length → (nodes.length : ℤ) - i ≤ k →
      ∃ r, 0 ≤ r ∧ r < num_leafs ∧
        ∀ fuel, k ≤ fuel → find_leaf_loop nodes planes pos fuel i = Outcome.value r := by
  intro k
  induction k with
  | zero =>
    intro i _ h1 hk
    exfalso
    simp only [Nat.cast_zero] at hk
    omega
  | succ k ih =>
    intro i h0 h1 hk
    obtain ⟨node, hnode, hget⟩ := table_get_of_lt nodes i h0 h1
    obtain ⟨hpl, hchild⟩ := hwf i.toNat node hget
    have hmem : node ∈ nodes := by
      obtain ⟨hlt, heq⟩ := List.getElem?_eq_some.mp hget
      exact heq ▸ List.getElem_mem hlt
    obtain ⟨plane, hplane', _⟩ := table_get_of_lt planes node.plane (hplane node hmem) hpl
    have hi : ((i.toNat : ℕ) : ℤ) = i := Int.toNat_of_nonneg h0
    have step : ∀ c : ℤ, c = node.children.1 ∨ c = node.children.2 →
        ∃ r, 0 ≤ r ∧ r < num_leafs ∧
          ∀ fuel, k ≤ fuel → find_leaf_loop nodes planes pos fuel c = Outcome.value r := by
      intro c hc
      obtain ⟨hpos, hneg⟩ := hchild c hc
      by_cases hc0 : 0 ≤ c
      · obtain ⟨hlt, hgt⟩ := hpos hc0
        rw [hi] at hgt
        exact ih c hc0 hlt (by push_cast at hk ⊢; omega)
      · have hcn : c < 0 := by omega
        exact ⟨~~~c, complement_nonneg c hcn, hneg hcn,
          fun fuel _ => find_leaf_loop_neg nodes planes pos fuel c hcn⟩
    by_cases hd : plane_distance plane pos ≥ 0
    · obtain ⟨r, hr0, hr1, hr⟩ := step node.children.1 (Or.inl rfl)
      refine ⟨r, hr0, hr1, ?_⟩
      intro fuel hf
      obtain ⟨f, rfl⟩ : ∃ f, fuel = f + 1 := ⟨fuel - 1, by omega⟩
      rw [find_leaf_loop, if_pos h0, hnode]
      simp only [hplane', if_pos hd]
      exact hr f (by omega)
    · obtain ⟨r, hr0, hr1, hr⟩ := step node.children.2 (Or.inr rfl)
      refine ⟨r, hr0, hr1, ?_⟩
      intro fuel hf
      obtain ⟨f, rfl⟩ : ∃ f, fuel = f + 1 := ⟨fuel - 1, by omega⟩
      rw [find_leaf_loop, if_pos h0, hnode]
      simp only [hplane', if_neg hd]
      exact hr f (by omega)

/-- C26 (the code on trees that satisfy the stated conditions): a tree without nodes
satisfies them, and `find_leaf` reads `nodes[0]` outside the table; the tree of one node with
plane index -1 over one plane satisfies them, and `find_leaf` reads `planes[-1]`. -/
theorem find_leaf_reads_outside_stated_tree :
    spec_well_formed [] 0 0 ∧
    (∀ (pos : vector3) (fuel : ℕ), find_leaf [] [] pos (fuel + 1) = Outcome.out_of_bounds) ∧
    spec_well_formed negative_plane_nodes 1 2 ∧
    (∀ (pos : vector3) (fuel : ℕ),
      find_leaf negative_plane_nodes [plane_x] pos (fuel + 1) = Outcome.out_of_bounds) := by
  refine ⟨?_, fun _ _ => rfl, ?_, fun _ _ => rfl⟩
  · intro i node h
    simp at h
  · intro i node h
    cases i with
    | zero =>
      simp only [negative_plane_nodes, List.getElem?_cons_zero, Option.some.injEq] at h
      subst h
      refine ⟨by decide, ?_⟩
      intro c hc
      rcases hc with rfl | rfl
      · exact ⟨fun h => absurd h (by decide), fun _ => by decide⟩
      · exact ⟨fun h => absurd h (by decide), fun _ => by decide⟩
    | succ n =>
      simp [negative_plane_nodes] at h

/-- C26 (amended): on a tree with at least one node in which every node's plane index is at
least 0 and below the number of planes, every child index that is not negative is below the
number of nodes and strictly greater than the index of its parent, and every negative child
index `c` has `~c < num_leafs`, `find_leaf` returns for every point, with every fuel of at
least the number of nodes and without a read outside a table, a leaf index `r` with
`0 ≤ r < num_leafs`. -/
theorem find_leaf_terminates_on_well_formed (nodes : List q3bsp_node_t)
    (planes : List q3bsp_plane_t) (num_leafs : ℤ) (pos : vector3)
    (hnodes : 0 < nodes.length)
    (hwf : spec_well_formed nodes planes.length num_leafs)
    (hplane : ∀ node ∈ nodes, 0 ≤ node.plane) :
    ∃ r, 0 ≤ r ∧ r < num_leafs ∧
      ∀ fuel, nodes.length ≤ fuel → find_leaf nodes planes pos fuel = Outcome.value r := by
  unfold find_leaf
  exact find_leaf_loop_well_formed nodes planes num_leafs pos hwf hplane nodes.length 0
    (le_refl 0) (by exact_mod_cast hnodes) (by omega)

theorem spec_well_formed_two_level : spec_well_formed two_level_nodes 2 3 := by
  intro i node h
  match i, h with
  | 0, h =>
    simp only [two_level_nodes, List.getElem?_cons_zero, Option.some.injEq] at h
    subst h
    refine ⟨by decide, ?_⟩
    intro c hc
    rcases hc with rfl | rfl
    · exact ⟨fun _ => by decide, fun h => absurd h (by decide)⟩
    · exact ⟨fun h => absurd h (by decide), fun _ => by decide⟩
  | 1, h =>
    simp only [two_level_nodes, List.getElem?_cons_succ, List.getElem?_cons_zero,
      Option.some.injEq] at h
    subst h
    refine ⟨by decide, ?_⟩
    intro c hc
    rcases hc with rfl | rfl
    · exact ⟨fun h => absurd h (by decide), fun _ => by decide⟩
    · exact ⟨fun h => absurd h (by decide), fun _ => by decide⟩
  | n + 2, h =>
    simp [two_level_nodes] at h

/-- Witness for C26 (amended): the tree of two nodes over two planes and three leaves. -/
theorem find_leaf_terminates_on_well_formed_witness :
    0 < two_level_nodes.length ∧
    spec_well_formed two_level_nodes two_level_planes.length 3 ∧
    (∀ node ∈ two_level_nodes, 0 ≤ node.plane) ∧
    ∃ r, 0 ≤ r ∧ r < 3 ∧
      ∀ fuel, two_level_nodes.length ≤ fuel →
        find_leaf two_level_nodes two_level_planes ⟨1, 5, 0⟩ fuel = Outcome.value r :=
  ⟨by decide, spec_well_formed_two_level, by decide,
    find_leaf_terminates_on_well_formed two_level_nodes two_level_planes 3 ⟨1, 5, 0⟩
      (by decide) spec_well_formed_two_level (by decide)⟩

/-! ## `find_leaf` and the axis swap -/

theorem table_get_map {α β : Type} (f : α → β) (table : List α) (i : ℤ) :
    table_get (table.map f) i = (table_get table i).map f := by
  unfold table_get
  by_cases h : i < 0
  · simp [h]
  · simp [h]

theorem plane_distance_swizzle (plane : q3bsp_plane_t) (p : vector3) :
    plane_distance (swizzle_plane plane) (swizzle_point p) = plane_distance plane p := by
  simp only [plane_distance, swizzle_plane, swizzle_point, swizzle_coords_f, SWAP]
  ring

theorem find_leaf_loop_swizzle (nodes : List q3bsp_node_t) (planes : List q3bsp_plane_t)
    (p : vector3) (fuel : ℕ) :
    ∀ i : ℤ, find_leaf_loop nodes (planes.map swizzle_plane) (swizzle_point p) fuel i =
      find_leaf_loop nodes planes p fuel i := by
  induction fuel with
  | zero =>
    intro i
    rfl
  | succ f ih =>
    intro i
    rw [find_leaf_loop, find_leaf_loop]
    by_cases h0 : i ≥ 0
    · rw [if_pos h0, if_pos h0]
      cases hn : table_get nodes i with
      | none => rfl
      | some node =>
        simp only [table_get_map]
        cases hp : table_get planes node.plane with
        | none => rfl
        | some plane =>
          simp only [Option.map_some', plane_distance_swizzle, ih]
    · rw [if_neg h0, if_neg h0]

/-- C27 (the code in the arithmetic of `float`): for the file plane with normal
`(2 ^ 24, 1, -2 ^ 24)` and distance `1 / 2` and the point `(1, 1, 1)`, all of them values of
type `float`, the distance computed from left to right is `-1 / 2` (the sum `2 ^ 24 + 1` is
rounded to `2 ^ 24`), while for the swizzled plane at the swizzled point it is `1 / 2`; on the
tree of one node with the leaves 0 and 1, `find_leaf` returns leaf 1 over the file plane and
leaf 0 over the swizzled plane. -/
theorem float_find_leaf_differs_after_swizzle :
    round_float 16777216 = 16777216 ∧ round_float (-16777216) = -16777216 ∧
    round_float 1 = 1 ∧ round_float (1 / 2) = 1 / 2 ∧
    float_add 16777216 1 = 16777216 ∧
    float_plane_distance file_plane_wide ⟨1, 1, 1⟩ = -1 / 2 ∧
    float_plane_distance (swizzle_plane file_plane_wide) (swizzle_point ⟨1, 1, 1⟩) = 1 / 2 ∧
    float_find_leaf (hand_built_nodes 0 1) [file_plane_wide] ⟨1, 1, 1⟩ 1 = Outcome.value 1 ∧
    float_find_leaf (hand_built_nodes 0 1) ([file_plane_wide].map swizzle_plane)
      (swizzle_point ⟨1, 1, 1⟩) 1 = Outcome.value 0 := by
  refine ⟨?_, ?_, ?_, ?_, ?_, ?_, ?_, ?_, ?_⟩
  · decide!
  · decide!
  · decide!
  · decide!
  · decide!
  · decide!
  · decide!
  · decide!
  · decide!

/-- C27 (amended): in exact arithmetic, for all triples `n` and `p`, the dot product of the
swizzled triples equals `dot(n, p)`; for every node table, plane table, point and fuel,
`find_leaf` with exact distances over the planes with swizzled normals (`dist` unchanged) at
the swizzled point gives the same result as over the planes of the file at the point
itself. -/
theorem find_leaf_swizzle_invariant (nodes : List q3bsp_node_t) (planes : List q3bsp_plane_t)
    (p : vector3) (fuel : ℕ) :
    (∀ (n : ℚ × ℚ × ℚ) (q : vector3),
      spec_dot (swizzle_coords_f n.1 n.2.1 n.2.2) (swizzle_point q) = spec_dot n q) ∧
    find_leaf nodes (planes.map swizzle_plane) (swizzle_point p) fuel =
      find_leaf nodes planes p fuel := by
  constructor
  · intro n q
    simp only [spec_dot, swizzle_point, swizzle_coords_f, SWAP]
    ring
  · exact find_leaf_loop_swizzle nodes planes p fuel 0

/-! ## `get_next_token` at an open quote and at a long token -/

/-- C28 (the code at the failing inputs): for the string `"abc` (an opening quote without a
closing quote) `get_next_token` returns the position one past the terminator; for the string
`"abcd"` and `buf_size = 2` it stores two characters, which fill the buffer so that no
terminator is left in it; for a closed short token the result is in the string. -/
theorem get_next_token_passes_terminator :
    get_next_token (QUOTE :: "abc".toList) 256 = ("abc".toList, none) ∧
    get_next_token (quoted "abcd".toList) 2 = ("ab".toList, some [Char.ofNat 100, QUOTE]) ∧
    buf_string (get_next_token (quoted "abcd".toList) 2).1 2 = none ∧
    get_next_token (quoted "abc".toList) 256 = ("abc".toList, some []) := by
  refine ⟨?_, ?_, ?_, ?_⟩
  · decide!
  · decide!
  · decide!
  · decide!

/-! ## Properties of `cstrcmp` -/

theorem cstrcmp_loop_nil_nil : cstrcmp_loop [] [] = 0 := by
  simp [cstrcmp_loop, cstrcmp_end, deref]

theorem cstrcmp_loop_nil_cons (c2 : Char) (r2 : List Char) (h2 : c2 ≠ NUL) :
    cstrcmp_loop [] (c2 :: r2) = -1 := by
  simp [cstrcmp_loop, cstrcmp_end, deref, h2]

theorem cstrcmp_loop_cons_nil (c1 : Char) (r1 : List Char) (h1 : c1 ≠ NUL) :
    cstrcmp_loop (c1 :: r1) [] = 1 := by
  simp [cstrcmp_loop, deref, h1]

theorem cstrcmp_loop_cons_cons (c1 c2 : Char) (r1 r2 : List Char) (h1 : c1 ≠ NUL)
    (h2 : c2 ≠ NUL) :
    cstrcmp_loop (c1 :: r1) (c2 :: r2) =
      if tolower c1 > tolower c2 then 1
      else if tolower c1 < tolower c2 then -1
      else cstrcmp_loop r1 r2 := by
  rw [cstrcmp_loop, if_neg h1]
  simp only [deref, List.headD_cons, List.tail_cons, if_neg h2]

theorem cstrcmp_loop_spec (s1 : List Char) :
    ∀ s2 : List Char, NUL ∉ s1 → NUL ∉ s2 →
      (cstrcmp_loop s1 s2 = 0 ↔ s1.map tolower = s2.map tolower) ∧
      (cstrcmp_loop s1 s2 = 0 ∨ cstrcmp_loop s1 s2 = 1 ∨ cstrcmp_loop s1 s2 = -1) ∧
      cstrcmp_loop s1 s2 = -cstrcmp_loop s2 s1 := by
  induction s1 with
  | nil =>
    intro s2 _ h2
    cases s2 with
    | nil => simp [cstrcmp_loop_nil_nil]
    | cons c2 r2 =>
      have hc2 : c2 ≠ NUL := fun h => h2 (h ▸ List.mem_cons_self _ _)
      simp [cstrcmp_loop_nil_cons c2 r2 hc2, cstrcmp_loop_cons_nil c2 r2 hc2]
  | cons c1 r1 ih =>
    intro s2 h1 h2
    have hc1 : c1 ≠ NUL := fun h => h1 (h ▸ List.mem_cons_self _ _)
    have hr1 : NUL ∉ r1 := fun h => h1 (List.mem_cons_of_mem _ h)
    cases s2 with
    | nil => simp [cstrcmp_loop_nil_cons c1 r1 hc1, cstrcmp_loop_cons_nil c1 r1 hc1]
    | cons c2 r2 =>
      have hc2 : c2 ≠ NUL := fun h => h2 (h ▸ List.mem_cons_self _ _)
      have hr2 : NUL ∉ r2 := fun h => h2 (List.mem_cons_of_mem _ h)
      obtain ⟨ih1, ih2, ih3⟩ := ih r2 hr1 hr2
      rw [cstrcmp_loop_cons_cons c1 c2 r1 r2 hc1 hc2,
        cstrcmp_loop_cons_cons c2 c1 r2 r1 hc2 hc1]
      rcases Nat.lt_trichotomy (tolower c1) (tolower c2) with hlt | heq | hgt
      · have hn : ¬ tolower c1 > tolower c2 := by omega
        have hne : tolower c1 ≠ tolower c2 := by omega
        simp [hn, hlt, hne]
      · have hn1 : ¬ tolower c1 > tolower c2 := by omega
        have hn2 : ¬ tolower c1 < tolower c2 := by omega
        have hn3 : ¬ tolower c2 > tolower c1 := by omega
        have hn4 : ¬ tolower c2 < tolower c1 := by omega
        rw [if_neg hn1, if_neg hn2, if_neg hn3, if_neg hn4]
        refine ⟨?_, ih2, ih3⟩
        rw [ih1]
        simp [heq]
      · have hn : ¬ tolower c2 > tolower c1 := by omega
        have hne : tolower c1 ≠ tolower c2 := by omega
        simp [hn, hgt, hne]

/-- C29: for non-null strings `s1` and `s2` (character lists without NUL), `cstrcmp(s1, s2)`
is 0 if and only if the strings have the same length and are equal character by character
after `tolower`; the result is always 0, 1 or -1, and `cstrcmp(s1, s2) = -cstrcmp(s2, s1)`. -/
theorem cstrcmp_case_insensitive (s1 s2 : List Char) (h1 : NUL ∉ s1) (h2 : NUL ∉ s2) :
    (cstrcmp (some s1) (some s2) = 0 ↔
      s1.length = s2.length ∧ s1.map tolower = s2.map tolower) ∧
    (cstrcmp (some s1) (some s2) ≠ 0 →
      cstrcmp (some s1) (some s2) = 1 ∨ cstrcmp (some s1) (some s2) = -1) ∧
    cstrcmp (some s1) (some s2) = -cstrcmp (some s2) (some s1) := by
  obtain ⟨ha, hb, hc⟩ := cstrcmp_loop_spec s1 s2 h1 h2
  simp only [cstrcmp]
  refine ⟨?_, ?_, hc⟩
  · rw [ha]
    constructor
    · intro h
      refine ⟨?_, h⟩
      have := congrArg List.length h
      simpa using this
    · exact fun h => h.2
  · intro hne
    rcases hb with h | h | h
    · exact absurd h hne
    · exact Or.inl h
    · exact Or.inr h

/-- Witness for C29: `ClassName` against `classname`. -/
theorem cstrcmp_case_insensitive_witness :
    NUL ∉ "ClassName".toList ∧ NUL ∉ str_classname ∧
    ((cstrcmp (some "ClassName".toList) (some str_classname) = 0 ↔
      "ClassName".toList.length = str_classname.length ∧
        "ClassName".toList.map tolower = str_classname.map tolower) ∧
    (cstrcmp (some "ClassName".toList) (some str_classname) ≠ 0 →
      cstrcmp (some "ClassName".toList) (some str_classname) = 1 ∨
        cstrcmp (some "ClassName".toList) (some str_classname) = -1) ∧
    cstrcmp (some "ClassName".toList) (some str_classname) =
      -cstrcmp (some str_classname) (some "ClassName".toList)) :=
  ⟨by decide!, by decide!,
    cstrcmp_case_insensitive "ClassName".toList str_classname (by decide!) (by decide!)⟩

end Q3
